import Mathlib

/-!
# ZecX-HD agent: service orchestration, reconciliation loop and session handlers

A shallow embedding of the reconciliation goroutine of `agent/cmd/main.go`
(the settings watcher), of the listener lifecycle operations of
`agent/internal/honeypot.go`, and of the handlers that serve a connection: the
authentication handlers and the fake shell of the SSH listener and the line
reader of a generic service.

Conventions of the embedding:

* Go `string` values are Lean `String`s, Go `int` values are `Int`s.
* A Go `map[string]T` is an association list without duplicate keys
  (`GoMap T`); `range` visits the entries of the list in order.  Go leaves the
  order of a `range` over a map unspecified, the properties below do not
  depend on it.
* Calls on the outside world (closing a server, invoking a cancel function,
  `SetStatus`, `AddEvent`, spawning a goroutine) are recorded in a trace of
  `Effect`s, in program order.
* A goroutine spawned by the loop is recorded as a pending task; its body is a
  function of its own that is applied when the task completes, with the
  outcome of the bind as an argument.
* A session handler is a function of the bytes it reads; what it writes and
  the events it sends are recorded in a list of `Out` steps, in program order.
  Deadlines and time stamps are left out.
-/

namespace ZecX

/-! ## Data model (`agent/internal/firestore.go`) -/

/-- Generic honeypot service configuration (`type Service`). -/
structure Service where
  Name : String
  Kind : String
  Port : Int
  Enabled : Bool
  Banner : String
deriving DecidableEq, Repr

/-- Desired state polled from the backend (`type Settings`). -/
structure Settings where
  EnableSSH : Bool
  EnableHTTP : Bool
  SSHPort : Int
  HTTPPort : Int
  Services : List Service
deriving DecidableEq, Repr

/-- Runtime state of one of the default listeners (`type StatusEntry`). -/
structure StatusEntry where
  Enabled : Bool := false
  Port : Int := 0
  Listening : Bool := false
  Error : String := ""
deriving DecidableEq, Repr

/-- Runtime state of one generic service (`type ServiceStatus`). -/
structure ServiceStatus where
  Name : String := ""
  Kind : String := ""
  Port : Int := 0
  Enabled : Bool := false
  Listening : Bool := false
  Error : String := ""
deriving DecidableEq, Repr

/-- Status document pushed to the backend (`type Status`, the time stamp is
left out). -/
structure Status where
  SSH : StatusEntry := {}
  HTTP : StatusEntry := {}
  Services : List ServiceStatus := []
deriving DecidableEq, Repr

/-- Event record (`type Event`); the time stamp and the geo enrichment are left
out, the payload is a list of key/value pairs. -/
structure Event where
  AttackerIP : String := ""
  TargetPort : Int := 0
  EvType : String := ""
  Payload : List (String × String) := []
  Severity : String := ""
deriving DecidableEq, Repr

/-! ## `strconv.Itoa` and the identity key -/

/-- The decimal digit character of `d < 10`. -/
def digitChar (d : Nat) : Char := Char.ofNat (48 + d)

/-- Decimal digits of `n`, most significant first; `fuel` bounds the number of
digits produced. -/
def natDigits : Nat → Nat → List Char
  | 0, _ => []
  | fuel + 1, n =>
    if n < 10 then [digitChar n] else natDigits fuel (n / 10) ++ [digitChar (n % 10)]

/-- Decimal rendering of a natural number. -/
def formatNat (n : Nat) : List Char := natDigits (n + 1) n

/-- Value of a string of decimal digits, the inverse of `formatNat`. -/
def decVal (l : List Char) : Nat := l.foldl (fun a c => a * 10 + (c.toNat - 48)) 0

/-- Go `strconv.Itoa`: base ten, a leading `-` for a negative number. -/
def Itoa (i : Int) : String :=
  if i < 0 then String.mk ('-' :: formatNat i.natAbs) else String.mk (formatNat i.natAbs)

/-- Identity key of a listener: `kind + ":" + strconv.Itoa(port)`. -/
def svcKeyOf (kind : String) (port : Int) : String := kind ++ ":" ++ Itoa port

/-- Identity key of a service descriptor: `svc.Kind + ":" + strconv.Itoa(svc.Port)`. -/
def svcKey (svc : Service) : String := svcKeyOf svc.Kind svc.Port

/-! ## Go maps -/

/-- A Go `map[string]T`: association list, at most one entry per key. -/
abbrev GoMap (α : Type) := List (String × α)

namespace GoMap

variable {α : Type}

/-- The lookup `v, ok := m[k]`. -/
def get (m : GoMap α) (k : String) : Option α := (m.find? (fun e => e.1 == k)).map Prod.snd

/-- The builtin `delete(m, k)`. -/
def delete (m : GoMap α) (k : String) : GoMap α := m.filter (fun e => !(e.1 == k))

/-- The assignment `m[k] = v`. -/
def set (m : GoMap α) (k : String) (v : α) : GoMap α := m.delete k ++ [(k, v)]

/-- The keys of the map. -/
def keys (m : GoMap α) : List String := m.map Prod.fst

end GoMap

/-! ## Effects -/

/-- A goroutine spawned by the settings watcher, with the arguments it
captures. -/
inductive Task where
  /-- The `go func(p int)` that runs `hp.StartSSHListener(ctx, p)`. -/
  | startSSH (p : Int)
  /-- The `go func(p int)` that runs `hp.StartHTTPListener(ctx, p)`. -/
  | startHTTP (p : Int)
  /-- The `go func(svc, bnr, key)` that runs `hp.StartGenericService`. -/
  | startGeneric (svc : Service) (bnr : String) (key : String)
deriving DecidableEq, Repr

/-- Calls on the outside world, recorded in program order. -/
inductive Effect where
  /-- Call of `hp.StopSSH()`. -/
  | callStopSSH
  /-- Call of `hp.StopHTTP()`. -/
  | callStopHTTP
  /-- Call of `hp.StopGenericService(kind, port)`. -/
  | callStopGeneric (kind : String) (port : Int)
  /-- A `go` statement. -/
  | go (t : Task)
  /-- The call `h.sshSrv.Close()` on the server `srv`. -/
  | closeSSH (srv : Nat)
  /-- The call `h.httpSrv.Close()` on the server `srv`. -/
  | closeHTTP (srv : Nat)
  /-- Invocation `c()` of the cancel function `handle`. -/
  | cancel (handle : Nat)
  /-- The call `net.Listen("tcp", ":"+strconv.Itoa(port))`. -/
  | listen (port : Int)
  /-- The accept loop spawned after a successful bind, with the values its
  connection handler captures. -/
  | serve (kind name : String) (port : Int) (banner : String)
  /-- The call `b.SetStatus(ctx, agentUUID, st)`. -/
  | setStatus (st : Status)
  /-- The call `b.AddEvent(ctx, agentUUID, ev)`. -/
  | addEvent (ev : Event)
  /-- The call `b.UpdateSystemInfo(ctx, agentUUID, ...)`. -/
  | updateSystemInfo
deriving DecidableEq, Repr

/-! ## The orchestrator (`agent/internal/honeypot.go`) -/

/-- The mutable fields of `type Honeypot`: the two server slots (`nil` is
`none`, a server is named by a number) and the cancel functions of the generic
services keyed as `kind:port` (a cancel function is named by a number). -/
structure Honeypot where
  sshSrv : Option Nat
  httpSrv : Option Nat
  svcCancels : GoMap Nat
deriving DecidableEq, Repr

/-- The function `NewHoneypot`. -/
def NewHoneypot : Honeypot := { sshSrv := none, httpSrv := none, svcCancels := [] }

namespace Honeypot

/-- The method `StopSSH`: closes the SSH server if the slot is not nil; the
receiver is not modified. -/
def StopSSH (h : Honeypot) : List Effect :=
  match h.sshSrv with
  | some srv => [Effect.closeSSH srv]
  | none => []

/-- The method `StopHTTP`: closes the HTTP server if the slot is not nil; the
receiver is not modified. -/
def StopHTTP (h : Honeypot) : List Effect :=
  match h.httpSrv with
  | some srv => [Effect.closeHTTP srv]
  | none => []

/-- The method `StopGenericService`:
`if c, ok := h.svcCancels[key]; ok { c(); delete(h.svcCancels, key) }`. -/
def StopGenericService (h : Honeypot) (kind : String) (port : Int) : Honeypot × List Effect :=
  let key := svcKeyOf kind port
  match h.svcCancels.get key with
  | some c => ({ h with svcCancels := h.svcCancels.delete key }, [Effect.cancel c])
  | none => (h, [])

/-- The method `StartGenericService`.  `bindErr` is the error returned by
`net.Listen` (`none` for a successful bind) and `newCancel` names the cancel
function made by `context.WithCancel`.  The result is the receiver afterwards,
the effects, and the returned error. -/
def StartGenericService (h : Honeypot) (kind name : String) (port : Int) (banner : String)
    (bindErr : Option String) (newCancel : Nat) : Honeypot × List Effect × Option String :=
  let key := svcKeyOf kind port
  -- Stop existing if running
  let (h1, e1) :=
    match h.svcCancels.get key with
    | some c => (({ h with svcCancels := h.svcCancels.delete key } : Honeypot), [Effect.cancel c])
    | none => (h, [])
  match bindErr with
  | some err => (h1, e1 ++ [Effect.listen port], some err)
  | none =>
    ({ h1 with svcCancels := h1.svcCancels.set key newCancel },
      e1 ++ [Effect.listen port, Effect.serve kind name port banner], none)

/-- The state change of `StartSSHListener`: `h.sshSrv = srv` is assigned before
`srv.ListenAndServe()` is entered, whatever that call returns. -/
def StartSSHListener (h : Honeypot) (newSrv : Nat) : Honeypot := { h with sshSrv := some newSrv }

/-- The state change of `StartHTTPListener`: `h.httpSrv = srv` is assigned
before `srv.ListenAndServe()` is entered, whatever that call returns. -/
def StartHTTPListener (h : Honeypot) (newSrv : Nat) : Honeypot := { h with httpSrv := some newSrv }

end Honeypot

/-- The first steps of the connection handler of a generic service (the
`go func(c net.Conn)` of `StartGenericService`, up to the banner): the
`SERVICE_CONNECT` event, then `if banner != "" { io.WriteString(c, banner) }`.
The result is the events emitted and the bytes written to the connection. -/
def connAccept (kind name : String) (port : Int) (banner : String) (remoteIP : String) :
    List Event × String :=
  ([{ AttackerIP := remoteIP, TargetPort := port, EvType := "SERVICE_CONNECT",
      Payload := [("service", kind), ("name", name)], Severity := "Low" }],
   if banner != "" then banner else "")

/-! ## The settings watcher (`agent/cmd/main.go`) -/

/-- The variables of the settings watcher that live across ticks. -/
structure LoopState where
  lastSSH : Bool
  lastHTTP : Bool
  lastSPort : Int
  lastHPort : Int
  running : GoMap Service
deriving DecidableEq, Repr

/-- The state shared by the watcher and the goroutines it spawns: the watcher
variables and the orchestrator. -/
structure World where
  loop : LoopState
  hp : Honeypot
deriving DecidableEq, Repr

/-- The state in which the watcher enters its first tick: both defaults
enabled on the startup ports, nothing running. -/
def initLoop (sshPort httpPort : Int) : LoopState :=
  { lastSSH := true, lastHTTP := true, lastSPort := sshPort, lastHPort := httpPort, running := [] }

/-- What the backend call `b.GetSettings` returned: an error, or the settings
value with the flag telling whether a settings document exists. -/
abbrev Fetch := Except String (Settings × Bool)

/-- The effective desired state of the default listeners. -/
structure Desired where
  curSSH : Bool
  curHTTP : Bool
  curSPort : Int
  curHPort : Int
deriving DecidableEq, Repr

/-- Lines 120-133 of the watcher: the values `curSSH, curHTTP, curSPort,
curHPort` computed from the fetched settings. -/
def effective (sshPort httpPort : Int) (set : Settings) (ok : Bool) : Desired :=
  let curSSH := set.EnableSSH
  let curHTTP := set.EnableHTTP
  let curSPort := set.SSHPort
  let curHPort := set.HTTPPort
  let (curSSH, curHTTP) := if !ok then (true, true) else (curSSH, curHTTP)
  let (curSPort, curHPort) := if !ok then (sshPort, httpPort) else (curSPort, curHPort)
  let curSPort := if curSPort == 0 then sshPort else curSPort
  let curHPort := if curHPort == 0 then httpPort else curHPort
  { curSSH := curSSH, curHTTP := curHTTP, curSPort := curSPort, curHPort := curHPort }

/-- Lines 135-148: the SSH slot. -/
def reconcileSSH (hp : Honeypot) (lastSSH : Bool) (lastSPort : Int) (curSSH : Bool)
    (curSPort : Int) : List Effect :=
  if curSSH && (!lastSSH || curSPort != lastSPort) then
    Effect.callStopSSH :: hp.StopSSH ++ [Effect.go (Task.startSSH curSPort)]
  else if !curSSH && lastSSH then
    Effect.callStopSSH :: hp.StopSSH ++
      [Effect.setStatus { SSH := { Enabled := false, Port := curSPort, Listening := false } }]
  else []

/-- Lines 150-163: the HTTP slot. -/
def reconcileHTTP (hp : Honeypot) (lastHTTP : Bool) (lastHPort : Int) (curHTTP : Bool)
    (curHPort : Int) : List Effect :=
  if curHTTP && (!lastHTTP || curHPort != lastHPort) then
    Effect.callStopHTTP :: hp.StopHTTP ++ [Effect.go (Task.startHTTP curHPort)]
  else if !curHTTP && lastHTTP then
    Effect.callStopHTTP :: hp.StopHTTP ++
      [Effect.setStatus { HTTP := { Enabled := false, Port := curHPort, Listening := false } }]
  else []

/-- Lines 166-169: the map `desired` built from `set.Services`. -/
def desiredMap (services : List Service) : GoMap Service :=
  services.foldl (fun d svc => d.set (svcKey svc) svc) []

/-- The condition of line 172 under which a running service is stopped. -/
def mustStop (desired : GoMap Service) (key : String) (cur : Service) : Bool :=
  match desired.get key with
  | none => true
  | some want => !want.Enabled || want.Banner != cur.Banner || want.Name != cur.Name

/-- One iteration of the loop of lines 170-176 on the entry `(key, cur)`. -/
def stopStep (desired : GoMap Service) (acc : GoMap Service × Honeypot × List Effect)
    (e : String × Service) : GoMap Service × Honeypot × List Effect :=
  let (running, hp, tr) := acc
  let (key, cur) := e
  if mustStop desired key cur then
    let (hp1, e1) := hp.StopGenericService cur.Kind cur.Port
    (running.delete key, hp1, tr ++ Effect.callStopGeneric cur.Kind cur.Port :: e1)
  else (running, hp, tr)

/-- Lines 170-176: stop and forget every running service that is no longer
wanted as it runs. -/
def stopLoop (desired running : GoMap Service) (hp : Honeypot) :
    GoMap Service × Honeypot × List Effect :=
  running.foldl (stopStep desired) (running, hp, [])

/-- Lines 184-200: the banner a service is started with. -/
def startBanner (svc : Service) : String :=
  let banner := svc.Banner
  if banner == "" then
    if svc.Kind == "telnet" then "\r\nUbuntu 22.04 LTS\r\nlogin: "
    else if svc.Kind == "ftp" then "220 (vsFTPd 3.0.3)\r\n"
    else if svc.Kind == "smtp" then "220 mail ESMTP Postfix\r\n"
    else if svc.Kind == "mysql" then "\x05\x00\x00\x0a5.7.42\x00"
    else if svc.Kind == "memcached" then "\r\n"
    else if svc.Kind == "vnc" then "RFB 003.008\n"
    else banner
  else banner

/-- One iteration of the loop of lines 177-211 on the entry `(key, svc)`. -/
def startStep (running : GoMap Service) (tr : List Effect) (e : String × Service) :
    List Effect :=
  let (key, svc) := e
  if !svc.Enabled then tr
  else if (running.get key).isSome then tr
  else tr ++ [Effect.go (Task.startGeneric svc (startBanner svc) key)]

/-- Lines 177-211: spawn a start for every wanted, enabled service that is not
in `running`. -/
def startLoop (desired running : GoMap Service) : List Effect :=
  desired.foldl (startStep running) []

/-- One tick of the settings watcher (the body of the `for` of lines 114-218,
without the sleep), the spawned goroutines not yet run. -/
def tick (sshPort httpPort : Int) (fetch : Fetch) (w : World) : World × List Effect :=
  match fetch with
  | .error _ => (w, [])
  | .ok (set, ok) =>
    let d := effective sshPort httpPort set ok
    let trSSH := reconcileSSH w.hp w.loop.lastSSH w.loop.lastSPort d.curSSH d.curSPort
    let trHTTP := reconcileHTTP w.hp w.loop.lastHTTP w.loop.lastHPort d.curHTTP d.curHPort
    -- Reconcile additional services
    let desired := desiredMap set.Services
    let (running1, hp1, trStop) := stopLoop desired w.loop.running w.hp
    let trStart := startLoop desired running1
    ({ loop := { lastSSH := d.curSSH, lastHTTP := d.curHTTP, lastSPort := d.curSPort,
                 lastHPort := d.curHPort, running := running1 },
       hp := hp1 },
     trSSH ++ trHTTP ++ trStop ++ trStart ++ [Effect.updateSystemInfo])

/-- The goroutines spawned in a trace, in the order of their `go` statements. -/
def spawned (tr : List Effect) : List Task :=
  tr.filterMap (fun e => match e with | Effect.go t => some t | _ => none)

/-- The body of a spawned goroutine.  `res` is what the start call returned
(`none` for a nil error) and `fresh` names the server or the cancel function
the call creates. -/
def runTask (t : Task) (res : Option String) (fresh : Nat) (w : World) : World × List Effect :=
  match t with
  | Task.startSSH p =>
    let hp1 := w.hp.StartSSHListener fresh
    match res with
    | some err =>
      ({ w with hp := hp1 },
        [Effect.setStatus { SSH := { Enabled := true, Port := p, Listening := false, Error := err } }])
    | none =>
      ({ w with hp := hp1 },
        [Effect.setStatus { SSH := { Enabled := true, Port := p, Listening := true } }])
  | Task.startHTTP p =>
    let hp1 := w.hp.StartHTTPListener fresh
    match res with
    | some err =>
      ({ w with hp := hp1 },
        [Effect.setStatus { HTTP := { Enabled := true, Port := p, Listening := false, Error := err } }])
    | none =>
      ({ w with hp := hp1 },
        [Effect.setStatus { HTTP := { Enabled := true, Port := p, Listening := true } }])
  | Task.startGeneric svc bnr key =>
    let (hp1, e1, err) := w.hp.StartGenericService svc.Kind svc.Name svc.Port bnr res fresh
    match err with
    | some err =>
      ({ w with hp := hp1 },
        e1 ++
        [Effect.addEvent { EvType := "SERVICE_START_ERROR", TargetPort := svc.Port,
                           Payload := [("service", svc.Kind), ("name", svc.Name), ("error", err)],
                           Severity := "High" },
         Effect.setStatus { Services := [{ Name := svc.Name, Kind := svc.Kind, Port := svc.Port,
                                           Enabled := true, Listening := false, Error := err }] }])
    | none =>
      ({ loop := { w.loop with running := w.loop.running.set key svc }, hp := hp1 },
        e1 ++
        [Effect.setStatus { Services := [{ Name := svc.Name, Kind := svc.Kind, Port := svc.Port,
                                           Enabled := true, Listening := true }] }])

/-- Run a list of spawned goroutines to completion, one after the other;
`outcome t` is what the start call of the goroutine `t` returns and the
goroutine at position `i` of the list uses the name `fresh + i`. -/
def runTasks : List Task → (Task → Option String) → Nat → World → World × List Effect
  | [], _, _, w => (w, [])
  | t :: rest, outcome, fresh, w =>
    let (w1, e1) := runTask t (outcome t) fresh w
    let (w2, e2) := runTasks rest outcome (fresh + 1) w1
    (w2, e1 ++ e2)

/-- A tick in which every spawned goroutine completes before the tick ends:
the sequential part, then the goroutines it spawned. -/
def tickSync (sshPort httpPort : Int) (fetch : Fetch) (outcome : Task → Option String)
    (fresh : Nat) (w : World) : World × List Effect :=
  let (w1, tr1) := tick sshPort httpPort fetch w
  let (w2, tr2) := runTasks (spawned tr1) outcome fresh w1
  (w2, tr1 ++ tr2)

/-! ## Observations on a trace -/

/-- The stops and starts of the SSH slot: calls of `hp.StopSSH()` and spawned
`StartSSHListener` goroutines. -/
def sshCalls (tr : List Effect) : List Effect :=
  tr.filter (fun e => match e with
    | Effect.callStopSSH => true
    | Effect.go (Task.startSSH _) => true
    | _ => false)

/-- The stops and starts of the HTTP slot: calls of `hp.StopHTTP()` and spawned
`StartHTTPListener` goroutines. -/
def httpCalls (tr : List Effect) : List Effect :=
  tr.filter (fun e => match e with
    | Effect.callStopHTTP => true
    | Effect.go (Task.startHTTP _) => true
    | _ => false)

/-- The stops and starts of generic services: calls of
`hp.StopGenericService` and spawned `StartGenericService` goroutines. -/
def genericCalls (tr : List Effect) : List Effect :=
  tr.filter (fun e => match e with
    | Effect.callStopGeneric _ _ => true
    | Effect.go (Task.startGeneric _ _ _) => true
    | _ => false)

/-- The status documents pushed with `SetStatus`, in order. -/
def statuses (tr : List Effect) : List Status :=
  tr.filterMap (fun e => match e with | Effect.setStatus st => some st | _ => none)

/-- The events sent with `AddEvent`, in order. -/
def events (tr : List Effect) : List Event :=
  tr.filterMap (fun e => match e with | Effect.addEvent ev => some ev | _ => none)

/-- The cancel functions invoked, in order. -/
def cancelled (tr : List Effect) : List Nat :=
  tr.filterMap (fun e => match e with | Effect.cancel c => some c | _ => none)

/-- The representation invariant of the watcher's `running` map: one entry per
key, every descriptor stored under its own key `kind:port`, and only enabled
descriptors stored (the only assignment is `running[key] = svc` for a started
service). -/
def RunningWF (m : GoMap Service) : Prop :=
  m.keys.Nodup ∧ ∀ e ∈ m, e.1 = svcKey e.2 ∧ e.2.Enabled = true

instance (m : GoMap Service) : Decidable (RunningWF m) := by
  unfold RunningWF; infer_instance

/-! ## Sample values -/

/-- An enabled ftp service on port 2121 without a configured banner. -/
def sampleFtp : Service :=
  { Name := "files", Kind := "ftp", Port := 2121, Enabled := true, Banner := "" }

/-- A disabled smtp service on port 25. -/
def sampleSmtp : Service :=
  { Name := "mail", Kind := "smtp", Port := 25, Enabled := false, Banner := "" }

/-- An enabled telnet service on port 23. -/
def sampleTelnet : Service :=
  { Name := "t", Kind := "telnet", Port := 23, Enabled := true, Banner := "" }

/-- Settings document: both defaults enabled on 22 and 80, the ftp service
enabled and the smtp service disabled. -/
def sampleSettings : Settings :=
  { EnableSSH := true, EnableHTTP := true, SSHPort := 22, HTTPPort := 80,
    Services := [sampleFtp, sampleSmtp] }

/-- A world in which the telnet service runs under the cancel function 5 and
the defaults were last seen enabled on 22 and 80. -/
def sampleWorld : World :=
  { loop := { lastSSH := true, lastHTTP := true, lastSPort := 22, lastHPort := 80,
              running := [("telnet:23", sampleTelnet)] },
    hp := { sshSrv := some 1, httpSrv := some 2, svcCancels := [("telnet:23", 5)] } }

/-! ## The Go `strings` functions used by the session handlers

A Go string is a sequence of bytes.  In the session handlers it is a `String`
whose characters are the bytes, one character (of code below 256) for each
byte; the text typed into an SSH session is printable ASCII, for which bytes
and characters coincide. -/

/-- Go `strings.HasPrefix`. -/
def HasPrefix (s p : String) : Bool := p.data.isPrefixOf s.data

/-- Go `strings.TrimPrefix`. -/
def TrimPrefix (s p : String) : String :=
  if HasPrefix s p then String.mk (s.data.drop p.data.length) else s

/-- Whether `sub` occurs in `l` as a contiguous block. -/
def containsList (sub : List Char) : List Char → Bool
  | [] => sub.isEmpty
  | c :: rest => sub.isPrefixOf (c :: rest) || containsList sub rest

/-- Go `strings.Contains`. -/
def Contains (s sub : String) : Bool := containsList sub.data s.data

/-- The UTF-8 encodings of the code points for which Go `unicode.IsSpace`
holds: tab, LF, VT, FF, CR, space, U+0085, U+00A0, U+1680, U+2000 to U+200A,
U+2028, U+2029, U+202F, U+205F and U+3000. -/
def spaceEncodings : List (List Nat) :=
  [[9], [10], [11], [12], [13], [32], [0xC2, 0x85], [0xC2, 0xA0], [0xE1, 0x9A, 0x80],
   [0xE2, 0x80, 0x80], [0xE2, 0x80, 0x81], [0xE2, 0x80, 0x82], [0xE2, 0x80, 0x83],
   [0xE2, 0x80, 0x84], [0xE2, 0x80, 0x85], [0xE2, 0x80, 0x86], [0xE2, 0x80, 0x87],
   [0xE2, 0x80, 0x88], [0xE2, 0x80, 0x89], [0xE2, 0x80, 0x8A], [0xE2, 0x80, 0xA8],
   [0xE2, 0x80, 0xA9], [0xE2, 0x80, 0xAF], [0xE2, 0x81, 0x9F], [0xE3, 0x80, 0x80]]

/-- The number of bytes of the white space character that `l` starts with, 0
when it starts with none. -/
def spaceWidth (l : List Char) : Nat :=
  match spaceEncodings.find? (fun e => e.isPrefixOf (l.map Char.toNat)) with
  | some e => e.length
  | none => 0

/-- The number of bytes of the white space character that `l` ends with, 0
when it ends with none. -/
def spaceWidthEnd (l : List Char) : Nat :=
  match spaceEncodings.find? (fun e => e.reverse.isPrefixOf (l.reverse.map Char.toNat)) with
  | some e => e.length
  | none => 0

/-- Remove leading white space; `fuel` bounds the number of characters
removed. -/
def trimLeftSpace : Nat → List Char → List Char
  | 0, l => l
  | fuel + 1, l => if spaceWidth l = 0 then l else trimLeftSpace fuel (l.drop (spaceWidth l))

/-- Remove trailing white space; `fuel` bounds the number of characters
removed. -/
def trimRightSpace : Nat → List Char → List Char
  | 0, l => l
  | fuel + 1, l =>
    if spaceWidthEnd l = 0 then l else trimRightSpace fuel (l.take (l.length - spaceWidthEnd l))

/-- Go `strings.TrimSpace`: the string without its leading and trailing white
space (as defined by Unicode, on the UTF-8 decoding of the bytes). -/
def TrimSpace (s : String) : String :=
  String.mk (trimRightSpace s.data.length (trimLeftSpace s.data.length s.data))

/-- Go `strings.Trim(s, cutset)` for a cutset of ASCII characters. -/
def Trim (s cutset : String) : String :=
  String.mk ((s.data.dropWhile (fun c => cutset.data.contains c)).reverse.dropWhile
    (fun c => cutset.data.contains c)).reverse

/-- Go `strings.SplitN(s, sep, 2)` for a separator of one byte: the text before
the first occurrence of `sep` and the text after it; the whole text and nothing
when `sep` does not occur. -/
def SplitN2 (s : String) (sep : Char) : String × Option String :=
  if s.data.contains sep then
    (String.mk (s.data.takeWhile (fun c => c != sep)),
      some (String.mk ((s.data.dropWhile (fun c => c != sep)).drop 1)))
  else (s, none)

/-- Split a list of bytes at every occurrence of `sep`. -/
def splitList (sep : Char) : List Char → List (List Char)
  | [] => [[]]
  | c :: rest =>
    if c = sep then [] :: splitList sep rest
    else
      match splitList sep rest with
      | [] => [[c]]
      | w :: ws => (c :: w) :: ws

/-- Go `strings.Split(s, sep)` for a separator of one byte. -/
def Split (s : String) (sep : Char) : List String := (splitList sep s.data).map String.mk

/-- Go `strings.LastIndex(s, sep)` for a separator of one byte: the index of
its last occurrence, -1 when it does not occur. -/
def LastIndex (s : String) (sep : Char) : Int :=
  if s.data.contains sep then
    (s.data.length : Int) - 1 - ((s.data.reverse.takeWhile (fun c => c != sep)).length : Int)
  else -1

/-- The function `parseIP` of `honeypot.go`: the remote address up to its last
colon. -/
def parseIP (remote : String) : String :=
  if LastIndex remote ':' != -1 then String.mk (remote.data.take (LastIndex remote ':').toNat)
  else remote

/-- The verb `%4d` of `fmt.Sprintf`: decimal, padded with spaces on the left
to at least four characters. -/
def fmt4d (n : Nat) : String :=
  String.mk (List.replicate (4 - (formatNat n).length) ' ' ++ formatNat n)

/-! ## The SSH listener: authentication handlers and the fake shell
(`StartSSHListener` in `agent/internal/honeypot.go`) -/

/-- What a session handler does, in program order: bytes written to the peer
and events sent to the backend with `AddEvent`. -/
inductive Out where
  /-- The call `io.WriteString(s, text)` (or `s.Write`). -/
  | write (text : String)
  /-- The call `h.B.AddEvent(ctx, h.AgentUUID, ev)`. -/
  | event (ev : Event)
deriving DecidableEq, Repr

/-- The texts written in a list of steps, in order. -/
def writesOf (o : List Out) : List String :=
  o.filterMap (fun x => match x with | Out.write t => some t | _ => none)

/-- The events sent in a list of steps, in order. -/
def eventsOf (o : List Out) : List Event :=
  o.filterMap (fun x => match x with | Out.event ev => some ev | _ => none)

/-- The `PasswordHandler` of the SSH server: logs the attempt and allows the
session.  The result is the returned flag and the events sent. -/
def PasswordHandler (port : Int) (remote user password : String) : Bool × List Event :=
  (true, [{ AttackerIP := parseIP remote, TargetPort := port, EvType := "SSH_LOGIN_ATTEMPT",
            Payload := [("username", user), ("password", password)], Severity := "Medium" }])

/-- The `KeyboardInteractiveHandler` of the SSH server; the challenge function
is not called. -/
def KeyboardInteractiveHandler (port : Int) (remote user : String) : Bool × List Event :=
  (true, [{ AttackerIP := parseIP remote, TargetPort := port, EvType := "SSH_KBDINT_ATTEMPT",
            Payload := [("username", user)], Severity := "Low" }])

/-- The `PublicKeyHandler` of the SSH server; `keyType` is `key.Type()`. -/
def PublicKeyHandler (port : Int) (remote user keyType : String) : Bool × List Event :=
  (true, [{ AttackerIP := parseIP remote, TargetPort := port, EvType := "SSH_PUBKEY_ATTEMPT",
            Payload := [("username", user), ("keyType", keyType)], Severity := "Low" }])

/-- The variables of one SSH session (lines 111-115 of the handler). -/
structure Session where
  user : String
  cwd : String
  files : GoMap String
  history : List String
  buf : List Char
deriving DecidableEq, Repr

/-- The session state when the handler starts: `cwd := "/home/" + user`, no
files, no history, an empty line buffer. -/
def newSession (user : String) : Session :=
  { user := user, cwd := "/home/" ++ user, files := [], history := [], buf := [] }

/-- The text written by the closure `prompt`. -/
def promptText (cwd : String) : String := "\r\n" ++ cwd ++ "$ "

/-- The path a file argument names (lines 192, 197 and 220):
`if !strings.HasPrefix(p, "/") { if cwd == "/" { p = "/"+p } else { p = cwd+"/"+p } }`. -/
def resolvePath (cwd p : String) : String :=
  if !HasPrefix p "/" then (if cwd == "/" then "/" ++ p else cwd ++ "/" ++ p) else p

/-- Line 185: the names of the created files that lie directly in `cwd`, each
after two spaces. -/
def lsExtra (cwd : String) (files : GoMap String) : String :=
  files.foldl (fun extra e =>
    if HasPrefix e.1 (cwd ++ "/") then
      if !Contains (TrimPrefix e.1 (cwd ++ "/")) "/" then
        extra ++ "  " ++ TrimPrefix e.1 (cwd ++ "/")
      else extra
    else extra) ""

/-- Line 236: the first word of the command that starts with `http://` or
`https://`, the empty string when there is none. -/
def firstURL (cmd : String) : String :=
  match (Split (TrimSpace cmd) ' ').find? (fun t => HasPrefix t "http://" || HasPrefix t "https://") with
  | some t => t
  | none => ""

/-- Lines 202-217: the working directory after `cd arg`. -/
def cdTarget (user cwd arg : String) : String :=
  if arg == "" || arg == "~" then "/home/" ++ user
  else if arg == "." then cwd
  else if arg == ".." then
    if cwd != "/" then
      if LastIndex cwd '/' > 0 then String.mk (cwd.data.take (LastIndex cwd '/').toNat) else "/"
    else cwd
  else if HasPrefix arg "/" then arg
  else if cwd == "/" then "/" ++ arg
  else cwd ++ "/" ++ arg

/-- Lines 222-233: the text written by `cat` for the argument `arg` that names
the path `p`. -/
def catText (user : String) (files : GoMap String) (arg p : String) : String :=
  if p == "/etc/passwd" then
    "\r\nroot:x:0:0:root:/root:/bin/bash\r\nwww-data:x:33:33:www-data:/var/www:/usr/sbin/nologin\r\n"
      ++ user ++ ":x:1000:1000::/home/" ++ user ++ ":/bin/bash\r\n"
  else if p == "/etc/hosts" then "\r\n127.0.0.1\tlocalhost\r\n192.168.1.100\tubuntu\r\n"
  else if p == "/etc/os-release" then "\r\nNAME=\"Ubuntu\"\r\nVERSION=\"22.04 LTS\"\r\n"
  else if p == "/proc/cpuinfo" then
    "\r\nprocessor\t: 0\r\nmodel name\t: Intel(R) Xeon(R) CPU\r\n"
  else
    match files.get p with
    | some c => "\r\n" ++ c ++ "\r\n"
    | none => "\r\ncat: " ++ arg ++ ": No such file or directory\r\n"

/-- Lines 173-187: the text written by `ls`. -/
def lsText (cwd : String) (files : GoMap String) : String :=
  if cwd == "/" then
    "\r\nbin  boot  dev  etc  home  lib  media  mnt  opt  proc  root  run  sbin  srv  sys  tmp  usr  var\r\n"
  else if HasPrefix cwd "/etc" then "\r\nhosts  passwd  shadow  os-release  ssh/\r\n"
  else if HasPrefix cwd "/var/www/html" then "\r\nindex.php  config.php  admin/\r\n"
  else
    "\r\n" ++ ".  ..  Documents  Downloads  .bashrc  .profile  .ssh  Desktop" ++ lsExtra cwd files
      ++ "\r\n"

/-- The command shim (the `switch` of lines 150-243) for a command that is not
empty, `help`, `exit` or `logout`; the history already holds the command.  The
result is the session afterwards and the texts written, in order. -/
def respond (st : Session) (cmd : String) : Session × List String :=
  if cmd == "pwd" then (st, ["\r\n" ++ st.cwd ++ "\r\n"])
  else if cmd == "whoami" then (st, ["\r\n" ++ st.user ++ "\r\n"])
  else if cmd == "id" then
    (st, ["\r\nuid=1000(" ++ st.user ++ ") gid=1000(" ++ st.user ++ ") groups=1000(" ++ st.user
      ++ "),4(adm),24(cdrom),27(sudo)\r\n"])
  else if HasPrefix cmd "uname" then
    (st, ["\r\nLinux ubuntu 5.15.0-75-generic #82-Ubuntu SMP x86_64 GNU/Linux\r\n"])
  else if cmd == "history" then
    (st, st.history.enum.map (fun e => "\r\n" ++ fmt4d (e.1 + 1) ++ "  " ++ e.2) ++ ["\r\n"])
  else if cmd == "sudo" || HasPrefix cmd "sudo " then
    (st, ["\r\n" ++ st.user ++ " is not in the sudoers file.  This incident will be reported.\r\n"])
  else if cmd == "ps" || HasPrefix cmd "ps " then
    (st, ["\r\nUSER       PID %%CPU %%MEM    VSZ   RSS TTY      STAT START   TIME COMMAND\r\nroot         1  0.0  0.1 168840  9500 ?        Ss   08:12   0:02 /sbin/init\r\nroot       532  0.0  0.2  89200 16400 ?        Ss   08:12   0:01 /usr/sbin/sshd -D\r\nwww-data   742  0.0  0.3 256000 22000 ?        S    08:14   0:00 /usr/sbin/apache2 -k start\r\nredis      810  0.0  0.2  98000 15000 ?        Ssl  08:15   0:00 /usr/bin/redis-server *:6379\r\n"])
  else if HasPrefix cmd "ifconfig" then
    (st, ["\r\neth0: flags=4163<UP,BROADCAST,RUNNING,MULTICAST>  mtu 1500\r\n\tinet 192.168.1.100  netmask 255.255.255.0  broadcast 192.168.1.255\r\n\tether 02:42:ac:11:00:02  txqueuelen 0  (Ethernet)\r\nlo: flags=73<UP,LOOPBACK,RUNNING>  mtu 65536\r\n\tinet 127.0.0.1  netmask 255.0.0.0\r\n"])
  else if HasPrefix cmd "ip a" || HasPrefix cmd "ip addr" then
    (st, ["\r\n1: lo: <LOOPBACK,UP,LOWER_UP> mtu 65536 qdisc noqueue state UNKNOWN group default qlen 1000\r\n    inet 127.0.0.1/8 scope host lo\r\n2: eth0: <BROADCAST,MULTICAST,UP,LOWER_UP> mtu 1500 qdisc fq_codel state UP group default qlen 1000\r\n    inet 192.168.1.100/24 brd 192.168.1.255 scope global eth0\r\n"])
  else if HasPrefix cmd "netstat" then
    (st, ["\r\nActive Internet connections (only servers)\r\nProto Recv-Q Send-Q Local Address           Foreign Address         State       PID/Program name\r\ntcp        0      0 0.0.0.0:22              0.0.0.0:*               LISTEN      532/sshd\r\ntcp        0      0 0.0.0.0:80              0.0.0.0:*               LISTEN      742/apache2\r\ntcp        0      0 0.0.0.0:6379            0.0.0.0:*               LISTEN      810/redis-server\r\n"])
  else if cmd == "ls" || HasPrefix cmd "ls " then (st, [lsText st.cwd st.files])
  else if HasPrefix cmd "echo " && Contains cmd ">" then
    let parts := SplitN2 cmd '>'
    let content := TrimSpace (TrimPrefix (TrimSpace parts.1) "echo")
    let path := resolvePath st.cwd (TrimSpace (parts.2.getD ""))
    ({ st with files := st.files.set path (Trim content "\x27\x22") }, [])
  else if HasPrefix cmd "touch " then
    let fn := TrimSpace (TrimPrefix cmd "touch ")
    if fn != "" then
      if (st.files.get (resolvePath st.cwd fn)).isNone then
        ({ st with files := st.files.set (resolvePath st.cwd fn) "" }, [])
      else (st, [])
    else (st, [])
  else if HasPrefix cmd "cd " then
    ({ st with cwd := cdTarget st.user st.cwd (TrimSpace (TrimPrefix cmd "cd ")) }, [])
  else if HasPrefix cmd "cat " then
    (st, [catText st.user st.files (TrimSpace (TrimPrefix cmd "cat "))
      (resolvePath st.cwd (TrimSpace (TrimPrefix cmd "cat ")))])
  else if HasPrefix cmd "wget " || HasPrefix cmd "curl " then
    if firstURL cmd == "" then (st, ["\r\nUnable to resolve host\r\n"])
    else
      (st, ["\r\nSaving to: \x27index.html\x27\r\n\r\nindex.html                100%[===================>]    1.23K  --.-KB/s    in 0s\r\n\r\nSaved\r\n"])
  else (st, ["\r\nbash: " ++ cmd ++ ": command not found\r\n"])

/-- The dispatch of one line (lines 129-247); `cmd` is the trimmed line.  The
result is the session afterwards, the steps taken, and whether the handler
returned (the session ended). -/
def execLine (port : Int) (remote : String) (st : Session) (cmd : String) :
    Session × List Out × Bool :=
  if cmd == "exit" || cmd == "logout" then (st, [Out.write "\r\nlogout\r\n"], true)
  else if cmd == "help" then
    (st, [Out.write "\r\nAvailable: help, exit, pwd, ls, whoami, id, uname -a, cd, cat, echo, touch, sudo, ps aux, ifconfig, ip a, netstat -tulnp, history, wget, curl\r\n",
          Out.write (promptText st.cwd)], false)
  else if cmd != "" then
    let st1 := { st with history := st.history ++ [cmd] }
    let r := respond st1 cmd
    (r.1,
     Out.event { AttackerIP := parseIP remote, TargetPort := port, EvType := "SSH_COMMAND",
                 Payload := [("command", cmd)], Severity := "Low" } ::
       (r.2.map Out.write ++ [Out.write (promptText r.1.cwd)]),
     false)
  else (st, [Out.write "\r\n", Out.write (promptText st.cwd)], false)

/-- One iteration of the read loop of the line editor (lines 119-263) on the
byte `ch`. -/
def sshStep (port : Int) (remote : String) (st : Session) (ch : Char) :
    Session × List Out × Bool :=
  if ch = '\r' then (st, [], false)
  else if ch = '\n' then
    execLine port remote { st with buf := [] } (TrimSpace (String.mk st.buf))
  else if ch.toNat = 0x7f ∨ ch.toNat = 0x08 then
    if st.buf.length > 0 then
      ({ st with buf := st.buf.dropLast }, [Out.write "\x08 \x08"], false)
    else (st, [], false)
  else if 0x20 ≤ ch.toNat ∧ ch.toNat ≤ 0x7e then
    ({ st with buf := st.buf ++ [ch] }, [Out.write (String.singleton ch)], false)
  else (st, [], false)

/-- The read loop on the bytes `input`; the read after the last byte fails and
the handler returns. -/
def sshLoop (port : Int) (remote : String) : Session → List Char → Session × List Out × Bool
  | st, [] => (st, [], false)
  | st, ch :: rest =>
    let r := sshStep port remote st ch
    if r.2.2 then r
    else
      let r2 := sshLoop port remote r.1 rest
      (r2.1, r.2.1 ++ r2.2.1, r2.2.2)

/-- The session handler (lines 99-264): the two greeting lines, the first
prompt, then the read loop. -/
def sshHandler (port : Int) (remote user : String) (input : List Char) :
    Session × List Out × Bool :=
  let r := sshLoop port remote (newSession user) input
  (r.1,
   Out.write "Welcome to Ubuntu 22.04 LTS (GNU/Linux 5.15 x86_64)\r\n" ::
     Out.write "\r\nType \x27help\x27 for commands.\r\n" ::
     Out.write (promptText (newSession user).cwd) :: r.2.1,
   r.2.2)

/-! ## The connection handler of a generic service
(`StartGenericService` in `agent/internal/honeypot.go`, lines 342-406) -/

/-- Lines 380-391: the canned reply to a non-empty line. -/
def replyFor (kind line : String) : String :=
  if kind == "ftp" then "500 Unknown command\r\n"
  else if kind == "telnet" then line ++ "\r\n"
  else if kind == "redis" then "-ERR unknown command\r\n"
  else if kind == "smtp" then "500 5.5.2 Error: bad syntax\r\n"
  else "OK\r\n"

/-- Lines 367-397: what the handler does at a line feed with the line buffer
`buf`. -/
def connLine (kind name : String) (port : Int) (remote : String) (buf : List Char) : List Out :=
  if TrimSpace (String.mk buf) != "" then
    [Out.event { AttackerIP := parseIP remote, TargetPort := port, EvType := "SERVICE_COMMAND",
                 Payload := [("service", kind), ("name", name),
                             ("command", TrimSpace (String.mk buf))],
                 Severity := "Low" },
     Out.write (replyFor kind (TrimSpace (String.mk buf)))]
  else [Out.write "\r\n"]

/-- One iteration of the read loop (lines 361-405) on the byte `b`: the line
buffer afterwards and the steps taken. -/
def connStep (kind name : String) (port : Int) (remote : String) (buf : List Char) (b : Char) :
    List Char × List Out :=
  if b = '\r' then (buf, [])
  else if b = '\n' then ([], connLine kind name port remote buf)
  else if b.toNat = 0x7f ∨ b.toNat = 0x08 then
    (if buf.length > 0 then buf.dropLast else buf, [])
  else (if buf.length < 1024 then buf ++ [b] else buf, [])

/-- The read loop on the bytes `input`, from the line buffer `buf`; the read
after the last byte fails (error, end of stream or deadline) and the loop
ends. -/
def connLoop (kind name : String) (port : Int) (remote : String) :
    List Char → List Char → List Char × List Out
  | buf, [] => (buf, [])
  | buf, b :: rest =>
    let r := connStep kind name port remote buf b
    let r2 := connLoop kind name port remote r.1 rest
    (r2.1, r.2 ++ r2.2)

/-- The line buffers the read loop goes through on the bytes `input`, the
buffer it starts from included. -/
def connBufs (kind name : String) (port : Int) (remote : String) :
    List Char → List Char → List (List Char)
  | buf, [] => [buf]
  | buf, b :: rest =>
    buf :: connBufs kind name port remote (connStep kind name port remote buf b).1 rest

/-- The connection handler: the connect event and the banner, then the read
loop from an empty line buffer. -/
def handleConn (kind name : String) (port : Int) (banner remote : String) (input : List Char) :
    List Out :=
  (connAccept kind name port banner (parseIP remote)).1.map Out.event ++
    (if banner != "" then [Out.write banner] else []) ++
    (connLoop kind name port remote [] input).2

/-! ## Sequences of orchestrator calls -/

/-- A call on the orchestrator's generic services. -/
inductive HpOp where
  /-- The call `StartGenericService(ctx, kind, name, port, banner)`, with the
  outcome of the bind and the name of the cancel function it makes. -/
  | start (kind name : String) (port : Int) (banner : String) (bindErr : Option String)
      (newCancel : Nat)
  /-- The call `StopGenericService(kind, port)`. -/
  | stop (kind : String) (port : Int)
deriving DecidableEq, Repr

/-- Apply one call. -/
def applyOp (h : Honeypot) : HpOp → Honeypot × List Effect
  | HpOp.start kind name port banner bindErr newCancel =>
    ((h.StartGenericService kind name port banner bindErr newCancel).1,
      (h.StartGenericService kind name port banner bindErr newCancel).2.1)
  | HpOp.stop kind port => h.StopGenericService kind port

/-- Apply a sequence of calls, one after the other. -/
def runOps : List HpOp → Honeypot → Honeypot × List Effect
  | [], h => (h, [])
  | op :: rest, h =>
    ((runOps rest (applyOp h op).1).1, (applyOp h op).2 ++ (runOps rest (applyOp h op).1).2)

/-- The cancel functions a sequence of calls registers: those of the starts
whose bind succeeds. -/
def registeredBy (ops : List HpOp) : List Nat :=
  ops.filterMap (fun op => match op with
    | HpOp.start _ _ _ _ none newCancel => some newCancel
    | _ => none)

/-- The cancel functions held by the map. -/
def handlesOf (h : Honeypot) : List Nat := h.svcCancels.map Prod.snd

/-- Printable ASCII: every character lies between 0x20 and 0x7e. -/
def Printable (l : List Char) : Prop := ∀ c ∈ l, 0x20 ≤ c.toNat ∧ c.toNat ≤ 0x7e

instance (l : List Char) : Decidable (Printable l) := by
  unfold Printable; infer_instance

/-- The line buffers handled by the read loop of a generic connection on the
bytes `input`, from the line buffer `buf`: the buffer at each line feed, in
order. -/
def connLines (kind name : String) (port : Int) (remote : String) :
    List Char → List Char → List (List Char)
  | _, [] => []
  | buf, b :: rest =>
    if b = '\n' then buf :: connLines kind name port remote [] rest
    else connLines kind name port remote (connStep kind name port remote buf b).1 rest

/-- A byte that the read loop of a generic connection buffers when there is
room: neither CR nor LF nor BS nor DEL. -/
def PlainByte (b : Char) : Prop := b ≠ '\r' ∧ b ≠ '\n' ∧ b.toNat ≠ 0x7f ∧ b.toNat ≠ 0x08

instance (b : Char) : Decidable (PlainByte b) := by
  unfold PlainByte; infer_instance

/-! ## Lemmas on Go maps -/

namespace GoMap

variable {α : Type}

theorem get_nil (k : String) : GoMap.get ([] : GoMap α) k = none := rfl

theorem get_cons (e : String × α) (m : GoMap α) (k : String) :
    GoMap.get (e :: m) k = if e.1 = k then some e.2 else m.get k := by
  by_cases h : e.1 = k
  · simp [get, List.find?_cons, h]
  · have hb : (e.1 == k) = false := by simpa using h
    simp only [get, List.find?_cons, hb, h, if_false]

theorem delete_nil (k : String) : GoMap.delete ([] : GoMap α) k = [] := rfl

theorem delete_cons (e : String × α) (m : GoMap α) (k : String) :
    GoMap.delete (e :: m) k = if e.1 = k then m.delete k else e :: m.delete k := by
  by_cases h : e.1 = k
  · simp [delete, List.filter_cons, h]
  · have hb : (e.1 == k) = false := by simpa using h
    simp only [delete, List.filter_cons, hb, h, if_false, Bool.not_false, if_true]

theorem mem_delete {m : GoMap α} {k : String} {e : String × α} :
    e ∈ m.delete k ↔ e ∈ m ∧ e.1 ≠ k := by
  simp [delete, List.mem_filter]

theorem get_eq_none_iff {m : GoMap α} {k : String} : m.get k = none ↔ k ∉ m.keys := by
  simp [get, keys, List.find?_eq_none]
  constructor
  · intro h v hv; exact h k v hv rfl
  · intro h a b hab heq; subst heq; exact h b hab

theorem get_isSome_iff {m : GoMap α} {k : String} : (m.get k).isSome ↔ k ∈ m.keys := by
  rw [← not_iff_not, ← get_eq_none_iff]; cases m.get k <;> simp

theorem get_eq_some_of_mem {m : GoMap α} (hm : m.keys.Nodup) {k : String} {v : α}
    (h : (k, v) ∈ m) : m.get k = some v := by
  induction m with
  | nil => cases h
  | cons e rest ih =>
    obtain ⟨k0, v0⟩ := e
    simp only [keys, List.map_cons, List.nodup_cons] at hm
    rcases List.mem_cons.mp h with h1 | h1
    · cases h1; rw [get_cons]; simp
    · have hne : k0 ≠ k := by
        intro heq; subst heq
        exact hm.1 (List.mem_map.mpr ⟨(k0, v), h1, rfl⟩)
      rw [get_cons, if_neg hne]
      exact ih hm.2 h1

theorem mem_of_get_eq_some {m : GoMap α} {k : String} {v : α} (h : m.get k = some v) :
    (k, v) ∈ m := by
  simp only [get, Option.map_eq_some'] at h
  obtain ⟨e, he, hv⟩ := h
  have h1 := List.mem_of_find?_eq_some he
  have h2 := List.find?_some he
  simp only [beq_iff_eq] at h2
  obtain ⟨a, b⟩ := e
  simp only at h2 hv
  subst h2; subst hv; exact h1

theorem get_eq_some_iff {m : GoMap α} (hm : m.keys.Nodup) {k : String} {v : α} :
    m.get k = some v ↔ (k, v) ∈ m :=
  ⟨mem_of_get_eq_some, get_eq_some_of_mem hm⟩

theorem keys_delete (m : GoMap α) (k : String) :
    (m.delete k).keys = m.keys.filter (fun x => !(x == k)) := by
  induction m with
  | nil => rfl
  | cons e rest ih =>
    simp only [delete, keys, List.filter_cons, List.map_cons] at ih ⊢
    by_cases h : e.1 = k <;> simp [h, ih]

theorem nodup_keys_delete {m : GoMap α} (hm : m.keys.Nodup) (k : String) :
    (m.delete k).keys.Nodup := by
  rw [keys_delete]; exact hm.filter _

theorem not_mem_keys_delete (m : GoMap α) (k : String) : k ∉ (m.delete k).keys := by
  rw [keys_delete]; simp [List.mem_filter]

theorem keys_set (m : GoMap α) (k : String) (v : α) :
    (m.set k v).keys = (m.delete k).keys ++ [k] := by
  simp [set, keys]

theorem nodup_keys_set {m : GoMap α} (hm : m.keys.Nodup) (k : String) (v : α) :
    (m.set k v).keys.Nodup := by
  rw [keys_set]
  refine List.Nodup.append (nodup_keys_delete hm k) (List.nodup_singleton k) ?_
  intro x hx hx2
  simp only [List.mem_singleton] at hx2
  subst hx2
  exact not_mem_keys_delete m x hx

theorem get_delete_self (m : GoMap α) (k : String) : (m.delete k).get k = none :=
  get_eq_none_iff.mpr (not_mem_keys_delete m k)

theorem get_delete_of_ne (m : GoMap α) {k k2 : String} (h : k2 ≠ k) :
    (m.delete k).get k2 = m.get k2 := by
  induction m with
  | nil => rfl
  | cons e rest ih =>
    rw [delete_cons, get_cons]
    by_cases h1 : e.1 = k
    · have h2 : e.1 ≠ k2 := by rw [h1]; exact fun h2 => h h2.symm
      rw [if_pos h1, if_neg h2]; exact ih
    · rw [if_neg h1, get_cons, ih]

theorem get_append (m1 m2 : GoMap α) (k : String) :
    GoMap.get (m1 ++ m2) k = (m1.get k).or (m2.get k) := by
  simp only [get, List.find?_append]
  cases List.find? (fun e => e.1 == k) m1 <;> simp

theorem get_set_self (m : GoMap α) (k : String) (v : α) : (m.set k v).get k = some v := by
  rw [set, get_append, get_delete_self]; simp [get]

theorem get_set_of_ne (m : GoMap α) {k k2 : String} (v : α) (h : k2 ≠ k) :
    (m.set k v).get k2 = m.get k2 := by
  rw [set, get_append, get_delete_of_ne m h]
  have : GoMap.get [(k, v)] k2 = none := by simp [get, Ne.symm h]
  rw [this]; cases m.get k2 <;> rfl

theorem delete_of_not_mem {m : GoMap α} {k : String} (h : k ∉ m.keys) : m.delete k = m := by
  simp only [delete, List.filter_eq_self]
  intro e he
  have : e.1 ≠ k := fun heq => h (heq ▸ List.mem_map.mpr ⟨e, he, rfl⟩)
  simp [this]

end GoMap

/-! ## The identity key determines kind and port -/


theorem digitChar_toNat {d : Nat} (h : d < 10) : (digitChar d).toNat = 48 + d := by
  interval_cases d <;> rfl

theorem decVal_append_singleton (l : List Char) (c : Char) :
    decVal (l ++ [c]) = decVal l * 10 + (c.toNat - 48) := by
  simp [decVal, List.foldl_append]

theorem decVal_natDigits : ∀ (fuel n : Nat), n < 10 ^ fuel → decVal (natDigits fuel n) = n
  | 0, n, h => by
    have : n = 0 := by simpa using h
    subst this; rfl
  | fuel + 1, n, h => by
    unfold natDigits
    split
    · rename_i h10
      simp [decVal, digitChar_toNat h10]
    · have h1 : n / 10 < 10 ^ fuel := by
        rw [Nat.div_lt_iff_lt_mul (by norm_num)]
        rw [pow_succ] at h; exact h
      rw [decVal_append_singleton, decVal_natDigits fuel (n / 10) h1,
        digitChar_toNat (Nat.mod_lt n (by norm_num))]
      omega

theorem natDigits_isDigit : ∀ (fuel n : Nat) (c : Char), c ∈ natDigits fuel n →
    48 ≤ c.toNat ∧ c.toNat ≤ 57
  | 0, _, c, h => by simp [natDigits] at h
  | fuel + 1, n, c, h => by
    unfold natDigits at h
    split at h
    · rename_i h10
      simp only [List.mem_singleton] at h
      subst h; rw [digitChar_toNat h10]; omega
    · rcases List.mem_append.mp h with h1 | h1
      · exact natDigits_isDigit fuel (n / 10) c h1
      · simp only [List.mem_singleton] at h1
        subst h1; rw [digitChar_toNat (Nat.mod_lt n (by norm_num))]
        have := Nat.mod_lt n (show 0 < 10 by norm_num)
        omega

theorem decVal_formatNat (n : Nat) : decVal (formatNat n) = n := by
  apply decVal_natDigits
  calc n < 2 ^ n := Nat.lt_two_pow n
    _ ≤ 10 ^ n := Nat.pow_le_pow_left (by norm_num) n
    _ ≤ 10 ^ (n + 1) := Nat.pow_le_pow_right (by norm_num) (Nat.le_succ n)

theorem formatNat_injective {m n : Nat} (h : formatNat m = formatNat n) : m = n := by
  rw [← decVal_formatNat m, ← decVal_formatNat n, h]

theorem formatNat_isDigit (n : Nat) (c : Char) (h : c ∈ formatNat n) :
    48 ≤ c.toNat ∧ c.toNat ≤ 57 :=
  natDigits_isDigit _ _ c h

theorem minus_not_mem_formatNat (n : Nat) : '-' ∉ formatNat n := by
  intro h
  have := formatNat_isDigit n _ h
  revert this; decide

theorem colon_not_mem_formatNat (n : Nat) : ':' ∉ formatNat n := by
  intro h
  have := formatNat_isDigit n _ h
  revert this; decide

theorem Itoa_injective {i j : Int} (h : Itoa i = Itoa j) : i = j := by
  unfold Itoa at h
  by_cases hi : i < 0 <;> by_cases hj : j < 0
  · rw [if_pos hi, if_pos hj] at h
    have h1 : formatNat i.natAbs = formatNat j.natAbs := by
      have := congrArg String.data h
      simpa using this
    have := formatNat_injective h1
    omega
  · rw [if_pos hi, if_neg hj] at h
    have h1 := congrArg String.data h
    simp only at h1
    exact absurd (h1 ▸ List.mem_cons_self _ _) (minus_not_mem_formatNat _)
  · rw [if_neg hi, if_pos hj] at h
    have h1 := congrArg String.data h
    simp only at h1
    exact absurd (h1 ▸ List.mem_cons_self _ _) (minus_not_mem_formatNat _)
  · rw [if_neg hi, if_neg hj] at h
    have h1 : formatNat i.natAbs = formatNat j.natAbs := by
      have := congrArg String.data h
      simpa using this
    have := formatNat_injective h1
    omega

theorem colon_not_mem_Itoa (i : Int) : ':' ∉ (Itoa i).data := by
  unfold Itoa
  split
  · simp only [List.mem_cons, not_or]
    exact ⟨by decide, colon_not_mem_formatNat _⟩
  · exact colon_not_mem_formatNat _

theorem append_cons_inj_of_not_mem {c : Char} :
    ∀ {a b x y : List Char}, c ∉ x → c ∉ y → a ++ c :: x = b ++ c :: y → a = b ∧ x = y
  | [], [], _, _, _, _, h => by simpa using h
  | [], d :: b, x, y, hx, _, h => by
    simp only [List.nil_append, List.cons_append, List.cons.injEq] at h
    exact absurd (h.2 ▸ (by simp : c ∈ b ++ c :: y)) hx
  | d :: a, [], x, y, _, hy, h => by
    simp only [List.nil_append, List.cons_append, List.cons.injEq] at h
    exact absurd (h.2 ▸ (by simp : c ∈ a ++ c :: x)) hy
  | d :: a, e :: b, x, y, hx, hy, h => by
    simp only [List.cons_append, List.cons.injEq] at h
    obtain ⟨h1, h2⟩ := append_cons_inj_of_not_mem hx hy h.2
    exact ⟨by rw [h.1, h1], h2⟩

theorem svcKeyOf_data (kind : String) (port : Int) :
    (svcKeyOf kind port).data = kind.data ++ ':' :: (Itoa port).data := by
  simp [svcKeyOf, String.data_append]

theorem svcKeyOf_injective {k1 k2 : String} {p1 p2 : Int}
    (h : svcKeyOf k1 p1 = svcKeyOf k2 p2) : k1 = k2 ∧ p1 = p2 := by
  have h1 := congrArg String.data h
  rw [svcKeyOf_data, svcKeyOf_data] at h1
  obtain ⟨ha, hb⟩ := append_cons_inj_of_not_mem (colon_not_mem_Itoa p1) (colon_not_mem_Itoa p2) h1
  exact ⟨String.ext ha, Itoa_injective (String.ext hb)⟩

/-! ## Closed forms of the loops of a tick -/


theorem desiredMap_fold (l : List Service) :
    ∀ acc : GoMap Service, (acc.keys ++ l.map svcKey).Nodup →
      l.foldl (fun d svc => d.set (svcKey svc) svc) acc = acc ++ l.map (fun s => (svcKey s, s)) := by
  induction l with
  | nil => intro acc _; simp
  | cons s rest ih =>
    intro acc h
    have hs : svcKey s ∉ acc.keys := by
      intro hmem
      have := (List.nodup_append.mp h).2.2
      exact this hmem (by simp)
    simp only [List.foldl_cons, List.map_cons]
    rw [ih]
    · simp [GoMap.set, GoMap.delete_of_not_mem hs]
    · simp only [GoMap.set, GoMap.delete_of_not_mem hs]
      simpa [GoMap.keys, List.append_assoc] using h

theorem desiredMap_eq {l : List Service} (h : (l.map svcKey).Nodup) :
    desiredMap l = l.map (fun s => (svcKey s, s)) := by
  have := desiredMap_fold l [] (by simpa [GoMap.keys] using h)
  simpa [desiredMap] using this

theorem desiredMap_keys {l : List Service} (h : (l.map svcKey).Nodup) :
    (desiredMap l).keys = l.map svcKey := by
  rw [desiredMap_eq h]; simp [GoMap.keys, Function.comp_def]

theorem desiredMap_get {l : List Service} (h : (l.map svcKey).Nodup) {s : Service}
    (hs : s ∈ l) : (desiredMap l).get (svcKey s) = some s := by
  apply GoMap.get_eq_some_of_mem
  · rw [desiredMap_keys h]; exact h
  · rw [desiredMap_eq h]; exact List.mem_map.mpr ⟨s, hs, rfl⟩

theorem mem_of_desiredMap_get {l : List Service} (h : (l.map svcKey).Nodup) {k : String}
    {s : Service} (hs : (desiredMap l).get k = some s) : s ∈ l ∧ svcKey s = k := by
  have := GoMap.mem_of_get_eq_some hs
  rw [desiredMap_eq h] at this
  obtain ⟨s2, hs2, heq⟩ := List.mem_map.mp this
  cases heq
  exact ⟨hs2, rfl⟩

/-- The running map after the stop loop, for any accumulator. -/
theorem stopLoop_fold_running (desired : GoMap Service) (l : GoMap Service) :
    ∀ (acc : GoMap Service) (hp : Honeypot) (tr : List Effect),
      (l.foldl (stopStep desired) (acc, hp, tr)).1 =
        acc.filter (fun e => !(l.any (fun e2 => e2.1 == e.1 && mustStop desired e2.1 e2.2))) := by
  induction l with
  | nil => intro acc hp tr; simp
  | cons e rest ih =>
    intro acc hp tr
    obtain ⟨key, cur⟩ := e
    simp only [List.foldl_cons, stopStep]
    by_cases hm : mustStop desired key cur = true
    · simp only [hm, if_true]
      rw [ih]
      simp only [GoMap.delete, List.filter_filter, List.any_cons, hm, Bool.and_true]
      congr 1
      funext x
      by_cases hx : x.1 = key
      · simp [hx]
      · have : (key == x.1) = false := by simpa using fun h => hx h.symm
        simp [hx, this]
    · have hm2 : mustStop desired key cur = false := by simpa using hm
      simp only [hm2, Bool.false_eq_true, if_false]
      rw [ih]
      simp [List.any_cons, hm2]

theorem stopLoop_running {desired running : GoMap Service} (hp : Honeypot)
    (h : running.keys.Nodup) :
    (stopLoop desired running hp).1 = running.filter (fun e => !mustStop desired e.1 e.2) := by
  rw [stopLoop, stopLoop_fold_running]
  apply List.filter_congr
  intro e he
  congr 1
  rw [Bool.eq_iff_iff]
  simp only [List.any_eq_true, Bool.and_eq_true, beq_iff_eq]
  constructor
  · rintro ⟨e2, he2, hk, hm⟩
    have h1 := GoMap.get_eq_some_of_mem h (show (e2.1, e2.2) ∈ running from he2)
    have h2 := GoMap.get_eq_some_of_mem h (show (e.1, e.2) ∈ running from he)
    rw [hk, h2] at h1
    have : e2.2 = e.2 := (Option.some.inj h1).symm
    rw [← hk, ← this]; exact hm
  · intro hm; exact ⟨e, he, rfl, hm⟩

theorem StopGenericService_of_none {h : Honeypot} {kind : String} {port : Int}
    (hg : h.svcCancels.get (svcKeyOf kind port) = none) :
    h.StopGenericService kind port = (h, []) := by
  simp only [Honeypot.StopGenericService, hg]

theorem StopGenericService_of_some {h : Honeypot} {kind : String} {port : Int} {c : Nat}
    (hg : h.svcCancels.get (svcKeyOf kind port) = some c) :
    h.StopGenericService kind port =
      ({ h with svcCancels := h.svcCancels.delete (svcKeyOf kind port) }, [Effect.cancel c]) := by
  simp only [Honeypot.StopGenericService, hg]

theorem StopGenericService_effects (h : Honeypot) (kind : String) (port : Int) :
    ∀ e ∈ (h.StopGenericService kind port).2, ∃ c, e = Effect.cancel c := by
  intro e he
  cases hg : h.svcCancels.get (svcKeyOf kind port) with
  | none => rw [StopGenericService_of_none hg] at he; cases he
  | some c =>
    rw [StopGenericService_of_some hg] at he
    exact ⟨c, by simpa using he⟩

/-- Every effect of the stop loop is a call of `StopGenericService` or the
invocation of a cancel function. -/
theorem stopLoop_fold_trace (desired : GoMap Service) (l : GoMap Service) :
    ∀ (acc : GoMap Service) (hp : Honeypot) (tr : List Effect),
      ∃ tr2, (l.foldl (stopStep desired) (acc, hp, tr)).2.2 = tr ++ tr2 ∧
        ∀ e ∈ tr2, (∃ k p, e = Effect.callStopGeneric k p) ∨ ∃ c, e = Effect.cancel c := by
  induction l with
  | nil => intro acc hp tr; exact ⟨[], by simp⟩
  | cons e rest ih =>
    intro acc hp tr
    obtain ⟨key, cur⟩ := e
    simp only [List.foldl_cons, stopStep]
    by_cases hm : mustStop desired key cur = true
    · simp only [hm, if_true]
      obtain ⟨tr2, h1, h2⟩ := ih (acc.delete key) (hp.StopGenericService cur.Kind cur.Port).1
        (tr ++ Effect.callStopGeneric cur.Kind cur.Port :: (hp.StopGenericService cur.Kind cur.Port).2)
      refine ⟨Effect.callStopGeneric cur.Kind cur.Port ::
        (hp.StopGenericService cur.Kind cur.Port).2 ++ tr2, ?_, ?_⟩
      · rw [h1]; simp
      · intro x hx
        simp only [List.cons_append, List.mem_cons, List.mem_append] at hx
        rcases hx with hx | hx | hx
        · exact Or.inl ⟨_, _, hx⟩
        · exact Or.inr (StopGenericService_effects _ _ _ x hx)
        · exact h2 x hx
    · have hm2 : mustStop desired key cur = false := by simpa using hm
      simp only [hm2, Bool.false_eq_true, if_false]
      exact ih acc hp tr

theorem stopLoop_trace (desired running : GoMap Service) (hp : Honeypot) :
    ∀ e ∈ (stopLoop desired running hp).2.2,
      (∃ k p, e = Effect.callStopGeneric k p) ∨ ∃ c, e = Effect.cancel c := by
  obtain ⟨tr2, h1, h2⟩ := stopLoop_fold_trace desired running running hp []
  rw [stopLoop, h1]; simpa using h2

theorem startLoop_fold (running : GoMap Service) (l : GoMap Service) :
    ∀ tr : List Effect,
      l.foldl (startStep running) tr =
        tr ++ (l.filter (fun e => e.2.Enabled && (running.get e.1).isNone)).map
          (fun e => Effect.go (Task.startGeneric e.2 (startBanner e.2) e.1)) := by
  induction l with
  | nil => intro tr; simp
  | cons e rest ih =>
    intro tr
    obtain ⟨key, svc⟩ := e
    simp only [List.foldl_cons, startStep]
    cases hE : svc.Enabled
    · simp [ih, hE, List.filter_cons]
    · cases hG : running.get key
      · simp [ih, hE, hG, List.filter_cons]
      · simp [ih, hE, hG, List.filter_cons]

theorem startLoop_eq (desired running : GoMap Service) :
    startLoop desired running =
      (desired.filter (fun e => e.2.Enabled && (running.get e.1).isNone)).map
        (fun e => Effect.go (Task.startGeneric e.2 (startBanner e.2) e.1)) := by
  rw [startLoop, startLoop_fold]; simp

/-! ## The trace of one tick -/


theorem tick_ok (sshPort httpPort : Int) (set : Settings) (ok : Bool) (w : World) :
    tick sshPort httpPort (.ok (set, ok)) w =
      ({ loop := { lastSSH := (effective sshPort httpPort set ok).curSSH,
                   lastHTTP := (effective sshPort httpPort set ok).curHTTP,
                   lastSPort := (effective sshPort httpPort set ok).curSPort,
                   lastHPort := (effective sshPort httpPort set ok).curHPort,
                   running := (stopLoop (desiredMap set.Services) w.loop.running w.hp).1 },
         hp := (stopLoop (desiredMap set.Services) w.loop.running w.hp).2.1 },
       reconcileSSH w.hp w.loop.lastSSH w.loop.lastSPort (effective sshPort httpPort set ok).curSSH
           (effective sshPort httpPort set ok).curSPort ++
         reconcileHTTP w.hp w.loop.lastHTTP w.loop.lastHPort
           (effective sshPort httpPort set ok).curHTTP (effective sshPort httpPort set ok).curHPort ++
         (stopLoop (desiredMap set.Services) w.loop.running w.hp).2.2 ++
         startLoop (desiredMap set.Services)
           (stopLoop (desiredMap set.Services) w.loop.running w.hp).1 ++
         [Effect.updateSystemInfo]) := rfl

theorem sshCalls_append (a b : List Effect) : sshCalls (a ++ b) = sshCalls a ++ sshCalls b := by
  simp [sshCalls]

theorem httpCalls_append (a b : List Effect) : httpCalls (a ++ b) = httpCalls a ++ httpCalls b := by
  simp [httpCalls]

theorem genericCalls_append (a b : List Effect) :
    genericCalls (a ++ b) = genericCalls a ++ genericCalls b := by
  simp [genericCalls]

theorem statuses_append (a b : List Effect) : statuses (a ++ b) = statuses a ++ statuses b := by
  simp [statuses]

theorem events_append (a b : List Effect) : events (a ++ b) = events a ++ events b := by
  simp [events]

theorem spawned_append (a b : List Effect) : spawned (a ++ b) = spawned a ++ spawned b := by
  simp [spawned]

theorem stopLoop_sshCalls (desired running : GoMap Service) (hp : Honeypot) :
    sshCalls (stopLoop desired running hp).2.2 = [] := by
  rw [sshCalls, List.filter_eq_nil_iff]
  intro e he
  rcases stopLoop_trace desired running hp e he with ⟨k, p, h⟩ | ⟨c, h⟩ <;> simp [h]

theorem stopLoop_httpCalls (desired running : GoMap Service) (hp : Honeypot) :
    httpCalls (stopLoop desired running hp).2.2 = [] := by
  rw [httpCalls, List.filter_eq_nil_iff]
  intro e he
  rcases stopLoop_trace desired running hp e he with ⟨k, p, h⟩ | ⟨c, h⟩ <;> simp [h]

theorem stopLoop_statuses (desired running : GoMap Service) (hp : Honeypot) :
    statuses (stopLoop desired running hp).2.2 = [] := by
  rw [statuses, List.filterMap_eq_nil_iff]
  intro e he
  rcases stopLoop_trace desired running hp e he with ⟨k, p, h⟩ | ⟨c, h⟩ <;> simp [h]

theorem stopLoop_events (desired running : GoMap Service) (hp : Honeypot) :
    events (stopLoop desired running hp).2.2 = [] := by
  rw [events, List.filterMap_eq_nil_iff]
  intro e he
  rcases stopLoop_trace desired running hp e he with ⟨k, p, h⟩ | ⟨c, h⟩ <;> simp [h]

theorem stopLoop_spawned (desired running : GoMap Service) (hp : Honeypot) :
    spawned (stopLoop desired running hp).2.2 = [] := by
  rw [spawned, List.filterMap_eq_nil_iff]
  intro e he
  rcases stopLoop_trace desired running hp e he with ⟨k, p, h⟩ | ⟨c, h⟩ <;> simp [h]

theorem startLoop_sshCalls (desired running : GoMap Service) :
    sshCalls (startLoop desired running) = [] := by
  rw [startLoop_eq, sshCalls, List.filter_eq_nil_iff]
  intro e he
  obtain ⟨x, _, rfl⟩ := List.mem_map.mp he
  simp

theorem startLoop_httpCalls (desired running : GoMap Service) :
    httpCalls (startLoop desired running) = [] := by
  rw [startLoop_eq, httpCalls, List.filter_eq_nil_iff]
  intro e he
  obtain ⟨x, _, rfl⟩ := List.mem_map.mp he
  simp

theorem startLoop_statuses (desired running : GoMap Service) :
    statuses (startLoop desired running) = [] := by
  rw [startLoop_eq, statuses, List.filterMap_eq_nil_iff]
  intro e he
  obtain ⟨x, _, rfl⟩ := List.mem_map.mp he
  simp

theorem startLoop_events (desired running : GoMap Service) :
    events (startLoop desired running) = [] := by
  rw [startLoop_eq, events, List.filterMap_eq_nil_iff]
  intro e he
  obtain ⟨x, _, rfl⟩ := List.mem_map.mp he
  simp

theorem startLoop_spawned (desired running : GoMap Service) :
    spawned (startLoop desired running) =
      (desired.filter (fun e => e.2.Enabled && (running.get e.1).isNone)).map
        (fun e => Task.startGeneric e.2 (startBanner e.2) e.1) := by
  rw [startLoop_eq, spawned, List.filterMap_map]
  rw [← List.filterMap_eq_map]
  rfl

theorem reconcileSSH_sshCalls (hp : Honeypot) (lastSSH : Bool) (lastSPort : Int) (curSSH : Bool)
    (curSPort : Int) :
    sshCalls (reconcileSSH hp lastSSH lastSPort curSSH curSPort) =
      if curSSH && (!lastSSH || curSPort != lastSPort) then
        [Effect.callStopSSH, Effect.go (Task.startSSH curSPort)]
      else if !curSSH && lastSSH then [Effect.callStopSSH]
      else [] := by
  unfold reconcileSSH
  split
  · cases h : hp.sshSrv <;> simp [sshCalls, Honeypot.StopSSH, h, List.filter_cons]
  · split
    · cases h : hp.sshSrv <;> simp [sshCalls, Honeypot.StopSSH, h, List.filter_cons]
    · rfl

theorem reconcileSSH_httpCalls (hp : Honeypot) (lastSSH : Bool) (lastSPort : Int) (curSSH : Bool)
    (curSPort : Int) : httpCalls (reconcileSSH hp lastSSH lastSPort curSSH curSPort) = [] := by
  unfold reconcileSSH
  split
  · cases h : hp.sshSrv <;> simp [httpCalls, Honeypot.StopSSH, h, List.filter_cons]
  · split
    · cases h : hp.sshSrv <;> simp [httpCalls, Honeypot.StopSSH, h, List.filter_cons]
    · rfl

theorem reconcileHTTP_httpCalls (hp : Honeypot) (lastHTTP : Bool) (lastHPort : Int)
    (curHTTP : Bool) (curHPort : Int) :
    httpCalls (reconcileHTTP hp lastHTTP lastHPort curHTTP curHPort) =
      if curHTTP && (!lastHTTP || curHPort != lastHPort) then
        [Effect.callStopHTTP, Effect.go (Task.startHTTP curHPort)]
      else if !curHTTP && lastHTTP then [Effect.callStopHTTP]
      else [] := by
  unfold reconcileHTTP
  split
  · cases h : hp.httpSrv <;> simp [httpCalls, Honeypot.StopHTTP, h, List.filter_cons]
  · split
    · cases h : hp.httpSrv <;> simp [httpCalls, Honeypot.StopHTTP, h, List.filter_cons]
    · rfl

theorem reconcileHTTP_sshCalls (hp : Honeypot) (lastHTTP : Bool) (lastHPort : Int)
    (curHTTP : Bool) (curHPort : Int) :
    sshCalls (reconcileHTTP hp lastHTTP lastHPort curHTTP curHPort) = [] := by
  unfold reconcileHTTP
  split
  · cases h : hp.httpSrv <;> simp [sshCalls, Honeypot.StopHTTP, h, List.filter_cons]
  · split
    · cases h : hp.httpSrv <;> simp [sshCalls, Honeypot.StopHTTP, h, List.filter_cons]
    · rfl

theorem reconcileSSH_statuses (hp : Honeypot) (lastSSH : Bool) (lastSPort : Int) (curSSH : Bool)
    (curSPort : Int) :
    statuses (reconcileSSH hp lastSSH lastSPort curSSH curSPort) =
      if !curSSH && lastSSH then
        [{ SSH := { Enabled := false, Port := curSPort, Listening := false } }]
      else [] := by
  unfold reconcileSSH
  cases curSSH <;> cases lastSSH <;> cases h : hp.sshSrv <;>
    by_cases hq : curSPort = lastSPort <;>
    simp [statuses, Honeypot.StopSSH, h, hq, List.filterMap_cons]

theorem reconcileHTTP_statuses (hp : Honeypot) (lastHTTP : Bool) (lastHPort : Int)
    (curHTTP : Bool) (curHPort : Int) :
    statuses (reconcileHTTP hp lastHTTP lastHPort curHTTP curHPort) =
      if !curHTTP && lastHTTP then
        [{ HTTP := { Enabled := false, Port := curHPort, Listening := false } }]
      else [] := by
  unfold reconcileHTTP
  cases curHTTP <;> cases lastHTTP <;> cases h : hp.httpSrv <;>
    by_cases hq : curHPort = lastHPort <;>
    simp [statuses, Honeypot.StopHTTP, h, hq, List.filterMap_cons]

theorem tick_sshCalls (sshPort httpPort : Int) (set : Settings) (ok : Bool) (w : World) :
    sshCalls (tick sshPort httpPort (.ok (set, ok)) w).2 =
      (if (effective sshPort httpPort set ok).curSSH &&
          (!w.loop.lastSSH || (effective sshPort httpPort set ok).curSPort != w.loop.lastSPort) then
        [Effect.callStopSSH, Effect.go (Task.startSSH (effective sshPort httpPort set ok).curSPort)]
      else if !(effective sshPort httpPort set ok).curSSH && w.loop.lastSSH then
        [Effect.callStopSSH]
      else []) := by
  rw [tick_ok]
  simp only [sshCalls_append, reconcileSSH_sshCalls, reconcileHTTP_sshCalls, stopLoop_sshCalls,
    startLoop_sshCalls, List.append_nil]
  simp [sshCalls]

theorem tick_httpCalls (sshPort httpPort : Int) (set : Settings) (ok : Bool) (w : World) :
    httpCalls (tick sshPort httpPort (.ok (set, ok)) w).2 =
      (if (effective sshPort httpPort set ok).curHTTP &&
          (!w.loop.lastHTTP || (effective sshPort httpPort set ok).curHPort != w.loop.lastHPort) then
        [Effect.callStopHTTP, Effect.go (Task.startHTTP (effective sshPort httpPort set ok).curHPort)]
      else if !(effective sshPort httpPort set ok).curHTTP && w.loop.lastHTTP then
        [Effect.callStopHTTP]
      else []) := by
  rw [tick_ok]
  simp only [httpCalls_append, reconcileSSH_httpCalls, reconcileHTTP_httpCalls,
    stopLoop_httpCalls, startLoop_httpCalls, List.append_nil, List.nil_append]
  simp [httpCalls]

theorem tick_statuses (sshPort httpPort : Int) (set : Settings) (ok : Bool) (w : World) :
    statuses (tick sshPort httpPort (.ok (set, ok)) w).2 =
      (if !(effective sshPort httpPort set ok).curSSH && w.loop.lastSSH then
        [{ SSH := { Enabled := false, Port := (effective sshPort httpPort set ok).curSPort,
                    Listening := false } }]
      else []) ++
      (if !(effective sshPort httpPort set ok).curHTTP && w.loop.lastHTTP then
        [{ HTTP := { Enabled := false, Port := (effective sshPort httpPort set ok).curHPort,
                     Listening := false } }]
      else []) := by
  rw [tick_ok]
  simp only [statuses_append, reconcileSSH_statuses, reconcileHTTP_statuses, stopLoop_statuses,
    startLoop_statuses, List.append_nil]
  simp [statuses]

/-! ## Claims on the default listener slots and on the settings fetch -/


theorem reconcileSSH_spawned (hp : Honeypot) (lastSSH : Bool) (lastSPort : Int) (curSSH : Bool)
    (curSPort : Int) :
    ∀ t ∈ spawned (reconcileSSH hp lastSSH lastSPort curSSH curSPort), t = Task.startSSH curSPort := by
  unfold reconcileSSH
  cases curSSH <;> cases lastSSH <;> cases h : hp.sshSrv <;>
    by_cases hq : curSPort = lastSPort <;>
    simp [spawned, Honeypot.StopSSH, h, hq, List.filterMap_cons]

theorem reconcileHTTP_spawned (hp : Honeypot) (lastHTTP : Bool) (lastHPort : Int)
    (curHTTP : Bool) (curHPort : Int) :
    ∀ t ∈ spawned (reconcileHTTP hp lastHTTP lastHPort curHTTP curHPort),
      t = Task.startHTTP curHPort := by
  unfold reconcileHTTP
  cases curHTTP <;> cases lastHTTP <;> cases h : hp.httpSrv <;>
    by_cases hq : curHPort = lastHPort <;>
    simp [spawned, Honeypot.StopHTTP, h, hq, List.filterMap_cons]

/-- C3: decision table of the SSH slot and of the HTTP slot in one tick whose
fetch succeeded.  With `d` the effective desired state: the stops and starts of
the slot are a stop followed by a spawned start on the desired port exactly
when `d` is enabled and (last-known disabled or the port differs); a single
stop, with the disabled status pushed, exactly when `d` is disabled and
last-known was enabled; nothing otherwise.  The statuses pushed by the
sequential part of the tick are exactly these disabled statuses, and the
last-known flags and ports become the desired ones in every case. -/
theorem C3_default_slot_decision_table (sshPort httpPort : Int) (set : Settings) (ok : Bool)
    (w : World) :
    sshCalls (tick sshPort httpPort (.ok (set, ok)) w).2 =
      (if (effective sshPort httpPort set ok).curSSH &&
          (!w.loop.lastSSH || (effective sshPort httpPort set ok).curSPort != w.loop.lastSPort) then
        [Effect.callStopSSH, Effect.go (Task.startSSH (effective sshPort httpPort set ok).curSPort)]
      else if !(effective sshPort httpPort set ok).curSSH && w.loop.lastSSH then
        [Effect.callStopSSH]
      else []) ∧
    httpCalls (tick sshPort httpPort (.ok (set, ok)) w).2 =
      (if (effective sshPort httpPort set ok).curHTTP &&
          (!w.loop.lastHTTP || (effective sshPort httpPort set ok).curHPort != w.loop.lastHPort) then
        [Effect.callStopHTTP, Effect.go (Task.startHTTP (effective sshPort httpPort set ok).curHPort)]
      else if !(effective sshPort httpPort set ok).curHTTP && w.loop.lastHTTP then
        [Effect.callStopHTTP]
      else []) ∧
    statuses (tick sshPort httpPort (.ok (set, ok)) w).2 =
      (if !(effective sshPort httpPort set ok).curSSH && w.loop.lastSSH then
        [{ SSH := { Enabled := false, Port := (effective sshPort httpPort set ok).curSPort,
                    Listening := false } }]
      else []) ++
      (if !(effective sshPort httpPort set ok).curHTTP && w.loop.lastHTTP then
        [{ HTTP := { Enabled := false, Port := (effective sshPort httpPort set ok).curHPort,
                     Listening := false } }]
      else []) ∧
    (tick sshPort httpPort (.ok (set, ok)) w).1.loop.lastSSH =
      (effective sshPort httpPort set ok).curSSH ∧
    (tick sshPort httpPort (.ok (set, ok)) w).1.loop.lastSPort =
      (effective sshPort httpPort set ok).curSPort ∧
    (tick sshPort httpPort (.ok (set, ok)) w).1.loop.lastHTTP =
      (effective sshPort httpPort set ok).curHTTP ∧
    (tick sshPort httpPort (.ok (set, ok)) w).1.loop.lastHPort =
      (effective sshPort httpPort set ok).curHPort := by
  exact ⟨tick_sshCalls sshPort httpPort set ok w, tick_httpCalls sshPort httpPort set ok w,
    tick_statuses sshPort httpPort set ok w, rfl, rfl, rfl, rfl⟩

/-- C6: when the settings fetch returns an error the tick does nothing: the
watcher variables (running map, last-known flags and ports) and the
orchestrator are unchanged and the trace is empty (no stop, no start, no call
at all), also when spawned goroutines are run to completion; so the next tick
behaves as if the failed tick had not happened. -/
theorem C6_fetch_error_skips_tick (sshPort httpPort : Int) (err : String)
    (outcome : Task → Option String) (fresh : Nat) (w : World) (next : Fetch) :
    tick sshPort httpPort (.error err) w = (w, []) ∧
    tickSync sshPort httpPort (.error err) outcome fresh w = (w, []) ∧
    sshCalls (tick sshPort httpPort (.error err) w).2 = [] ∧
    httpCalls (tick sshPort httpPort (.error err) w).2 = [] ∧
    genericCalls (tick sshPort httpPort (.error err) w).2 = [] ∧
    (tick sshPort httpPort (.error err) w).1.loop.running = w.loop.running ∧
    tick sshPort httpPort next (tick sshPort httpPort (.error err) w).1 =
      tick sshPort httpPort next w :=
  ⟨rfl, rfl, rfl, rfl, rfl, rfl, rfl⟩

/-- C7: the effective desired state of the default listeners.  Without a
settings document both are enabled on the startup ports, whatever the returned
settings value holds; with a document the flags are the document's and each
port is the document's, a port of 0 being replaced by the startup port.  A
tick records exactly this state as last-known. -/
theorem C7_effective_desired_state (sshPort httpPort : Int) (set : Settings) (ok : Bool)
    (w : World) :
    effective sshPort httpPort set false =
      { curSSH := true, curHTTP := true, curSPort := sshPort, curHPort := httpPort } ∧
    effective sshPort httpPort set true =
      { curSSH := set.EnableSSH, curHTTP := set.EnableHTTP,
        curSPort := if set.SSHPort = 0 then sshPort else set.SSHPort,
        curHPort := if set.HTTPPort = 0 then httpPort else set.HTTPPort } ∧
    (tick sshPort httpPort (.ok (set, ok)) w).1.loop.lastSSH =
      (effective sshPort httpPort set ok).curSSH ∧
    (tick sshPort httpPort (.ok (set, ok)) w).1.loop.lastHTTP =
      (effective sshPort httpPort set ok).curHTTP ∧
    (tick sshPort httpPort (.ok (set, ok)) w).1.loop.lastSPort =
      (effective sshPort httpPort set ok).curSPort ∧
    (tick sshPort httpPort (.ok (set, ok)) w).1.loop.lastHPort =
      (effective sshPort httpPort set ok).curHPort := by
  refine ⟨?_, ?_, rfl, rfl, rfl, rfl⟩
  · simp only [effective]
    by_cases h1 : sshPort = 0 <;> by_cases h2 : httpPort = 0 <;> simp [h1, h2]
  · simp only [effective]
    by_cases h1 : set.SSHPort = 0 <;> by_cases h2 : set.HTTPPort = 0 <;> simp [h1, h2]

/-! ## Claims on banners and on the orchestrator operations -/


theorem tick_spawned (sshPort httpPort : Int) (set : Settings) (ok : Bool) (w : World) :
    spawned (tick sshPort httpPort (.ok (set, ok)) w).2 =
      spawned (reconcileSSH w.hp w.loop.lastSSH w.loop.lastSPort
        (effective sshPort httpPort set ok).curSSH (effective sshPort httpPort set ok).curSPort) ++
      spawned (reconcileHTTP w.hp w.loop.lastHTTP w.loop.lastHPort
        (effective sshPort httpPort set ok).curHTTP (effective sshPort httpPort set ok).curHPort) ++
      ((desiredMap set.Services).filter (fun e => e.2.Enabled &&
          (GoMap.get (stopLoop (desiredMap set.Services) w.loop.running w.hp).1 e.1).isNone)).map
        (fun e => Task.startGeneric e.2 (startBanner e.2) e.1) := by
  rw [tick_ok]
  simp only [spawned_append, stopLoop_spawned, startLoop_spawned, List.append_nil]
  simp [spawned]

theorem tick_spawned_generic {sshPort httpPort : Int} {set : Settings} {ok : Bool} {w : World}
    {s : Service} {b k : String}
    (h : Task.startGeneric s b k ∈ spawned (tick sshPort httpPort (.ok (set, ok)) w).2) :
    (k, s) ∈ desiredMap set.Services ∧ s.Enabled = true ∧ b = startBanner s ∧
      GoMap.get (stopLoop (desiredMap set.Services) w.loop.running w.hp).1 k = none := by
  rw [tick_spawned] at h
  rcases List.mem_append.mp h with h1 | h1
  · rcases List.mem_append.mp h1 with h2 | h2
    · cases reconcileSSH_spawned _ _ _ _ _ _ h2
    · cases reconcileHTTP_spawned _ _ _ _ _ _ h2
  · obtain ⟨e, he, heq⟩ := List.mem_map.mp h1
    simp only [List.mem_filter, Bool.and_eq_true, Option.isNone_iff_eq_none] at he
    cases heq
    exact ⟨he.1, he.2.1, rfl, he.2.2⟩

/-- C8: the banner a generic service is started with.  It is the configured
banner when that is not empty, otherwise the fixed default of the kind (telnet,
ftp, smtp, mysql, memcached, vnc) and the empty banner for every other kind;
every start spawned by a tick carries this banner and a successful start hands
it to the accept loop; the connection handler of an ftp service without a
configured banner writes exactly the vsFTPd greeting first, that of a service
of unknown kind writes nothing, and the mysql default is the bytes
05 00 00 0a, then 5.7.42, then a NUL. -/
theorem C8_start_banner (svc : Service) (remote : String) :
    startBanner svc =
      (if svc.Banner ≠ "" then svc.Banner
       else if svc.Kind = "telnet" then "\r\nUbuntu 22.04 LTS\r\nlogin: "
       else if svc.Kind = "ftp" then "220 (vsFTPd 3.0.3)\r\n"
       else if svc.Kind = "smtp" then "220 mail ESMTP Postfix\r\n"
       else if svc.Kind = "mysql" then
         String.mk ([5, 0, 0, 10].map Char.ofNat ++ "5.7.42".data ++ [Char.ofNat 0])
       else if svc.Kind = "memcached" then "\r\n"
       else if svc.Kind = "vnc" then "RFB 003.008\n"
       else "") ∧
    (∀ (sshPort httpPort : Int) (set : Settings) (ok : Bool) (w : World) (b k : String),
      Task.startGeneric svc b k ∈ spawned (tick sshPort httpPort (.ok (set, ok)) w).2 →
        b = startBanner svc) ∧
    (∀ (key : String) (fresh : Nat) (w : World),
      Effect.serve svc.Kind svc.Name svc.Port (startBanner svc) ∈
        (runTask (Task.startGeneric svc (startBanner svc) key) none fresh w).2) ∧
    (svc.Kind = "ftp" → svc.Banner = "" →
      (connAccept svc.Kind svc.Name svc.Port (startBanner svc) remote).2 =
        "220 (vsFTPd 3.0.3)\r\n") ∧
    (svc.Banner = "" →
      svc.Kind ∉ ["telnet", "ftp", "smtp", "mysql", "memcached", "vnc"] →
      (connAccept svc.Kind svc.Name svc.Port (startBanner svc) remote).2 = "") := by
  refine ⟨?_, ?_, ?_, ?_, ?_⟩
  · unfold startBanner
    by_cases hb : svc.Banner = ""
    · simp only [hb, beq_self_eq_true, if_true, ne_eq, not_true_eq_false, if_false, beq_iff_eq]
      rfl
    · have hb2 : (svc.Banner == "") = false := by simpa using hb
      simp [hb, hb2]
  · intro sshPort httpPort set ok w b k h
    exact (tick_spawned_generic h).2.2.1
  · intro key fresh w
    simp only [runTask, Honeypot.StartGenericService]
    cases w.hp.svcCancels.get (svcKeyOf svc.Kind svc.Port) <;> simp
  · intro hk hb
    simp [connAccept, startBanner, hk, hb]
  · intro hb hk
    simp only [List.mem_cons, List.mem_singleton, List.not_mem_nil, or_false, not_or] at hk
    obtain ⟨h1, h2, h3, h4, h5, h6⟩ := hk
    simp [connAccept, startBanner, hb, h1, h2, h3, h4, h5, h6]

/-- Witness of C8 at an ftp service on port 2121 without a banner (the rdp
service stands for an unknown kind). -/
theorem C8_start_banner_witness :
    (connAccept "ftp" "files" 2121
        (startBanner { Name := "files", Kind := "ftp", Port := 2121, Enabled := true, Banner := "" })
        "203.0.113.9").2 = "220 (vsFTPd 3.0.3)\r\n" ∧
    (connAccept "rdp" "desk" 3389
        (startBanner { Name := "desk", Kind := "rdp", Port := 3389, Enabled := true, Banner := "" })
        "203.0.113.9").2 = "" :=
  ⟨(C8_start_banner { Name := "files", Kind := "ftp", Port := 2121, Enabled := true, Banner := "" }
      "203.0.113.9").2.2.2.1 rfl rfl,
   (C8_start_banner { Name := "desk", Kind := "rdp", Port := 3389, Enabled := true, Banner := "" }
      "203.0.113.9").2.2.2.2 rfl (by decide)⟩

theorem cancelled_append (a b : List Effect) : cancelled (a ++ b) = cancelled a ++ cancelled b := by
  simp [cancelled]

/-- C9: `StopGenericService` is total and idempotent.  Stopping a key without
a registered cancel function changes nothing and invokes nothing; stopping a
registered key invokes its cancel function once, removes the entry and leaves
every other entry and both server slots alone; a second stop of the same key
changes nothing and invokes nothing, so over both calls the cancel function of
a registered key is invoked exactly once.  `StopSSH` and `StopHTTP` do nothing
when the listener was never started (the slot is nil). -/
theorem C9_stop_idempotent (h : Honeypot) (kind : String) (port : Int) :
    (h.svcCancels.get (svcKeyOf kind port) = none → h.StopGenericService kind port = (h, [])) ∧
    (∀ c, h.svcCancels.get (svcKeyOf kind port) = some c →
      (h.StopGenericService kind port).2 = [Effect.cancel c] ∧
      (h.StopGenericService kind port).1.svcCancels.get (svcKeyOf kind port) = none ∧
      (∀ k, k ≠ svcKeyOf kind port →
        (h.StopGenericService kind port).1.svcCancels.get k = h.svcCancels.get k) ∧
      (h.StopGenericService kind port).1.sshSrv = h.sshSrv ∧
      (h.StopGenericService kind port).1.httpSrv = h.httpSrv ∧
      cancelled ((h.StopGenericService kind port).2 ++
        ((h.StopGenericService kind port).1.StopGenericService kind port).2) = [c]) ∧
    (h.StopGenericService kind port).1.StopGenericService kind port =
      ((h.StopGenericService kind port).1, []) ∧
    (h.sshSrv = none → h.StopSSH = []) ∧
    (h.httpSrv = none → h.StopHTTP = []) ∧
    NewHoneypot.StopSSH = [] ∧ NewHoneypot.StopHTTP = [] := by
  have hsecond : (h.StopGenericService kind port).1.StopGenericService kind port =
      ((h.StopGenericService kind port).1, []) := by
    apply StopGenericService_of_none
    cases hg : h.svcCancels.get (svcKeyOf kind port) with
    | none => rw [StopGenericService_of_none hg]; exact hg
    | some c => rw [StopGenericService_of_some hg]; exact GoMap.get_delete_self _ _
  refine ⟨fun hg => StopGenericService_of_none hg, ?_, hsecond, ?_, ?_, rfl, rfl⟩
  · intro c hg
    rw [hsecond]
    rw [StopGenericService_of_some hg]
    refine ⟨rfl, GoMap.get_delete_self _ _, fun k hk => GoMap.get_delete_of_ne _ hk, rfl, rfl, ?_⟩
    simp [cancelled]
  · intro hs; simp [Honeypot.StopSSH, hs]
  · intro hs; simp [Honeypot.StopHTTP, hs]

/-- Witness of C9: an orchestrator with the ftp service on port 2121
registered under the cancel function 7 and with no SSH server. -/
theorem C9_stop_idempotent_witness :
    (Honeypot.StopGenericService
        { sshSrv := none, httpSrv := some 3, svcCancels := [("ftp:2121", 7), ("telnet:23", 8)] }
        "ftp" 2121).2 = [Effect.cancel 7] ∧
    Honeypot.StopGenericService
        { sshSrv := none, httpSrv := some 3, svcCancels := [("ftp:2121", 7), ("telnet:23", 8)] }
        "smtp" 25 =
      ({ sshSrv := none, httpSrv := some 3, svcCancels := [("ftp:2121", 7), ("telnet:23", 8)] }, []) ∧
    Honeypot.StopSSH
      { sshSrv := none, httpSrv := some 3, svcCancels := [("ftp:2121", 7), ("telnet:23", 8)] } = [] :=
  ⟨((C9_stop_idempotent
      { sshSrv := none, httpSrv := some 3, svcCancels := [("ftp:2121", 7), ("telnet:23", 8)] }
      "ftp" 2121).2.1 7 (by decide)).1,
   (C9_stop_idempotent
      { sshSrv := none, httpSrv := some 3, svcCancels := [("ftp:2121", 7), ("telnet:23", 8)] }
      "smtp" 25).1 (by decide),
   (C9_stop_idempotent
      { sshSrv := none, httpSrv := some 3, svcCancels := [("ftp:2121", 7), ("telnet:23", 8)] }
      "ftp" 2121).2.2.2.1 rfl⟩

theorem StartGenericService_fail (h : Honeypot) (kind name : String) (port : Int)
    (banner err : String) (newCancel : Nat) :
    h.StartGenericService kind name port banner (some err) newCancel =
      ((h.StopGenericService kind port).1,
        (h.StopGenericService kind port).2 ++ [Effect.listen port], some err) := by
  cases hg : h.svcCancels.get (svcKeyOf kind port) with
  | none => simp [Honeypot.StartGenericService, Honeypot.StopGenericService, hg]
  | some c => simp [Honeypot.StartGenericService, Honeypot.StopGenericService, hg]

theorem StartGenericService_ok (h : Honeypot) (kind name : String) (port : Int)
    (banner : String) (newCancel : Nat) :
    h.StartGenericService kind name port banner none newCancel =
      ({ (h.StopGenericService kind port).1 with
          svcCancels := (h.StopGenericService kind port).1.svcCancels.set (svcKeyOf kind port)
            newCancel },
        (h.StopGenericService kind port).2 ++
          [Effect.listen port, Effect.serve kind name port banner], none) := by
  cases hg : h.svcCancels.get (svcKeyOf kind port) with
  | none => simp [Honeypot.StartGenericService, Honeypot.StopGenericService, hg]
  | some c => simp [Honeypot.StartGenericService, Honeypot.StopGenericService, hg]

/-- C10: a failed bind in `StartGenericService` leaves no entry.  The call
returns the bind error, the cancel map has no entry for `kind:port` afterwards,
the entries of all other keys and both server slots are as before, no accept
loop is spawned, and the goroutine of the watcher that made the call leaves the
watcher variables, the running map among them, unchanged. -/
theorem C10_failed_bind_leaves_no_entry (h : Honeypot) (kind name : String) (port : Int)
    (banner err : String) (newCancel : Nat) :
    (h.StartGenericService kind name port banner (some err) newCancel).2.2 = some err ∧
    (h.StartGenericService kind name port banner (some err) newCancel).1.svcCancels.get
      (svcKeyOf kind port) = none ∧
    (∀ k, k ≠ svcKeyOf kind port →
      (h.StartGenericService kind name port banner (some err) newCancel).1.svcCancels.get k =
        h.svcCancels.get k) ∧
    (h.StartGenericService kind name port banner (some err) newCancel).1.sshSrv = h.sshSrv ∧
    (h.StartGenericService kind name port banner (some err) newCancel).1.httpSrv = h.httpSrv ∧
    Effect.serve kind name port banner ∉
      (h.StartGenericService kind name port banner (some err) newCancel).2.1 ∧
    (∀ (svc : Service) (bnr key : String) (fresh : Nat) (w : World),
      (runTask (Task.startGeneric svc bnr key) (some err) fresh w).1.loop = w.loop ∧
      (runTask (Task.startGeneric svc bnr key) (some err) fresh w).1.loop.running.get key =
        w.loop.running.get key) := by
  rw [StartGenericService_fail]
  cases hg : h.svcCancels.get (svcKeyOf kind port) with
  | none =>
    rw [StopGenericService_of_none hg]
    refine ⟨rfl, hg, fun _ _ => rfl, rfl, rfl, by simp, ?_⟩
    intro svc bnr key fresh w
    simp only [runTask, StartGenericService_fail, and_self]
  | some c =>
    rw [StopGenericService_of_some hg]
    refine ⟨rfl, GoMap.get_delete_self _ _, fun k hk => GoMap.get_delete_of_ne _ hk, rfl, rfl,
      by simp, ?_⟩
    intro svc bnr key fresh w
    simp only [runTask, StartGenericService_fail, and_self]

/-- Witness of C10: the bind of a second ftp service on port 2121 fails while a
telnet service is registered. -/
theorem C10_failed_bind_leaves_no_entry_witness :
    (Honeypot.StartGenericService
        { sshSrv := none, httpSrv := none, svcCancels := [("ftp:2121", 7), ("telnet:23", 8)] }
        "ftp" "files" 2121 "" (some "bind: address already in use") 9).1.svcCancels.get
      "telnet:23" = some 8 :=
  (C10_failed_bind_leaves_no_entry
      { sshSrv := none, httpSrv := none, svcCancels := [("ftp:2121", 7), ("telnet:23", 8)] }
      "ftp" "files" 2121 "" "bind: address already in use" 9).2.2.1 "telnet:23" (by decide)

/-! ## Running the spawned goroutines -/


theorem tickSync_eq (sshPort httpPort : Int) (fetch : Fetch) (outcome : Task → Option String)
    (fresh : Nat) (w : World) :
    tickSync sshPort httpPort fetch outcome fresh w =
      ((runTasks (spawned (tick sshPort httpPort fetch w).2) outcome fresh
          (tick sshPort httpPort fetch w).1).1,
        (tick sshPort httpPort fetch w).2 ++
          (runTasks (spawned (tick sshPort httpPort fetch w).2) outcome fresh
            (tick sshPort httpPort fetch w).1).2) := rfl

theorem runTasks_cons (t : Task) (rest : List Task) (outcome : Task → Option String)
    (fresh : Nat) (w : World) :
    runTasks (t :: rest) outcome fresh w =
      ((runTasks rest outcome (fresh + 1) (runTask t (outcome t) fresh w).1).1,
        (runTask t (outcome t) fresh w).2 ++
          (runTasks rest outcome (fresh + 1) (runTask t (outcome t) fresh w).1).2) := rfl

theorem runTasks_append (a b : List Task) (outcome : Task → Option String) :
    ∀ (fresh : Nat) (w : World),
      (runTasks (a ++ b) outcome fresh w).1 =
        (runTasks b outcome (fresh + a.length) (runTasks a outcome fresh w).1).1 := by
  induction a with
  | nil => intro fresh w; rfl
  | cons t rest ih =>
    intro fresh w
    simp only [List.cons_append, runTasks_cons, ih, List.length_cons]
    have : fresh + 1 + rest.length = fresh + (rest.length + 1) := by omega
    rw [this]

/-- What a goroutine does to the running map: a successful generic start
stores the descriptor, everything else leaves the map alone. -/
theorem runTask_running (t : Task) (res : Option String) (fresh : Nat) (w : World) :
    (runTask t res fresh w).1.loop.running =
      match t, res with
      | Task.startGeneric svc _ key, none => w.loop.running.set key svc
      | _, _ => w.loop.running := by
  cases t with
  | startSSH p => cases res <;> rfl
  | startHTTP p => cases res <;> rfl
  | startGeneric svc bnr key =>
    cases res with
    | none => simp only [runTask, StartGenericService_ok]
    | some err => simp only [runTask, StartGenericService_fail]

theorem runTasks_default_running (l : List Task) (outcome : Task → Option String)
    (hl : ∀ t ∈ l, (∃ p, t = Task.startSSH p) ∨ ∃ p, t = Task.startHTTP p) :
    ∀ (fresh : Nat) (w : World), (runTasks l outcome fresh w).1.loop.running = w.loop.running := by
  induction l with
  | nil => intro fresh w; rfl
  | cons t rest ih =>
    intro fresh w
    rw [runTasks_cons]
    simp only
    rw [ih (fun t ht => hl t (List.mem_cons_of_mem _ ht)), runTask_running]
    rcases hl t (List.mem_cons_self _ _) with ⟨p, rfl⟩ | ⟨p, rfl⟩ <;> rfl

/-- The running map after the generic starts of a list of entries, for an
arbitrary outcome: the successful ones are stored, in order. -/
theorem runTasks_generic_running (ps : GoMap Service) (outcome : Task → Option String) :
    ∀ (fresh : Nat) (w : World),
      (runTasks (ps.map (fun e => Task.startGeneric e.2 (startBanner e.2) e.1)) outcome fresh
          w).1.loop.running =
        (ps.filter (fun e =>
            (outcome (Task.startGeneric e.2 (startBanner e.2) e.1)).isNone)).foldl
          (fun m e => m.set e.1 e.2) w.loop.running := by
  induction ps with
  | nil => intro fresh w; rfl
  | cons e rest ih =>
    intro fresh w
    rw [List.map_cons, runTasks_cons]
    simp only
    rw [ih, runTask_running]
    cases ho : outcome (Task.startGeneric e.2 (startBanner e.2) e.1) with
    | none => simp [List.filter_cons, ho]
    | some err => simp [List.filter_cons, ho]

theorem fold_set_keys_nodup (ps : GoMap Service) :
    ∀ m : GoMap Service, m.keys.Nodup →
      (ps.foldl (fun m e => GoMap.set m e.1 e.2) m).keys.Nodup := by
  induction ps with
  | nil => intro m h; exact h
  | cons e rest ih => intro m h; exact ih _ (GoMap.nodup_keys_set h _ _)

theorem fold_set_get (ps : GoMap Service) :
    ∀ (m : GoMap Service) (k : String), ps.keys.Nodup →
      GoMap.get (ps.foldl (fun m e => GoMap.set m e.1 e.2) m) k = (ps.get k).or (m.get k) := by
  induction ps with
  | nil => intro m k _; simp [GoMap.get_nil]
  | cons e rest ih =>
    intro m k h
    simp only [GoMap.keys, List.map_cons, List.nodup_cons] at h
    rw [List.foldl_cons, ih _ _ h.2, GoMap.get_cons]
    by_cases hk : e.1 = k
    · subst hk
      rw [if_pos rfl, GoMap.get_set_self, GoMap.get_eq_none_iff.mpr h.1]
      rfl
    · rw [if_neg hk, GoMap.get_set_of_ne _ _ (Ne.symm hk)]

theorem mustStop_eq_false_iff {desired : GoMap Service} {k : String} {c : Service} :
    mustStop desired k c = false ↔
      ∃ want, desired.get k = some want ∧ want.Enabled = true ∧ want.Banner = c.Banner ∧
        want.Name = c.Name := by
  unfold mustStop
  cases desired.get k with
  | none => simp
  | some want => cases hE : want.Enabled <;> simp [hE]

theorem keys_filter_nodup {α : Type} {m : GoMap α} (h : m.keys.Nodup) (p : String × α → Bool) :
    GoMap.keys (m.filter p) |>.Nodup := by
  refine List.Nodup.sublist ?_ h
  exact List.Sublist.map _ (List.filter_sublist m)

/-! ## The running map after a tick whose goroutines have completed -/


theorem tickSync_running (sshPort httpPort : Int) (set : Settings) (ok : Bool)
    (outcome : Task → Option String) (fresh : Nat) (w : World) :
    (tickSync sshPort httpPort (.ok (set, ok)) outcome fresh w).1.loop.running =
      (((desiredMap set.Services).filter (fun e => e.2.Enabled &&
          (GoMap.get (stopLoop (desiredMap set.Services) w.loop.running w.hp).1 e.1).isNone)).filter
        (fun e => (outcome (Task.startGeneric e.2 (startBanner e.2) e.1)).isNone)).foldl
        (fun m e => m.set e.1 e.2) (stopLoop (desiredMap set.Services) w.loop.running w.hp).1 := by
  rw [tickSync_eq]
  simp only
  rw [tick_spawned, runTasks_append, runTasks_generic_running, runTasks_default_running]
  · rw [tick_ok]
  · intro t ht
    rcases List.mem_append.mp ht with h | h
    · exact Or.inl ⟨_, reconcileSSH_spawned _ _ _ _ _ t h⟩
    · exact Or.inr ⟨_, reconcileHTTP_spawned _ _ _ _ _ t h⟩

/-- The lookup in the running map after a tick in which every start
succeeded. -/
theorem tickSync_ok_get (sshPort httpPort : Int) (set : Settings) (ok : Bool) (fresh : Nat)
    (w : World) (hkeys : (set.Services.map svcKey).Nodup) (hrun : w.loop.running.keys.Nodup)
    (k : String) :
    GoMap.get (tickSync sshPort httpPort (.ok (set, ok)) (fun _ => none) fresh w).1.loop.running k =
      match GoMap.get (w.loop.running.filter
          (fun e => !mustStop (desiredMap set.Services) e.1 e.2)) k with
      | some c => some c
      | none =>
        match (desiredMap set.Services).get k with
        | some s => if s.Enabled then some s else none
        | none => none := by
  rw [tickSync_running, stopLoop_running _ hrun]
  simp only [Option.isNone_none, List.filter_true]
  have hd : (desiredMap set.Services).keys.Nodup := by rw [desiredMap_keys hkeys]; exact hkeys
  rw [fold_set_get _ _ _ (keys_filter_nodup hd _)]
  cases hr : GoMap.get (w.loop.running.filter
      (fun e => !mustStop (desiredMap set.Services) e.1 e.2)) k with
  | some c =>
    have : GoMap.get ((desiredMap set.Services).filter (fun e => e.2.Enabled &&
        (GoMap.get (w.loop.running.filter
          (fun e => !mustStop (desiredMap set.Services) e.1 e.2)) e.1).isNone)) k = none := by
      rw [GoMap.get_eq_none_iff]
      intro hmem
      obtain ⟨e, he, hek⟩ := List.mem_map.mp hmem
      simp only [List.mem_filter, Bool.and_eq_true, Option.isNone_iff_eq_none] at he
      rw [hek, hr] at he
      cases he.2.2
    rw [this]; rfl
  | none =>
    cases hdk : (desiredMap set.Services).get k with
    | none =>
      have : GoMap.get ((desiredMap set.Services).filter (fun e => e.2.Enabled &&
          (GoMap.get (w.loop.running.filter
            (fun e => !mustStop (desiredMap set.Services) e.1 e.2)) e.1).isNone)) k = none := by
        rw [GoMap.get_eq_none_iff]
        intro hmem
        obtain ⟨e, he, hek⟩ := List.mem_map.mp hmem
        have h1 : k ∈ (desiredMap set.Services).keys :=
          List.mem_map.mpr ⟨e, (List.mem_filter.mp he).1, hek⟩
        exact (GoMap.get_eq_none_iff.mp hdk) h1
      rw [this]; rfl
    | some s =>
      have hmem := GoMap.mem_of_get_eq_some hdk
      cases hE : s.Enabled with
      | true =>
        have : GoMap.get ((desiredMap set.Services).filter (fun e => e.2.Enabled &&
            (GoMap.get (w.loop.running.filter
              (fun e => !mustStop (desiredMap set.Services) e.1 e.2)) e.1).isNone)) k = some s := by
          apply GoMap.get_eq_some_of_mem (keys_filter_nodup hd _)
          simp only [List.mem_filter, Bool.and_eq_true, Option.isNone_iff_eq_none]
          exact ⟨hmem, hE, hr⟩
        rw [this]; simp [hE]
      | false =>
        have : GoMap.get ((desiredMap set.Services).filter (fun e => e.2.Enabled &&
            (GoMap.get (w.loop.running.filter
              (fun e => !mustStop (desiredMap set.Services) e.1 e.2)) e.1).isNone)) k = none := by
          rw [GoMap.get_eq_none_iff]
          intro hmem2
          obtain ⟨e, he, hek⟩ := List.mem_map.mp hmem2
          simp only [List.mem_filter, Bool.and_eq_true, Option.isNone_iff_eq_none] at he
          have h2 := GoMap.get_eq_some_of_mem hd (show (e.1, e.2) ∈ desiredMap set.Services from he.1)
          rw [hek, hdk] at h2
          have h3 : s = e.2 := Option.some.inj h2
          rw [← h3, hE] at he
          cases he.2.1
        rw [this]; simp [hE]

theorem tickSync_running_nodup (sshPort httpPort : Int) (set : Settings) (ok : Bool)
    (outcome : Task → Option String) (fresh : Nat) (w : World)
    (hrun : w.loop.running.keys.Nodup) :
    (tickSync sshPort httpPort (.ok (set, ok)) outcome fresh w).1.loop.running.keys.Nodup := by
  rw [tickSync_running, stopLoop_running _ hrun]
  exact fold_set_keys_nodup _ _ (keys_filter_nodup hrun _)

/-! ## The representation invariant of the running map -/


theorem GoMap.mem_set {α : Type} {m : GoMap α} {k : String} {v : α} {e : String × α}
    (h : e ∈ m.set k v) : e ∈ m ∨ e = (k, v) := by
  rcases List.mem_append.mp h with h1 | h1
  · exact Or.inl (GoMap.mem_delete.mp h1).1
  · exact Or.inr (by simpa using h1)

theorem desiredMap_entries (l : List Service) :
    ∀ e ∈ desiredMap l, e.1 = svcKey e.2 := by
  have key : ∀ (l : List Service) (acc : GoMap Service), (∀ e ∈ acc, e.1 = svcKey e.2) →
      ∀ e ∈ l.foldl (fun d svc => d.set (svcKey svc) svc) acc, e.1 = svcKey e.2 := by
    intro l
    induction l with
    | nil => intro acc h; exact h
    | cons s rest ih =>
      intro acc h
      apply ih
      intro e he
      rcases GoMap.mem_set he with h1 | h1
      · exact h e h1
      · rw [h1]
  exact key l [] (fun e he => by cases he)

theorem fold_set_mem (ps : GoMap Service) :
    ∀ (m : GoMap Service) (e : String × Service),
      e ∈ ps.foldl (fun m e => GoMap.set m e.1 e.2) m → e ∈ m ∨ e ∈ ps := by
  induction ps with
  | nil => intro m e h; exact Or.inl h
  | cons p rest ih =>
    intro m e h
    rcases ih _ e h with h1 | h1
    · rcases GoMap.mem_set h1 with h2 | h2
      · exact Or.inl h2
      · exact Or.inr (h2 ▸ List.mem_cons_self _ _)
    · exact Or.inr (List.mem_cons_of_mem _ h1)

/-- The invariant holds when the watcher starts. -/
theorem RunningWF_init (sshPort httpPort : Int) : RunningWF (initLoop sshPort httpPort).running :=
  ⟨List.nodup_nil, fun e he => by cases he⟩

/-- The invariant is kept by every tick, whatever is fetched and whatever the
spawned starts return. -/
theorem RunningWF_tickSync (sshPort httpPort : Int) (fetch : Fetch)
    (outcome : Task → Option String) (fresh : Nat) (w : World) (hwf : RunningWF w.loop.running) :
    RunningWF (tickSync sshPort httpPort fetch outcome fresh w).1.loop.running := by
  cases fetch with
  | error err => exact hwf
  | ok p =>
    obtain ⟨set, ok⟩ := p
    refine ⟨tickSync_running_nodup sshPort httpPort set ok outcome fresh w hwf.1, ?_⟩
    intro e he
    rw [tickSync_running, stopLoop_running _ hwf.1] at he
    rcases fold_set_mem _ _ e he with h1 | h1
    · exact hwf.2 e (List.mem_filter.mp h1).1
    · have h2 := (List.mem_filter.mp h1).1
      simp only [List.mem_filter, Bool.and_eq_true] at h2
      exact ⟨desiredMap_entries _ e h2.1, h2.2.1⟩

/-! ## Convergence of the running map -/


theorem Service.ext_fields {a b : Service} (h1 : a.Name = b.Name) (h2 : a.Kind = b.Kind)
    (h3 : a.Port = b.Port) (h4 : a.Enabled = b.Enabled) (h5 : a.Banner = b.Banner) : a = b := by
  cases a; cases b; simp_all

/-- An entry that survives the stop loop is the desired descriptor of its
key. -/
theorem kept_entry_is_desired {services : List Service} {running : GoMap Service}
    (hkeys : (services.map svcKey).Nodup) (hwf : RunningWF running) {k : String} {c : Service}
    (h : GoMap.get (running.filter (fun e => !mustStop (desiredMap services) e.1 e.2)) k = some c) :
    c ∈ services ∧ c.Enabled = true ∧ svcKey c = k := by
  have hmem := GoMap.mem_of_get_eq_some h
  simp only [List.mem_filter, Bool.not_eq_true'] at hmem
  obtain ⟨hin, hms⟩ := hmem
  obtain ⟨want, hw, hwE, hwB, hwN⟩ := mustStop_eq_false_iff.mp hms
  obtain ⟨hk, hcE⟩ := hwf.2 (k, c) hin
  obtain ⟨hws, hwk⟩ := mem_of_desiredMap_get hkeys hw
  simp only at hk hcE
  have hinj := svcKeyOf_injective (show svcKeyOf want.Kind want.Port = svcKeyOf c.Kind c.Port from
    hwk.trans hk)
  have : want = c := Service.ext_fields hwN hinj.1 hinj.2 (hwE.trans hcE.symm) hwB
  subst this
  exact ⟨hws, hwE, hwk⟩

theorem tickSync_ok_get_eq_some_iff (sshPort httpPort : Int) (set : Settings) (ok : Bool)
    (fresh : Nat) (w : World) (hkeys : (set.Services.map svcKey).Nodup)
    (hwf : RunningWF w.loop.running) (k : String) (v : Service) :
    GoMap.get (tickSync sshPort httpPort (.ok (set, ok)) (fun _ => none) fresh w).1.loop.running k =
        some v ↔
      v ∈ set.Services ∧ v.Enabled = true ∧ svcKey v = k := by
  rw [tickSync_ok_get sshPort httpPort set ok fresh w hkeys hwf.1 k]
  cases hr : GoMap.get (w.loop.running.filter
      (fun e => !mustStop (desiredMap set.Services) e.1 e.2)) k with
  | some c =>
    have hc := kept_entry_is_desired hkeys hwf hr
    simp only [Option.some.injEq]
    constructor
    · rintro rfl; exact hc
    · rintro ⟨hv, _, hvk⟩
      have h1 := desiredMap_get hkeys hv
      have h2 := desiredMap_get hkeys hc.1
      rw [hvk] at h1
      rw [hc.2.2, h1] at h2
      exact (Option.some.inj h2).symm
  | none =>
    simp only
    constructor
    · intro h
      cases hd : (desiredMap set.Services).get k with
      | none => rw [hd] at h; cases h
      | some s =>
        rw [hd] at h
        simp only at h
        by_cases hE : s.Enabled = true
        · rw [if_pos hE] at h
          cases h
          exact ⟨(mem_of_desiredMap_get hkeys hd).1, hE, (mem_of_desiredMap_get hkeys hd).2⟩
        · rw [if_neg hE] at h; cases h
    · rintro ⟨hv, hE, hvk⟩
      have h1 := desiredMap_get hkeys hv
      rw [hvk] at h1
      rw [h1]
      simp [hE]

/-- C1: convergence of the running map of generic services.  For every world
whose running map satisfies its representation invariant and every fetched
settings value whose services have pairwise distinct keys `kind:port`: after one
tick in which every spawned start succeeds and completes before the tick ends,
the keys of the running map are exactly the keys of the enabled services of
the settings (none stale, none missing), no key occurs twice, the descriptor
stored under the key of an enabled service is that service, and the
representation invariant holds again. -/
theorem C1_running_converges (sshPort httpPort : Int) (set : Settings) (ok : Bool) (fresh : Nat)
    (w : World) (hkeys : (set.Services.map svcKey).Nodup) (hwf : RunningWF w.loop.running) :
    (∀ k, k ∈ GoMap.keys
          (tickSync sshPort httpPort (.ok (set, ok)) (fun _ => none) fresh w).1.loop.running ↔
        ∃ s ∈ set.Services, s.Enabled = true ∧ svcKey s = k) ∧
    (GoMap.keys
      (tickSync sshPort httpPort (.ok (set, ok)) (fun _ => none) fresh w).1.loop.running).Nodup ∧
    (∀ s ∈ set.Services, s.Enabled = true →
      GoMap.get (tickSync sshPort httpPort (.ok (set, ok)) (fun _ => none) fresh w).1.loop.running
        (svcKey s) = some s) ∧
    RunningWF (tickSync sshPort httpPort (.ok (set, ok)) (fun _ => none) fresh w).1.loop.running := by
  have hiff := tickSync_ok_get_eq_some_iff sshPort httpPort set ok fresh w hkeys hwf
  have hnd := tickSync_running_nodup sshPort httpPort set ok (fun _ => none) fresh w hwf.1
  refine ⟨?_, hnd, ?_, hnd, ?_⟩
  · intro k
    rw [← GoMap.get_isSome_iff, Option.isSome_iff_exists]
    constructor
    · rintro ⟨v, hv⟩
      exact ⟨v, ((hiff k v).mp hv).1, ((hiff k v).mp hv).2⟩
    · rintro ⟨s, hs, hE, hk⟩
      exact ⟨s, (hiff k s).mpr ⟨hs, hE, hk⟩⟩
  · intro s hs hE
    exact (hiff (svcKey s) s).mpr ⟨hs, hE, rfl⟩
  · intro e he
    have h1 := GoMap.get_eq_some_of_mem hnd (show (e.1, e.2) ∈ _ from he)
    have h2 := (hiff e.1 e.2).mp h1
    exact ⟨h2.2.2.symm, h2.2.1⟩

/-- Witness of C1: the sample world, in which a stale telnet service runs,
and the sample settings with an enabled ftp and a disabled smtp service. -/
theorem C1_running_converges_witness :
    GoMap.get (tickSync 22 80 (.ok (sampleSettings, true)) (fun _ => none) 10
        sampleWorld).1.loop.running (svcKey sampleFtp) = some sampleFtp :=
  (C1_running_converges 22 80 sampleSettings true 10 sampleWorld (by decide) (by decide)).2.2.1
    sampleFtp (by decide) rfl

/-! ## Failed starts and the next tick -/


theorem get_filter_eq_none {α : Type} {m : GoMap α} {k : String} (h : m.get k = none)
    (p : String × α → Bool) : GoMap.get (m.filter p) k = none := by
  rw [GoMap.get_eq_none_iff] at h ⊢
  intro hmem
  obtain ⟨e, he, hek⟩ := List.mem_map.mp hmem
  exact h (List.mem_map.mpr ⟨e, (List.mem_filter.mp he).1, hek⟩)

theorem tick_startLoop_mem {sshPort httpPort : Int} {set : Settings} {ok : Bool} {w : World}
    {k : String} {s : Service} (hmem : (k, s) ∈ desiredMap set.Services) (hE : s.Enabled = true)
    (hget : GoMap.get (stopLoop (desiredMap set.Services) w.loop.running w.hp).1 k = none) :
    Effect.go (Task.startGeneric s (startBanner s) k) ∈
      (tick sshPort httpPort (.ok (set, ok)) w).2 := by
  rw [tick_ok]
  simp only [List.mem_append]
  refine Or.inl (Or.inr ?_)
  rw [startLoop_eq]
  refine List.mem_map.mpr ⟨(k, s), ?_, rfl⟩
  simp only [List.mem_filter, Bool.and_eq_true, Option.isNone_iff_eq_none]
  exact ⟨hmem, hE, hget⟩

/-- After a tick, a further tick with the same fetched settings issues no stop
and no start for the SSH slot and for the HTTP slot, whatever the goroutines of
the first tick returned. -/
theorem tick_again_default_slots (sshPort httpPort : Int) (set : Settings) (ok : Bool)
    (outcome : Task → Option String) (fresh : Nat) (w : World) :
    sshCalls (tick sshPort httpPort (.ok (set, ok))
        (tickSync sshPort httpPort (.ok (set, ok)) outcome fresh w).1).2 = [] ∧
    httpCalls (tick sshPort httpPort (.ok (set, ok))
        (tickSync sshPort httpPort (.ok (set, ok)) outcome fresh w).1).2 = [] := by
  have hloop : ∀ (l : List Task) (fr : Nat) (w0 : World),
      (runTasks l outcome fr w0).1.loop.lastSSH = w0.loop.lastSSH ∧
      (runTasks l outcome fr w0).1.loop.lastSPort = w0.loop.lastSPort ∧
      (runTasks l outcome fr w0).1.loop.lastHTTP = w0.loop.lastHTTP ∧
      (runTasks l outcome fr w0).1.loop.lastHPort = w0.loop.lastHPort := by
    intro l
    induction l with
    | nil => intro fr w0; exact ⟨rfl, rfl, rfl, rfl⟩
    | cons t rest ih =>
      intro fr w0
      rw [runTasks_cons]
      simp only
      obtain ⟨h1, h2, h3, h4⟩ := ih (fr + 1) (runTask t (outcome t) fr w0).1
      rw [h1, h2, h3, h4]
      cases t with
      | startSSH p => cases outcome (Task.startSSH p) <;> exact ⟨rfl, rfl, rfl, rfl⟩
      | startHTTP p => cases outcome (Task.startHTTP p) <;> exact ⟨rfl, rfl, rfl, rfl⟩
      | startGeneric svc bnr key =>
        cases ho : outcome (Task.startGeneric svc bnr key) with
        | none => simp only [runTask, StartGenericService_ok, and_self]
        | some err => simp only [runTask, StartGenericService_fail, and_self]
  obtain ⟨h1, h2, h3, h4⟩ := hloop (spawned (tick sshPort httpPort (.ok (set, ok)) w).2) fresh
    (tick sshPort httpPort (.ok (set, ok)) w).1
  rw [tick_sshCalls, tick_httpCalls, tickSync_eq]
  simp only
  rw [h1, h2, h3, h4]
  constructor
  · cases hS : (effective sshPort httpPort set ok).curSSH <;> simp [tick_ok, hS]
  · cases hH : (effective sshPort httpPort set ok).curHTTP <;> simp [tick_ok, hH]

/-- The entry of a failed generic start is absent from the running map after
the tick. -/
theorem tickSync_failed_get (sshPort httpPort : Int) (set : Settings) (ok : Bool)
    (outcome : Task → Option String) (fresh : Nat) (w : World) (s : Service)
    (hkeys : (set.Services.map svcKey).Nodup)
    (hs : Task.startGeneric s (startBanner s) (svcKey s) ∈
      spawned (tick sshPort httpPort (.ok (set, ok)) w).2)
    (hfail : outcome (Task.startGeneric s (startBanner s) (svcKey s)) ≠ none) :
    GoMap.get (tickSync sshPort httpPort (.ok (set, ok)) outcome fresh w).1.loop.running
      (svcKey s) = none := by
  obtain ⟨hmem, _, _, hget⟩ := tick_spawned_generic hs
  have hd : (desiredMap set.Services).keys.Nodup := by rw [desiredMap_keys hkeys]; exact hkeys
  rw [tickSync_running, fold_set_get _ _ _ (keys_filter_nodup (keys_filter_nodup hd _) _), hget]
  have : GoMap.get (((desiredMap set.Services).filter (fun e => e.2.Enabled &&
      (GoMap.get (stopLoop (desiredMap set.Services) w.loop.running w.hp).1 e.1).isNone)).filter
      (fun e => (outcome (Task.startGeneric e.2 (startBanner e.2) e.1)).isNone)) (svcKey s) =
      none := by
    rw [GoMap.get_eq_none_iff]
    intro hmem2
    obtain ⟨e, he, hek⟩ := List.mem_map.mp hmem2
    simp only [List.mem_filter, Option.isNone_iff_eq_none] at he
    have h2 := GoMap.get_eq_some_of_mem hd (show (e.1, e.2) ∈ desiredMap set.Services from he.1.1)
    have h3 := GoMap.get_eq_some_of_mem hd hmem
    rw [hek, h3] at h2
    have h4 : s = e.2 := Option.some.inj h2
    apply hfail
    have h5 := he.2
    rw [← h4, hek] at h5
    exact h5
  rw [this]; rfl

/-- C2, refuted as stated: in the sample world with the sample settings the
start of the ftp service is spawned; when every start of that tick fails with
a bind error, the next tick with the same settings spawns the start of the ftp
service again. -/
theorem C2_failed_generic_start_is_retried :
    Task.startGeneric sampleFtp "220 (vsFTPd 3.0.3)\r\n" "ftp:2121" ∈
        spawned (tick 22 80 (.ok (sampleSettings, true)) sampleWorld).2 ∧
    Effect.go (Task.startGeneric sampleFtp "220 (vsFTPd 3.0.3)\r\n" "ftp:2121") ∈
        (tick 22 80 (.ok (sampleSettings, true))
          (tickSync 22 80 (.ok (sampleSettings, true))
            (fun _ => some "bind: address already in use") 10 sampleWorld).1).2 := by
  decide

/-- C2, amended: what the next tick with unchanged settings does after a failed
start.  A generic service whose start was spawned in a tick and failed is
started again by the next tick with the same fetched settings (services with
pairwise distinct keys); the SSH and the HTTP listener are not retried: the
next tick issues no stop and no start for these two slots, whatever the starts
of the first tick returned. -/
theorem C2_failed_start_next_tick (sshPort httpPort : Int) (set : Settings) (ok : Bool)
    (outcome : Task → Option String) (fresh : Nat) (w : World) (s : Service)
    (hkeys : (set.Services.map svcKey).Nodup) (hrun : w.loop.running.keys.Nodup)
    (hs : Task.startGeneric s (startBanner s) (svcKey s) ∈
      spawned (tick sshPort httpPort (.ok (set, ok)) w).2)
    (hfail : outcome (Task.startGeneric s (startBanner s) (svcKey s)) ≠ none) :
    Effect.go (Task.startGeneric s (startBanner s) (svcKey s)) ∈
        (tick sshPort httpPort (.ok (set, ok))
          (tickSync sshPort httpPort (.ok (set, ok)) outcome fresh w).1).2 ∧
    sshCalls (tick sshPort httpPort (.ok (set, ok))
        (tickSync sshPort httpPort (.ok (set, ok)) outcome fresh w).1).2 = [] ∧
    httpCalls (tick sshPort httpPort (.ok (set, ok))
        (tickSync sshPort httpPort (.ok (set, ok)) outcome fresh w).1).2 = [] := by
  refine ⟨?_, tick_again_default_slots sshPort httpPort set ok outcome fresh w⟩
  obtain ⟨hmem, hE, _, _⟩ := tick_spawned_generic hs
  apply tick_startLoop_mem hmem hE
  rw [stopLoop_running _ (tickSync_running_nodup sshPort httpPort set ok outcome fresh w hrun)]
  exact get_filter_eq_none
    (tickSync_failed_get sshPort httpPort set ok outcome fresh w s hkeys hs hfail) _

/-- Witness of the amended C2: the sample world and settings, every start
failing with a bind error. -/
theorem C2_failed_start_next_tick_witness :
    Effect.go (Task.startGeneric sampleFtp (startBanner sampleFtp) (svcKey sampleFtp)) ∈
        (tick 22 80 (.ok (sampleSettings, true))
          (tickSync 22 80 (.ok (sampleSettings, true))
            (fun _ => some "bind: address already in use") 10 sampleWorld).1).2 :=
  (C2_failed_start_next_tick 22 80 sampleSettings true
    (fun _ => some "bind: address already in use") 10 sampleWorld sampleFtp
    (by decide) (by decide) (by decide) (by decide)).1

/-- C4, the code at a failed start: the goroutine of a generic service sends
exactly one event, of type SERVICE_START_ERROR and severity High, and pushes
one status; the goroutines of the SSH and of the HTTP listener push one status
with the error and send no event at all. -/
theorem C4_start_error_events (p : Int) (svc : Service) (bnr key err : String) (fresh : Nat)
    (w : World) :
    events (runTask (Task.startGeneric svc bnr key) (some err) fresh w).2 =
      [{ EvType := "SERVICE_START_ERROR", TargetPort := svc.Port,
         Payload := [("service", svc.Kind), ("name", svc.Name), ("error", err)],
         Severity := "High" }] ∧
    statuses (runTask (Task.startGeneric svc bnr key) (some err) fresh w).2 =
      [{ Services := [{ Name := svc.Name, Kind := svc.Kind, Port := svc.Port, Enabled := true,
                        Listening := false, Error := err }] }] ∧
    events (runTask (Task.startSSH p) (some err) fresh w).2 = [] ∧
    statuses (runTask (Task.startSSH p) (some err) fresh w).2 =
      [{ SSH := { Enabled := true, Port := p, Listening := false, Error := err } }] ∧
    events (runTask (Task.startHTTP p) (some err) fresh w).2 = [] ∧
    statuses (runTask (Task.startHTTP p) (some err) fresh w).2 =
      [{ HTTP := { Enabled := true, Port := p, Listening := false, Error := err } }] := by
  refine ⟨?_, ?_, rfl, rfl, rfl, rfl⟩
  · simp only [runTask, StartGenericService_fail]
    cases hg : w.hp.svcCancels.get (svcKeyOf svc.Kind svc.Port) with
    | none => rw [StopGenericService_of_none hg]; rfl
    | some c => rw [StopGenericService_of_some hg]; rfl
  · simp only [runTask, StartGenericService_fail]
    cases hg : w.hp.svcCancels.get (svcKeyOf svc.Kind svc.Port) with
    | none => rw [StopGenericService_of_none hg]; rfl
    | some c => rw [StopGenericService_of_some hg]; rfl

/-- C5, the code at the stop of a generic service: the stop loop pushes no
status, whatever it stops; in the sample world a tick whose settings no longer
hold the running telnet service stops it, removes it from the running map and
pushes no status at all. -/
theorem C5_generic_stop_pushes_no_status (desired running : GoMap Service) (hp : Honeypot) :
    statuses (stopLoop desired running hp).2.2 = [] ∧
    genericCalls (tick 22 80 (.ok ({ sampleSettings with Services := [] }, true)) sampleWorld).2 =
      [Effect.callStopGeneric "telnet" 23] ∧
    cancelled (tick 22 80 (.ok ({ sampleSettings with Services := [] }, true)) sampleWorld).2 =
      [5] ∧
    (tick 22 80 (.ok ({ sampleSettings with Services := [] }, true)) sampleWorld).1.loop.running =
      [] ∧
    statuses (tick 22 80 (.ok ({ sampleSettings with Services := [] }, true)) sampleWorld).2 =
      [] :=
  ⟨stopLoop_statuses desired running hp, by decide, by decide, by decide, by decide⟩

/-! ## Replacement of generic listeners and SSH authentication -/

theorem handlesOf_stop {h : Honeypot} (hnd : h.svcCancels.keys.Nodup) (kind : String) (port : Int)
    {c : Nat} (hc : c ∈ handlesOf h) :
    c ∈ handlesOf (h.StopGenericService kind port).1 ∨
      c ∈ cancelled (h.StopGenericService kind port).2 := by
  obtain ⟨e, he, hec⟩ := List.mem_map.mp hc
  cases hg : h.svcCancels.get (svcKeyOf kind port) with
  | none => rw [StopGenericService_of_none hg]; exact Or.inl hc
  | some c0 =>
    rw [StopGenericService_of_some hg]
    by_cases hk : e.1 = svcKeyOf kind port
    · right
      have h1 := GoMap.get_eq_some_of_mem hnd (show (e.1, e.2) ∈ h.svcCancels from he)
      rw [hk, hg] at h1
      have : c0 = c := (Option.some.inj h1).trans hec
      simp [cancelled, this]
    · left
      exact List.mem_map.mpr ⟨e, GoMap.mem_delete.mpr ⟨he, hk⟩, hec⟩

theorem nodup_stop {h : Honeypot} (hnd : h.svcCancels.keys.Nodup) (kind : String) (port : Int) :
    (h.StopGenericService kind port).1.svcCancels.keys.Nodup := by
  cases hg : h.svcCancels.get (svcKeyOf kind port) with
  | none => rw [StopGenericService_of_none hg]; exact hnd
  | some c0 => rw [StopGenericService_of_some hg]; exact GoMap.nodup_keys_delete hnd _

theorem get_stop_self (h : Honeypot) (kind : String) (port : Int) :
    (h.StopGenericService kind port).1.svcCancels.get (svcKeyOf kind port) = none := by
  cases hg : h.svcCancels.get (svcKeyOf kind port) with
  | none => rw [StopGenericService_of_none hg]; exact hg
  | some c0 => rw [StopGenericService_of_some hg]; exact GoMap.get_delete_self _ _

theorem applyOp_nodup {h : Honeypot} (hnd : h.svcCancels.keys.Nodup) (op : HpOp) :
    (applyOp h op).1.svcCancels.keys.Nodup := by
  cases op with
  | stop kind port => exact nodup_stop hnd kind port
  | start kind name port banner bindErr newCancel =>
    cases bindErr with
    | some err => simp only [applyOp, StartGenericService_fail]; exact nodup_stop hnd kind port
    | none =>
      simp only [applyOp, StartGenericService_ok]
      exact GoMap.nodup_keys_set (nodup_stop hnd kind port) _ _

theorem applyOp_handles {h : Honeypot} (hnd : h.svcCancels.keys.Nodup) (op : HpOp) {c : Nat}
    (hc : c ∈ handlesOf h) :
    c ∈ handlesOf (applyOp h op).1 ∨ c ∈ cancelled (applyOp h op).2 := by
  cases op with
  | stop kind port => exact handlesOf_stop hnd kind port hc
  | start kind name port banner bindErr newCancel =>
    cases bindErr with
    | some err =>
      simp only [applyOp, StartGenericService_fail, cancelled_append]
      rcases handlesOf_stop hnd kind port hc with h1 | h1
      · exact Or.inl h1
      · exact Or.inr (List.mem_append_left _ h1)
    | none =>
      simp only [applyOp, StartGenericService_ok, cancelled_append]
      rcases handlesOf_stop hnd kind port hc with h1 | h1
      · left
        obtain ⟨e, he, hec⟩ := List.mem_map.mp h1
        have hk : e.1 ≠ svcKeyOf kind port := by
          intro hk
          have h2 := GoMap.get_eq_some_of_mem (nodup_stop hnd kind port)
            (show (e.1, e.2) ∈ (h.StopGenericService kind port).1.svcCancels from he)
          rw [hk, get_stop_self] at h2
          cases h2
        refine List.mem_map.mpr ⟨e, ?_, hec⟩
        exact List.mem_append_left _ (GoMap.mem_delete.mpr ⟨he, hk⟩)
      · exact Or.inr (List.mem_append_left _ h1)

theorem applyOp_registers (h : Honeypot) (kind name : String) (port : Int) (banner : String)
    (newCancel : Nat) :
    newCancel ∈ handlesOf (applyOp h (HpOp.start kind name port banner none newCancel)).1 := by
  simp only [applyOp, StartGenericService_ok, handlesOf, GoMap.set]
  exact List.mem_map.mpr ⟨(svcKeyOf kind port, newCancel), by simp, rfl⟩

theorem runOps_invariant (ops : List HpOp) :
    ∀ h : Honeypot, h.svcCancels.keys.Nodup →
      (runOps ops h).1.svcCancels.keys.Nodup ∧
      ∀ c, c ∈ handlesOf h ∨ c ∈ registeredBy ops →
        c ∈ handlesOf (runOps ops h).1 ∨ c ∈ cancelled (runOps ops h).2 := by
  induction ops with
  | nil =>
    intro h hnd
    refine ⟨hnd, ?_⟩
    intro c hc
    rcases hc with hc | hc
    · exact Or.inl hc
    · cases hc
  | cons op rest ih =>
    intro h hnd
    obtain ⟨ih1, ih2⟩ := ih (applyOp h op).1 (applyOp_nodup hnd op)
    refine ⟨ih1, ?_⟩
    intro c hc
    simp only [runOps, cancelled_append, List.mem_append]
    have step : c ∈ handlesOf (applyOp h op).1 ∨ c ∈ registeredBy rest ∨
        c ∈ cancelled (applyOp h op).2 := by
      rcases hc with hc | hc
      · rcases applyOp_handles hnd op hc with h1 | h1
        · exact Or.inl h1
        · exact Or.inr (Or.inr h1)
      · cases op with
        | stop kind port => exact Or.inr (Or.inl (by simpa [registeredBy] using hc))
        | start kind name port banner bindErr newCancel =>
          cases bindErr with
          | some err => exact Or.inr (Or.inl (by simpa [registeredBy] using hc))
          | none =>
            simp only [registeredBy, List.filterMap_cons, List.mem_cons] at hc
            rcases hc with hc | hc
            · rw [hc]; exact Or.inl (applyOp_registers h kind name port banner newCancel)
            · exact Or.inr (Or.inl hc)
    rcases step with h1 | h1 | h1
    · rcases ih2 c (Or.inl h1) with h2 | h2
      · exact Or.inl h2
      · exact Or.inr (Or.inr h2)
    · rcases ih2 c (Or.inr h1) with h2 | h2
      · exact Or.inl h2
      · exact Or.inr (Or.inr h2)
    · exact Or.inr (Or.inl h1)

/-- C11: replacement of a generic listener is stop-then-start.  A call of
`StartGenericService` for a key with a registered cancel function invokes that
function and removes the entry before the bind is attempted, whatever the bind
returns: afterwards the key holds the new cancel function when the bind
succeeded and no entry when it failed.  Across every sequence of
`StartGenericService` and `StopGenericService` calls, from a map with one entry
per key, the map keeps one entry per key, and every cancel function that was
in the map at the start or was registered by a call of the sequence is still
in the map or has been invoked. -/
theorem C11_stop_then_start (h : Honeypot) (kind name : String) (port : Int) (banner : String)
    (bindErr : Option String) (newCancel : Nat) (ops : List HpOp)
    (hnd : h.svcCancels.keys.Nodup) :
    (∀ c, h.svcCancels.get (svcKeyOf kind port) = some c →
      ∃ rest, (h.StartGenericService kind name port banner bindErr newCancel).2.1 =
        Effect.cancel c :: Effect.listen port :: rest) ∧
    (h.StartGenericService kind name port banner bindErr newCancel).1.svcCancels.get
        (svcKeyOf kind port) =
      (if bindErr = none then some newCancel else none) ∧
    (runOps ops h).1.svcCancels.keys.Nodup ∧
    (∀ c, c ∈ handlesOf h ∨ c ∈ registeredBy ops →
      c ∈ handlesOf (runOps ops h).1 ∨ c ∈ cancelled (runOps ops h).2) := by
  refine ⟨?_, ?_, (runOps_invariant ops h hnd).1, (runOps_invariant ops h hnd).2⟩
  · intro c hc
    cases bindErr with
    | some err =>
      rw [StartGenericService_fail, StopGenericService_of_some hc]
      exact ⟨[], rfl⟩
    | none =>
      rw [StartGenericService_ok, StopGenericService_of_some hc]
      exact ⟨[Effect.serve kind name port banner], rfl⟩
  · cases bindErr with
    | some err =>
      rw [StartGenericService_fail]
      simpa using get_stop_self h kind port
    | none =>
      rw [StartGenericService_ok]
      simpa using GoMap.get_set_self _ _ _

/-- Witness of C11: the ftp service on port 2121 is registered under the cancel
function 7 and is started again, the telnet service is stopped. -/
theorem C11_stop_then_start_witness :
    7 ∈ cancelled (runOps [HpOp.start "ftp" "files" 2121 "" none 9, HpOp.stop "telnet" 23]
      { sshSrv := none, httpSrv := none, svcCancels := [("ftp:2121", 7), ("telnet:23", 8)] }).2 :=
  ((C11_stop_then_start
      { sshSrv := none, httpSrv := none, svcCancels := [("ftp:2121", 7), ("telnet:23", 8)] }
      "ftp" "files" 2121 "" none 9 [HpOp.start "ftp" "files" 2121 "" none 9, HpOp.stop "telnet" 23]
      (by decide)).2.2.2 7 (Or.inl (by decide))).resolve_left (by decide)

/-- C12: SSH authentication never rejects.  The password, the public-key and
the keyboard-interactive handler each return accepted for every user name,
password, key type and remote address, and each sends exactly one event with
the port of the listener as target port: SSH_LOGIN_ATTEMPT with the user name
and the password at severity Medium, SSH_PUBKEY_ATTEMPT with the user name and
the key type at severity Low, SSH_KBDINT_ATTEMPT with the user name at severity
Low. -/
theorem C12_ssh_auth_never_rejects (port : Int) (remote user password keyType : String) :
    (PasswordHandler port remote user password).1 = true ∧
    (PasswordHandler port remote user password).2 =
      [{ AttackerIP := parseIP remote, TargetPort := port, EvType := "SSH_LOGIN_ATTEMPT",
         Payload := [("username", user), ("password", password)], Severity := "Medium" }] ∧
    (PublicKeyHandler port remote user keyType).1 = true ∧
    (PublicKeyHandler port remote user keyType).2 =
      [{ AttackerIP := parseIP remote, TargetPort := port, EvType := "SSH_PUBKEY_ATTEMPT",
         Payload := [("username", user), ("keyType", keyType)], Severity := "Low" }] ∧
    (KeyboardInteractiveHandler port remote user).1 = true ∧
    (KeyboardInteractiveHandler port remote user).2 =
      [{ AttackerIP := parseIP remote, TargetPort := port, EvType := "SSH_KBDINT_ATTEMPT",
         Payload := [("username", user)], Severity := "Low" }] :=
  ⟨rfl, rfl, rfl, rfl, rfl, rfl⟩

/-! ## The fake shell: dispatch of a line -/

theorem ite_keeps (st : Session) (c : Prop) [Decidable c] (a b : Session × List String)
    (ha : a.1.history = st.history ∧ a.1.buf = st.buf ∧ a.1.user = st.user)
    (hb : b.1.history = st.history ∧ b.1.buf = st.buf ∧ b.1.user = st.user) :
    (if c then a else b).1.history = st.history ∧ (if c then a else b).1.buf = st.buf ∧
      (if c then a else b).1.user = st.user := by
  split <;> assumption

/-- The command shim changes neither the history nor the line buffer nor the
user name. -/
theorem respond_keeps (st : Session) (cmd : String) :
    (respond st cmd).1.history = st.history ∧ (respond st cmd).1.buf = st.buf ∧
      (respond st cmd).1.user = st.user := by
  unfold respond
  repeat (first | exact ⟨rfl, rfl, rfl⟩ | apply ite_keeps)

theorem respond_history (st : Session) (cmd : String) :
    (respond st cmd).1.history = st.history := (respond_keeps st cmd).1

theorem respond_buf (st : Session) (cmd : String) : (respond st cmd).1.buf = st.buf :=
  (respond_keeps st cmd).2.1

theorem execLine_buf (port : Int) (remote : String) (st : Session) (cmd : String) :
    (execLine port remote st cmd).1.buf = st.buf := by
  unfold execLine
  split_ifs
  · rfl
  · rfl
  · exact respond_buf _ _
  · rfl

theorem eventsOf_map_write (l : List String) : eventsOf (l.map Out.write) = [] := by
  induction l with
  | nil => rfl
  | cons a rest ih => simp [eventsOf]

theorem writesOf_map_write (l : List String) : writesOf (l.map Out.write) = l := by
  induction l with
  | nil => rfl
  | cons a rest ih =>
    have : writesOf (List.map Out.write (a :: rest)) = a :: writesOf (List.map Out.write rest) := rfl
    rw [this, ih]

theorem execLine_of_command (port : Int) (remote : String) (st : Session) {cmd : String}
    (h1 : cmd ≠ "exit") (h2 : cmd ≠ "logout") (h3 : cmd ≠ "help") (h4 : cmd ≠ "") :
    execLine port remote st cmd =
      ((respond { st with history := st.history ++ [cmd] } cmd).1,
       Out.event { AttackerIP := parseIP remote, TargetPort := port, EvType := "SSH_COMMAND",
                   Payload := [("command", cmd)], Severity := "Low" } ::
         ((respond { st with history := st.history ++ [cmd] } cmd).2.map Out.write ++
           [Out.write (promptText (respond { st with history := st.history ++ [cmd] } cmd).1.cwd)]),
       false) := by
  unfold execLine
  simp [h1, h2, h3, h4]

theorem getLast?_cons_append_singleton {α : Type} (a : α) (l : List α) (x : α) :
    (a :: (l ++ [x])).getLast? = some x := by
  rw [← List.cons_append, List.getLast?_append]; rfl

theorem respond_cd (st : Session) (A : String) :
    respond st ("cd " ++ A) =
      ({ st with cwd := cdTarget st.user st.cwd (TrimSpace A) }, []) := by
  unfold respond
  simp [HasPrefix, List.isPrefixOf, TrimPrefix, String.ext_iff]

/-- C13, refuted as stated: a session of the user bob in which `help`, then
`pwd`, then `exit` is typed sends one event only, for `pwd`, and `help` and
`exit` are not in the history that `history` would print. -/
theorem C13_help_and_exit_are_not_logged :
    eventsOf (sshHandler 22 "203.0.113.9:50000" "bob" "help\npwd\nexit\n".data).2.1 =
      [{ AttackerIP := "203.0.113.9", TargetPort := 22, EvType := "SSH_COMMAND",
         Payload := [("command", "pwd")], Severity := "Low" }] ∧
    (sshHandler 22 "203.0.113.9:50000" "bob" "help\npwd\nexit\n".data).1.history = ["pwd"] ∧
    (sshHandler 22 "203.0.113.9:50000" "bob" "help\npwd\nexit\n".data).2.2 = true := by
  decide

/-- C13, amended: for every dispatched line that is not empty and is not
`help`, `exit` or `logout` (every other line of the command vocabulary and
every unmatched line), the line is appended to the session history and exactly
one event is sent, of type SSH_COMMAND and severity Low with the command text
as payload and the listener port as target, before anything is written for
the line; for `help`, `exit` and `logout` the history is left as it is and no
event is sent. -/
theorem C13_command_is_logged (port : Int) (remote : String) (st : Session) (cmd : String) :
    (cmd ≠ "" → cmd ≠ "help" → cmd ≠ "exit" → cmd ≠ "logout" →
      (execLine port remote st cmd).1.history = st.history ++ [cmd] ∧
      eventsOf (execLine port remote st cmd).2.1 =
        [{ AttackerIP := parseIP remote, TargetPort := port, EvType := "SSH_COMMAND",
           Payload := [("command", cmd)], Severity := "Low" }] ∧
      (execLine port remote st cmd).2.1.head? =
        some (Out.event { AttackerIP := parseIP remote, TargetPort := port,
                          EvType := "SSH_COMMAND", Payload := [("command", cmd)],
                          Severity := "Low" })) ∧
    (cmd = "help" ∨ cmd = "exit" ∨ cmd = "logout" →
      (execLine port remote st cmd).1.history = st.history ∧
      eventsOf (execLine port remote st cmd).2.1 = []) := by
  constructor
  · intro h4 h3 h1 h2
    rw [execLine_of_command port remote st h1 h2 h3 h4]
    refine ⟨respond_history _ _, ?_, rfl⟩
    simp only [eventsOf, List.filterMap_cons, List.filterMap_append]
    have := eventsOf_map_write (respond { st with history := st.history ++ [cmd] } cmd).2
    simp only [eventsOf] at this
    rw [this]; rfl
  · rintro (h | h | h) <;> subst h <;> exact ⟨rfl, rfl⟩

/-- Witness of the amended C13: the unmatched line `frobnicate` in a new
session of the user bob. -/
theorem C13_command_is_logged_witness :
    (execLine 22 "203.0.113.9:50000" (newSession "bob") "frobnicate").1.history = ["frobnicate"] :=
  ((C13_command_is_logged 22 "203.0.113.9:50000" (newSession "bob") "frobnicate").1
    (by decide) (by decide) (by decide) (by decide)).1

/-- C18: the prompt is rendered again after every command.  For every session
state and every dispatched line other than `exit` and `logout` the handler
goes on and the last thing written for the line is the prompt, CR LF, the
working directory after the command, a dollar sign and a space; for `exit` and
`logout` the only thing written is the logout line and the handler returns.
After `cd /etc` the prompt shows /etc. -/
theorem C18_prompt_after_every_command (port : Int) (remote : String) (st : Session)
    (cmd : String) :
    (cmd ≠ "exit" → cmd ≠ "logout" →
      (execLine port remote st cmd).2.2 = false ∧
      (execLine port remote st cmd).2.1.getLast? =
        some (Out.write ("\r\n" ++ (execLine port remote st cmd).1.cwd ++ "$ "))) ∧
    (cmd = "exit" ∨ cmd = "logout" →
      (execLine port remote st cmd).2.2 = true ∧
      (execLine port remote st cmd).2.1 = [Out.write "\r\nlogout\r\n"]) ∧
    (execLine port remote st "cd /etc").2.1.getLast? = some (Out.write "\r\n/etc$ ") := by
  refine ⟨?_, ?_, ?_⟩
  · intro h1 h2
    by_cases h3 : cmd = "help"
    · subst h3; exact ⟨rfl, rfl⟩
    · by_cases h4 : cmd = ""
      · subst h4; exact ⟨rfl, rfl⟩
      · rw [execLine_of_command port remote st h1 h2 h3 h4]
        exact ⟨rfl, getLast?_cons_append_singleton _ _ _⟩
  · rintro (h | h) <;> subst h <;> exact ⟨rfl, rfl⟩
  · rw [execLine_of_command port remote st (by decide) (by decide) (by decide) (by decide)]
    rw [getLast?_cons_append_singleton]
    have h1 : ("cd /etc" : String) = "cd " ++ "/etc" := by decide
    have h2 : TrimSpace "/etc" = "/etc" := by decide
    rw [h1, respond_cd, h2]
    rfl

/-- Witness of C18: `pwd` and `exit` in a new session of the user bob. -/
theorem C18_prompt_after_every_command_witness :
    (execLine 22 "203.0.113.9:50000" (newSession "bob") "pwd").2.1.getLast? =
        some (Out.write "\r\n/home/bob$ ") ∧
    (execLine 22 "203.0.113.9:50000" (newSession "bob") "exit").2.2 = true :=
  ⟨((C18_prompt_after_every_command 22 "203.0.113.9:50000" (newSession "bob") "pwd").1
      (by decide) (by decide)).2,
   ((C18_prompt_after_every_command 22 "203.0.113.9:50000" (newSession "bob") "exit").2.1
      (Or.inl rfl)).1⟩

/-! ## The line editor of the SSH session -/

theorem sshStep_printable (port : Int) (remote : String) (st : Session) (ch : Char)
    (h : Printable st.buf) : Printable (sshStep port remote st ch).1.buf := by
  unfold sshStep
  split_ifs with h1 h2 h3 h4 h5
  · exact h
  · rw [execLine_buf]; intro c hc; cases hc
  · exact fun c hc => h c (List.dropLast_subset _ hc)
  · exact h
  · intro c hc
    rcases List.mem_append.mp hc with hc | hc
    · exact h c hc
    · rw [List.mem_singleton.mp hc]; exact h5
  · exact h

theorem sshLoop_printable (port : Int) (remote : String) (input : List Char) :
    ∀ st : Session, Printable st.buf → Printable (sshLoop port remote st input).1.buf := by
  induction input with
  | nil => intro st h; exact h
  | cons ch rest ih =>
    intro st h
    unfold sshLoop
    simp only
    split_ifs
    · exact sshStep_printable port remote st ch h
    · exact ih _ (sshStep_printable port remote st ch h)

/-- C19: the line editor of the SSH session.  The line buffer holds printable
ASCII only, at the start, after every byte and so at every point of every
input; a printable byte is appended and echoed as that one byte; a carriage
return and every other byte that is neither printable nor LF, BS or DEL
changes nothing and writes nothing; BS and DEL drop the last buffered
character and write backspace, space, backspace when the buffer is not empty,
and do nothing when it is empty; LF dispatches the trimmed buffer and leaves
the buffer empty. -/
theorem C19_line_editor (port : Int) (remote user : String) (st : Session) (ch : Char)
    (input : List Char) :
    Printable (sshHandler port remote user input).1.buf ∧
    (Printable st.buf → Printable (sshStep port remote st ch).1.buf) ∧
    (0x20 ≤ ch.toNat ∧ ch.toNat ≤ 0x7e →
      sshStep port remote st ch =
        ({ st with buf := st.buf ++ [ch] }, [Out.write (String.singleton ch)], false)) ∧
    (ch ≠ '\n' → ch.toNat ≠ 0x08 → ch.toNat ≠ 0x7f → ¬(0x20 ≤ ch.toNat ∧ ch.toNat ≤ 0x7e) →
      sshStep port remote st ch = (st, [], false)) ∧
    sshStep port remote st '\r' = (st, [], false) ∧
    (ch.toNat = 0x08 ∨ ch.toNat = 0x7f → st.buf ≠ [] →
      sshStep port remote st ch =
        ({ st with buf := st.buf.dropLast }, [Out.write "\x08 \x08"], false)) ∧
    (ch.toNat = 0x08 ∨ ch.toNat = 0x7f → st.buf = [] →
      sshStep port remote st ch = (st, [], false)) ∧
    sshStep port remote st '\n' =
      execLine port remote { st with buf := [] } (TrimSpace (String.mk st.buf)) ∧
    (sshStep port remote st '\n').1.buf = [] := by
  refine ⟨?_, sshStep_printable port remote st ch, ?_, ?_, rfl, ?_, ?_, rfl, ?_⟩
  · exact sshLoop_printable port remote input (newSession user) (fun c hc => by cases hc)
  · intro h
    have h1 : ch ≠ '\r' := by rintro rfl; revert h; decide
    have h2 : ch ≠ '\n' := by rintro rfl; revert h; decide
    have h3 : ¬(ch.toNat = 0x7f ∨ ch.toNat = 0x08) := by omega
    unfold sshStep
    rw [if_neg h1, if_neg h2, if_neg h3, if_pos h]
  · intro h2 h3 h4 h5
    have h6 : ¬(ch.toNat = 0x7f ∨ ch.toNat = 0x08) := by omega
    unfold sshStep
    split_ifs <;> rfl
  · intro h hb
    have h1 : ch ≠ '\r' := by rintro rfl; revert h; decide
    have h2 : ch ≠ '\n' := by rintro rfl; revert h; decide
    have h3 : ch.toNat = 0x7f ∨ ch.toNat = 0x08 := h.symm
    have h4 : st.buf.length > 0 := List.length_pos.mpr hb
    unfold sshStep
    rw [if_neg h1, if_neg h2, if_pos h3, if_pos h4]
  · intro h hb
    have h1 : ch ≠ '\r' := by rintro rfl; revert h; decide
    have h2 : ch ≠ '\n' := by rintro rfl; revert h; decide
    have h3 : ch.toNat = 0x7f ∨ ch.toNat = 0x08 := h.symm
    have h4 : ¬ st.buf.length > 0 := by rw [hb]; decide
    unfold sshStep
    rw [if_neg h1, if_neg h2, if_pos h3, if_neg h4]
  · show (execLine port remote { st with buf := [] } (TrimSpace (String.mk st.buf))).1.buf = []
    rw [execLine_buf]

/-- Witness of C19: the byte `a`, a NUL byte and a backspace on the buffer
`ls`. -/
theorem C19_line_editor_witness :
    sshStep 22 "203.0.113.9:50000" { newSession "bob" with buf := ['l', 's'] } 'a' =
        ({ newSession "bob" with buf := ['l', 's', 'a'] }, [Out.write "a"], false) ∧
    sshStep 22 "203.0.113.9:50000" { newSession "bob" with buf := ['l', 's'] } (Char.ofNat 0) =
        ({ newSession "bob" with buf := ['l', 's'] }, [], false) ∧
    sshStep 22 "203.0.113.9:50000" { newSession "bob" with buf := ['l', 's'] } (Char.ofNat 8) =
        ({ newSession "bob" with buf := ['l'] }, [Out.write "\x08 \x08"], false) :=
  ⟨(C19_line_editor 22 "203.0.113.9:50000" "bob" { newSession "bob" with buf := ['l', 's'] } 'a'
      []).2.2.1 (by decide),
   (C19_line_editor 22 "203.0.113.9:50000" "bob" { newSession "bob" with buf := ['l', 's'] }
      (Char.ofNat 0) []).2.2.2.1 (by decide) (by decide) (by decide) (by decide),
   (C19_line_editor 22 "203.0.113.9:50000" "bob" { newSession "bob" with buf := ['l', 's'] }
      (Char.ofNat 8) []).2.2.2.2.2.1 (Or.inl (by decide)) (by decide)⟩

/-! ## The line buffer of a generic connection -/

theorem trimLeftSpace_length_le : ∀ (fuel : Nat) (l : List Char),
    (trimLeftSpace fuel l).length ≤ l.length
  | 0, l => le_refl _
  | fuel + 1, l => by
    unfold trimLeftSpace
    split
    · exact le_refl _
    · exact le_trans (trimLeftSpace_length_le fuel _) (by simp)

theorem trimRightSpace_length_le : ∀ (fuel : Nat) (l : List Char),
    (trimRightSpace fuel l).length ≤ l.length
  | 0, l => le_refl _
  | fuel + 1, l => by
    unfold trimRightSpace
    split
    · exact le_refl _
    · exact le_trans (trimRightSpace_length_le fuel _) (by simp)

/-- A trimmed string is not longer than the string. -/
theorem TrimSpace_length_le (s : String) : (TrimSpace s).length ≤ s.length :=
  le_trans (trimRightSpace_length_le _ _) (trimLeftSpace_length_le _ _)

theorem connStep_length_le (kind name : String) (port : Int) (remote : String)
    (buf : List Char) (b : Char) (h : buf.length ≤ 1024) :
    (connStep kind name port remote buf b).1.length ≤ 1024 := by
  unfold connStep
  split_ifs
  · exact h
  · simp
  · simp only [List.length_dropLast]; omega
  · exact h
  · simp only [List.length_append, List.length_singleton]; omega
  · exact h

theorem connBufs_length_le (kind name : String) (port : Int) (remote : String)
    (input : List Char) :
    ∀ buf : List Char, buf.length ≤ 1024 →
      ∀ b ∈ connBufs kind name port remote buf input, b.length ≤ 1024 := by
  induction input with
  | nil =>
    intro buf h b hb
    simp only [connBufs, List.mem_singleton] at hb
    rw [hb]; exact h
  | cons c rest ih =>
    intro buf h b hb
    simp only [connBufs, List.mem_cons] at hb
    rcases hb with hb | hb
    · rw [hb]; exact h
    · exact ih _ (connStep_length_le kind name port remote buf c h) b hb

/-- Everything the read loop does is done at a line feed, on a line buffer of
at most 1024 bytes. -/
theorem connLoop_steps (kind name : String) (port : Int) (remote : String)
    (input : List Char) :
    ∀ buf : List Char, buf.length ≤ 1024 →
      ∀ o ∈ (connLoop kind name port remote buf input).2,
        ∃ b : List Char, b.length ≤ 1024 ∧ o ∈ connLine kind name port remote b := by
  induction input with
  | nil => intro buf _ o ho; cases ho
  | cons c rest ih =>
    intro buf h o ho
    simp only [connLoop, List.mem_append] at ho
    rcases ho with ho | ho
    · unfold connStep at ho
      split_ifs at ho
      · cases ho
      · exact ⟨buf, h, ho⟩
      · cases ho
      · cases ho
      · cases ho
      · cases ho
    · exact ih _ (connStep_length_le kind name port remote buf c h) o ho

theorem connLine_cases (kind name : String) (port : Int) (remote : String) (b : List Char)
    (o : Out) (ho : o ∈ connLine kind name port remote b) :
    o = Out.event { AttackerIP := parseIP remote, TargetPort := port,
                    EvType := "SERVICE_COMMAND",
                    Payload := [("service", kind), ("name", name),
                                ("command", TrimSpace (String.mk b))],
                    Severity := "Low" } ∨
    o = Out.write (replyFor kind (TrimSpace (String.mk b))) ∨ o = Out.write "\r\n" := by
  unfold connLine at ho
  split_ifs at ho
  · simp only [List.mem_cons, List.mem_singleton, List.not_mem_nil, or_false] at ho
    rcases ho with ho | ho
    · exact Or.inl ho
    · exact Or.inr (Or.inl ho)
  · simp only [List.mem_singleton] at ho
    exact Or.inr (Or.inr ho)

theorem mem_eventsOf {o : List Out} {ev : Event} (h : ev ∈ eventsOf o) : Out.event ev ∈ o := by
  simp only [eventsOf, List.mem_filterMap] at h
  obtain ⟨x, hx, hxe⟩ := h
  cases x with
  | write t => cases hxe
  | event e => simp only [Option.some.injEq] at hxe; rw [← hxe]; exact hx

theorem mem_writesOf {o : List Out} {t : String} (h : t ∈ writesOf o) : Out.write t ∈ o := by
  simp only [writesOf, List.mem_filterMap] at h
  obtain ⟨x, hx, hxe⟩ := h
  cases x with
  | write s => simp only [Option.some.injEq] at hxe; rw [← hxe]; exact hx
  | event e => cases hxe

/-- C20: the line buffer of a generic connection is bounded.  On every input,
of any length, every line buffer the read loop goes through holds at most 1024
bytes; a byte other than CR, LF, BS and DEL that arrives at a buffer of 1024
bytes is dropped: the buffer stays as it is and nothing is done; a line feed
handles the trimmed buffer, so the command of every SERVICE_COMMAND event of
the connection has at most 1024 bytes, and every reply of a telnet service is
an echoed line of at most 1024 bytes followed by CR LF (or the bare CR LF of
an empty line). -/
theorem C20_generic_buffer_bounded (kind name : String) (port : Int) (banner remote : String)
    (input buf : List Char) (b : Char) :
    (∀ x ∈ connBufs kind name port remote [] input, x.length ≤ 1024) ∧
    (buf.length = 1024 → b ≠ '\r' → b ≠ '\n' → b.toNat ≠ 0x7f → b.toNat ≠ 0x08 →
      connStep kind name port remote buf b = (buf, [])) ∧
    connStep kind name port remote buf '\n' = ([], connLine kind name port remote buf) ∧
    (∀ ev ∈ eventsOf (handleConn kind name port banner remote input),
      ev.EvType = "SERVICE_COMMAND" →
        ∃ line : String, ev.Payload = [("service", kind), ("name", name), ("command", line)] ∧
          line.length ≤ 1024) ∧
    (∀ t ∈ writesOf (connLoop "telnet" name port remote [] input).2,
      t = "\r\n" ∨ ∃ line : String, t = line ++ "\r\n" ∧ line.length ≤ 1024) := by
  refine ⟨connBufs_length_le kind name port remote input [] (by simp), ?_, rfl, ?_, ?_⟩
  · intro h1 h2 h3 h4 h5
    have h6 : ¬(b.toNat = 0x7f ∨ b.toNat = 0x08) := by omega
    have h7 : ¬ buf.length < 1024 := by omega
    unfold connStep
    rw [if_neg h2, if_neg h3, if_neg h6, if_neg h7]
  · intro ev hev hty
    have hmem := mem_eventsOf hev
    simp only [handleConn, connAccept, List.map_cons, List.map_nil, List.mem_append,
      List.mem_singleton] at hmem
    rcases hmem with (hmem | hmem) | hmem
    · simp only [Out.event.injEq] at hmem
      rw [hmem] at hty
      exact absurd (show ("SERVICE_CONNECT" : String) = "SERVICE_COMMAND" from hty) (by decide)
    · split_ifs at hmem
      · simp at hmem
      · cases hmem
    · obtain ⟨x, hx, hox⟩ := connLoop_steps kind name port remote input [] (by simp) _ hmem
      rcases connLine_cases kind name port remote x _ hox with h1 | h1 | h1
      · simp only [Out.event.injEq] at h1
        refine ⟨TrimSpace (String.mk x), by rw [h1], ?_⟩
        exact le_trans (TrimSpace_length_le _) hx
      · cases h1
      · cases h1
  · intro t ht
    have hmem := mem_writesOf ht
    obtain ⟨x, hx, hox⟩ := connLoop_steps "telnet" name port remote input [] (by simp) _ hmem
    rcases connLine_cases "telnet" name port remote x _ hox with h1 | h1 | h1
    · cases h1
    · simp only [Out.write.injEq] at h1
      right
      refine ⟨TrimSpace (String.mk x), by rw [h1]; rfl, ?_⟩
      exact le_trans (TrimSpace_length_le _) hx
    · simp only [Out.write.injEq] at h1
      exact Or.inl h1

/-- Witness of C20: a buffer of 1024 bytes `a` at which the byte `b` arrives,
and a telnet connection that receives 1030 bytes `a` and a line feed. -/
theorem C20_generic_buffer_bounded_witness :
    connStep "telnet" "t" 23 "203.0.113.9:50000" (List.replicate 1024 'a') 'b' =
      (List.replicate 1024 'a', []) :=
  (C20_generic_buffer_bounded "telnet" "t" 23 "" "203.0.113.9:50000" [] (List.replicate 1024 'a')
    'b').2.1 (List.length_replicate 1024 'a') (by decide) (by decide) (by decide) (by decide)

/-! ## Lemmas on the Go `strings` functions -/

theorem isPrefixOf_append_self (p t : List Char) : p.isPrefixOf (p ++ t) = true := by
  induction p with
  | nil => simp [List.isPrefixOf]
  | cons a rest ih => simp [List.isPrefixOf, ih]

theorem eq_append_of_isPrefixOf : ∀ (p l : List Char), p.isPrefixOf l = true →
    l = p ++ l.drop p.length
  | [], l, _ => rfl
  | a :: rest, [], h => by simp [List.isPrefixOf] at h
  | a :: rest, b :: l, h => by
    simp only [List.isPrefixOf, Bool.and_eq_true, beq_iff_eq] at h
    rw [h.1]
    simp only [List.cons_append, List.length_cons, List.drop_succ_cons, List.cons.injEq, true_and]
    exact eq_append_of_isPrefixOf rest l h.2

/-- A string with the start `p` is `p` followed by what `TrimPrefix` leaves. -/
theorem eq_append_TrimPrefix {s p : String} (h : HasPrefix s p = true) :
    s = p ++ TrimPrefix s p := by
  apply String.ext
  simp only [TrimPrefix, h, if_true, String.data_append]
  exact eq_append_of_isPrefixOf p.data s.data h

theorem HasPrefix_append (p t : String) : HasPrefix (p ++ t) p = true := by
  simp only [HasPrefix, String.data_append]
  exact isPrefixOf_append_self _ _

theorem TrimPrefix_append (p t : String) : TrimPrefix (p ++ t) p = t := by
  simp only [TrimPrefix, HasPrefix_append, if_true]
  apply String.ext
  simp [String.data_append]

theorem containsList_of_append (sub : List Char) :
    ∀ a b : List Char, containsList sub (a ++ sub ++ b) = true := by
  intro a b
  induction a with
  | nil =>
    simp only [List.nil_append]
    cases h : sub ++ b with
    | nil =>
      have : sub = [] := by
        cases sub with
        | nil => rfl
        | cons x xs => simp at h
      simp [containsList, this]
    | cons c rest =>
      simp only [containsList, Bool.or_eq_true]
      left
      rw [← h]; exact isPrefixOf_append_self _ _
  | cons c rest ih =>
    simp only [List.cons_append, containsList, Bool.or_eq_true]
    right
    simpa using ih

theorem append_of_containsList (sub : List Char) :
    ∀ l : List Char, containsList sub l = true → ∃ a b, l = a ++ sub ++ b := by
  intro l
  induction l with
  | nil =>
    intro h
    simp only [containsList, List.isEmpty_iff] at h
    exact ⟨[], [], by simp [h]⟩
  | cons c rest ih =>
    intro h
    simp only [containsList, Bool.or_eq_true] at h
    rcases h with h | h
    · exact ⟨[], (c :: rest).drop sub.length, by simpa using eq_append_of_isPrefixOf _ _ h⟩
    · obtain ⟨a, b, hab⟩ := ih h
      exact ⟨c :: a, b, by simp [hab]⟩

/-- `Contains` holds exactly for the strings that have `sub` between two other
texts. -/
theorem Contains_iff (s sub : String) :
    Contains s sub = true ↔ ∃ a b : String, s = a ++ sub ++ b := by
  constructor
  · intro h
    obtain ⟨a, b, hab⟩ := append_of_containsList sub.data s.data h
    exact ⟨String.mk a, String.mk b, String.ext (by simp [String.data_append, hab])⟩
  · rintro ⟨a, b, rfl⟩
    simp only [Contains, String.data_append]
    exact containsList_of_append _ _ _

theorem Contains_single_eq_false {s : String} {c : Char} (h : c ∉ s.data) :
    Contains s (String.singleton c) = false := by
  rw [Bool.eq_false_iff]
  intro hc
  obtain ⟨a, b, hab⟩ := (Contains_iff _ _).mp hc
  apply h
  rw [hab]
  simp [String.data_append, String.singleton]

theorem takeWhile_append_cons {p : Char → Bool} (l r : List Char) (a : Char)
    (hl : ∀ x ∈ l, p x = true) (ha : p a = false) :
    (l ++ a :: r).takeWhile p = l := by
  induction l with
  | nil => simp [List.takeWhile, ha]
  | cons x rest ih =>
    have hx := hl x (List.mem_cons_self _ _)
    simp only [List.cons_append, List.takeWhile_cons, hx, if_true, List.cons.injEq, true_and]
    exact ih (fun y hy => hl y (List.mem_cons_of_mem _ hy))

theorem dropWhile_append_cons {p : Char → Bool} (l r : List Char) (a : Char)
    (hl : ∀ x ∈ l, p x = true) (ha : p a = false) :
    (l ++ a :: r).dropWhile p = a :: r := by
  induction l with
  | nil => simp [List.dropWhile, ha]
  | cons x rest ih =>
    have hx := hl x (List.mem_cons_self _ _)
    simp only [List.cons_append, List.dropWhile_cons, hx, if_true]
    exact ih (fun y hy => hl y (List.mem_cons_of_mem _ hy))

/-- The two parts of a text around the first occurrence of the separator. -/
theorem SplitN2_append (a b : String) (sep : Char) (h : sep ∉ a.data) :
    SplitN2 (a ++ String.singleton sep ++ b) sep = (a, some b) := by
  have hdata : (a ++ String.singleton sep ++ b).data = a.data ++ sep :: b.data := by
    simp [String.data_append, String.singleton]
  have hp : ∀ x ∈ a.data, (fun c => c != sep) x = true := by
    intro x hx
    simp only [bne_iff_ne, ne_eq]
    rintro rfl; exact h hx
  have hs : (fun c => c != sep) sep = false := by simp
  simp only [SplitN2, hdata]
  rw [takeWhile_append_cons _ _ _ hp hs, dropWhile_append_cons _ _ _ hp hs]
  simp

/-- The last index of the separator in a text that ends with a part free of
it. -/
theorem LastIndex_append (a b : String) (sep : Char) (h : sep ∉ b.data) :
    LastIndex (a ++ String.singleton sep ++ b) sep = a.data.length := by
  have hdata : (a ++ String.singleton sep ++ b).data = a.data ++ sep :: b.data := by
    simp [String.data_append, String.singleton]
  have hp : ∀ x ∈ b.data.reverse, (fun c => c != sep) x = true := by
    intro x hx
    simp only [bne_iff_ne, ne_eq]
    rintro rfl; exact h (List.mem_reverse.mp hx)
  have hs : (fun c => c != sep) sep = false := by simp
  have hrev : (a.data ++ sep :: b.data).reverse = b.data.reverse ++ sep :: a.data.reverse := by
    simp
  simp only [LastIndex, hdata, hrev]
  rw [takeWhile_append_cons _ _ _ hp hs]
  simp
  omega

/-! ## `TrimSpace` on printable ASCII -/

theorem spaceWidth_cons_space (c : Char) (rest : List Char)
    (h : c.toNat ∈ [9, 10, 11, 12, 13, 32]) : spaceWidth (c :: rest) = 1 := by
  simp only [List.mem_cons, List.mem_singleton, List.not_mem_nil, or_false] at h
  rcases h with h | h | h | h | h | h <;>
    simp [spaceWidth, spaceEncodings, List.find?_cons, List.isPrefixOf, h]

theorem spaceWidth_cons_other (c : Char) (rest : List Char) (h : c.toNat < 128)
    (h2 : c.toNat ∉ [9, 10, 11, 12, 13, 32]) : spaceWidth (c :: rest) = 0 := by
  simp only [List.mem_cons, List.mem_singleton, List.not_mem_nil, or_false, not_or] at h2
  have hnone : spaceEncodings.find? (fun e => e.isPrefixOf ((c :: rest).map Char.toNat)) = none := by
    rw [List.find?_eq_none]
    intro e he
    simp only [spaceEncodings, List.mem_cons, List.mem_singleton, List.not_mem_nil, or_false] at he
    rcases he with rfl | rfl | rfl | rfl | rfl | rfl | rfl | rfl | rfl | rfl | rfl | rfl | rfl |
      rfl | rfl | rfl | rfl | rfl | rfl | rfl | rfl | rfl | rfl | rfl | rfl <;>
      simp [List.isPrefixOf] <;> omega
  simp only [spaceWidth, hnone]

theorem spaceWidthEnd_concat_space (c : Char) (rest : List Char)
    (h : c.toNat ∈ [9, 10, 11, 12, 13, 32]) : spaceWidthEnd (rest ++ [c]) = 1 := by
  simp only [List.mem_cons, List.mem_singleton, List.not_mem_nil, or_false] at h
  rcases h with h | h | h | h | h | h <;>
    simp [spaceWidthEnd, spaceEncodings, List.find?_cons, List.isPrefixOf, h]

theorem spaceWidthEnd_concat_other (c : Char) (rest : List Char) (h : c.toNat < 128)
    (h2 : c.toNat ∉ [9, 10, 11, 12, 13, 32]) : spaceWidthEnd (rest ++ [c]) = 0 := by
  simp only [List.mem_cons, List.mem_singleton, List.not_mem_nil, or_false, not_or] at h2
  have hnone : spaceEncodings.find?
      (fun e => e.reverse.isPrefixOf ((rest ++ [c]).reverse.map Char.toNat)) = none := by
    rw [List.find?_eq_none]
    intro e he
    simp only [spaceEncodings, List.mem_cons, List.mem_singleton, List.not_mem_nil, or_false] at he
    rcases he with rfl | rfl | rfl | rfl | rfl | rfl | rfl | rfl | rfl | rfl | rfl | rfl | rfl |
      rfl | rfl | rfl | rfl | rfl | rfl | rfl | rfl | rfl | rfl | rfl | rfl <;>
      simp [List.isPrefixOf] <;> omega
  simp only [spaceWidthEnd, hnone]

theorem toNat_eq_space_iff (c : Char) : c.toNat = 32 ↔ c = ' ' := by
  constructor
  · intro h
    have := Char.ofNat_toNat c
    rw [h] at this
    exact this.symm
  · rintro rfl; rfl

theorem spaceWidth_printable {c : Char} (rest : List Char)
    (h : 0x20 ≤ c.toNat ∧ c.toNat ≤ 0x7e) :
    spaceWidth (c :: rest) = if c = ' ' then 1 else 0 := by
  by_cases hc : c = ' '
  · subst hc; rw [if_pos rfl]; exact spaceWidth_cons_space _ _ (by decide)
  · rw [if_neg hc]
    have : c.toNat ≠ 32 := fun h32 => hc ((toNat_eq_space_iff c).mp h32)
    exact spaceWidth_cons_other _ _ (by omega) (by simp; omega)

theorem spaceWidthEnd_printable {c : Char} (rest : List Char)
    (h : 0x20 ≤ c.toNat ∧ c.toNat ≤ 0x7e) :
    spaceWidthEnd (rest ++ [c]) = if c = ' ' then 1 else 0 := by
  by_cases hc : c = ' '
  · subst hc; rw [if_pos rfl]; exact spaceWidthEnd_concat_space _ _ (by decide)
  · rw [if_neg hc]
    have : c.toNat ≠ 32 := fun h32 => hc ((toNat_eq_space_iff c).mp h32)
    exact spaceWidthEnd_concat_other _ _ (by omega) (by simp; omega)

theorem trimLeftSpace_printable : ∀ (n : Nat) (l : List Char), Printable l → l.length ≤ n →
    trimLeftSpace n l = l.dropWhile (fun c => c == ' ')
  | 0, l, _, hn => by
    have : l = [] := List.length_eq_zero.mp (Nat.le_zero.mp hn)
    subst this; rfl
  | n + 1, [], _, _ => rfl
  | n + 1, c :: rest, hp, hn => by
    have hc := hp c (List.mem_cons_self _ _)
    have hrest : Printable rest := fun x hx => hp x (List.mem_cons_of_mem _ hx)
    have hlen : rest.length ≤ n := by simpa using hn
    unfold trimLeftSpace
    rw [spaceWidth_printable rest hc]
    by_cases h : c = ' '
    · subst h
      simp only [if_true, one_ne_zero, if_false, List.drop_succ_cons, List.drop_zero]
      rw [trimLeftSpace_printable n rest hrest hlen, List.dropWhile_cons_of_pos (by simp)]
    · simp only [h, if_false, if_true]
      rw [List.dropWhile_cons_of_neg (by simpa using h)]

theorem trimRightSpace_printable : ∀ (n : Nat) (l : List Char), Printable l → l.length ≤ n →
    trimRightSpace n l = l.rdropWhile (fun c => c == ' ')
  | 0, l, _, hn => by
    have : l = [] := List.length_eq_zero.mp (Nat.le_zero.mp hn)
    subst this; rfl
  | n + 1, l, hp, hn => by
    rcases List.eq_nil_or_concat l with h | ⟨rest, c, h⟩
    · subst h; rfl
    · rw [List.concat_eq_append] at h
      subst h
      have hc := hp c (by simp)
      have hrest : Printable rest := fun x hx => hp x (by simp [hx])
      have hlen : rest.length ≤ n := by simpa using hn
      unfold trimRightSpace
      rw [spaceWidthEnd_printable rest hc]
      by_cases h : c = ' '
      · subst h
        simp only [if_true, one_ne_zero, if_false, List.length_append, List.length_singleton,
          Nat.add_sub_cancel, List.take_left']
        rw [trimRightSpace_printable n rest hrest hlen]
        rw [List.rdropWhile_concat_pos]; simp
      · simp only [h, if_false, if_true]
        rw [List.rdropWhile_concat_neg]; simpa using h

/-- On printable ASCII `TrimSpace` removes the spaces at both ends. -/
theorem TrimSpace_printable (s : String) (h : Printable s.data) :
    TrimSpace s =
      String.mk ((s.data.dropWhile (fun c => c == ' ')).rdropWhile (fun c => c == ' ')) := by
  have h1 := trimLeftSpace_printable s.data.length s.data h (le_refl _)
  have hp : Printable (s.data.dropWhile (fun c => c == ' ')) :=
    fun x hx => h x ((List.dropWhile_sublist _).subset hx)
  have hl : (s.data.dropWhile (fun c => c == ' ')).length ≤ s.data.length :=
    (List.dropWhile_sublist _).length_le
  simp only [TrimSpace, h1]
  rw [trimRightSpace_printable _ _ hp hl]

/-- A printable text that neither starts nor ends with a space is left as it
is. -/
theorem TrimSpace_clean (s : String) (h : Printable s.data) (h1 : s.data.head? ≠ some ' ')
    (h2 : s.data.getLast? ≠ some ' ') : TrimSpace s = s := by
  rw [TrimSpace_printable s h]
  apply String.ext
  simp only
  have e1 : s.data.dropWhile (fun c => c == ' ') = s.data := by
    cases hs : s.data with
    | nil => rfl
    | cons c rest =>
      rw [hs] at h1
      have : c ≠ ' ' := fun hc => h1 (by simp [hc])
      rw [List.dropWhile_cons_of_neg (by simpa using this)]
  rw [e1, List.rdropWhile_eq_self_iff]
  intro hl hsp
  apply h2
  rw [List.getLast?_eq_getLast _ hl]
  simpa using hsp

theorem TrimSpace_space_append (s : String) (h : Printable s.data) :
    TrimSpace (" " ++ s) = TrimSpace s := by
  have hp : Printable (" " ++ s).data := by
    intro x hx
    simp only [String.data_append, List.mem_append] at hx
    rcases hx with hx | hx
    · have : x = ' ' := by simpa using hx
      subst this; decide
    · exact h x hx
  rw [TrimSpace_printable _ hp, TrimSpace_printable _ h]
  simp [String.data_append, List.dropWhile]

theorem TrimSpace_append_space (s : String) (h : Printable s.data) :
    TrimSpace (s ++ " ") = TrimSpace s := by
  have hp : Printable (s ++ " ").data := by
    intro x hx
    simp only [String.data_append, List.mem_append] at hx
    rcases hx with hx | hx
    · exact h x hx
    · have : x = ' ' := by simpa using hx
      subst this; decide
  rw [TrimSpace_printable _ hp, TrimSpace_printable _ h]
  apply String.ext
  simp only [String.data_append]
  cases hs : s.data.dropWhile (fun c => c == ' ') with
  | nil =>
    have hall : ∀ x ∈ s.data, (fun c => c == ' ') x = true := by
      intro x hx
      by_contra hne
      have := List.dropWhile_eq_nil_iff.mp hs x hx
      exact hne this
    have : (s.data ++ [' ']).dropWhile (fun c => c == ' ') = [] := by
      rw [List.dropWhile_eq_nil_iff]
      intro x hx
      rcases List.mem_append.mp hx with hx | hx
      · exact hall x hx
      · simp at hx; simp [hx]
    rw [this]
  | cons c rest =>
    have hne : s.data.dropWhile (fun c => c == ' ') ≠ [] := by rw [hs]; simp
    have : (s.data ++ [' ']).dropWhile (fun c => c == ' ') =
        s.data.dropWhile (fun c => c == ' ') ++ [' '] := by
      rw [List.dropWhile_append]
      simp [hne]
    rw [this, hs, List.rdropWhile_concat_pos]
    simp

/-! ## The commands `cd`, `pwd` and `cat` -/

theorem execLine_cd (port : Int) (remote : String) (st : Session) (t : String) :
    execLine port remote st ("cd " ++ t) =
      ({ st with history := st.history ++ ["cd " ++ t],
                 cwd := cdTarget st.user st.cwd (TrimSpace t) },
       [Out.event { AttackerIP := parseIP remote, TargetPort := port, EvType := "SSH_COMMAND",
                    Payload := [("command", "cd " ++ t)], Severity := "Low" },
        Out.write (promptText (cdTarget st.user st.cwd (TrimSpace t)))],
       false) := by
  rw [execLine_of_command port remote st (by simp [String.ext_iff]) (by simp [String.ext_iff])
    (by simp [String.ext_iff]) (by simp [String.ext_iff]), respond_cd]
  rfl

theorem execLine_pwd (port : Int) (remote : String) (st : Session) :
    execLine port remote st "pwd" =
      ({ st with history := st.history ++ ["pwd"] },
       [Out.event { AttackerIP := parseIP remote, TargetPort := port, EvType := "SSH_COMMAND",
                    Payload := [("command", "pwd")], Severity := "Low" },
        Out.write ("\r\n" ++ st.cwd ++ "\r\n"), Out.write (promptText st.cwd)],
       false) := rfl

theorem cdTarget_parent (user : String) (parent name : String) (hp : parent ≠ "")
    (hn : '/' ∉ name.data) : cdTarget user (parent ++ "/" ++ name) ".." = parent := by
  have hlen : 0 < parent.data.length := by
    apply List.length_pos.mpr
    intro h; exact hp (String.ext h)
  have hne : (parent ++ "/" ++ name) ≠ "/" := by
    intro h
    have h2 : parent.data ++ '/' :: name.data = ['/'] := by
      have := congrArg String.data h
      simpa [String.data_append] using this
    cases hpd : parent.data with
    | nil => exact hp (String.ext hpd)
    | cons x xs => rw [hpd] at h2; simp at h2
  have hli : LastIndex (parent ++ "/" ++ name) '/' = parent.data.length :=
    LastIndex_append parent name '/' hn
  have hb : ((parent ++ "/" ++ name) != "/") = true := by simpa using hne
  have h1 : ((".." : String) == "" || (".." : String) == "~") = false := by decide
  have h2 : ((".." : String) == ".") = false := by decide
  have h3 : ((".." : String) == "..") = true := by decide
  simp only [cdTarget, h1, h2, h3, hb, hli, Bool.false_eq_true, if_false, if_true]
  rw [if_pos (by exact_mod_cast hlen)]
  apply String.ext
  simp [String.data_append]

theorem cdTarget_top (user : String) (name : String) (hn : '/' ∉ name.data) :
    cdTarget user ("/" ++ name) ".." = "/" := by
  have h1 : ((".." : String) == "" || (".." : String) == "~") = false := by decide
  have h2 : ((".." : String) == ".") = false := by decide
  have h3 : ((".." : String) == "..") = true := by decide
  have hli : LastIndex ("" ++ "/" ++ name) '/' = ("" : String).data.length :=
    LastIndex_append "" name '/' hn
  have he : ("" ++ "/" ++ name : String) = "/" ++ name := by
    apply String.ext; simp [String.data_append]
  rw [he] at hli
  simp only [cdTarget, h1, h2, h3, hli, Bool.false_eq_true, if_false, if_true]
  by_cases hb : ("/" ++ name) = "/"
  · simp [hb]
  · have : (("/" ++ name) != "/") = true := by simpa using hb
    simp [this]

/-- C14, refuted as stated: in a session of the user bob, `cd /etc` followed
by `cd ~` leaves the working directory /home/bob, not /etc joined with the
relative argument. -/
theorem C14_cd_tilde_goes_home :
    (sshHandler 22 "203.0.113.9:50000" "bob" "cd /etc\ncd ~\n".data).1.cwd = "/home/bob" ∧
    (sshHandler 22 "203.0.113.9:50000" "bob" "cd /etc\ncd ~\n".data).1.cwd ≠ "/etc/~" := by
  decide

/-- C14, amended: path resolution of `cd`.  For every session state with
working directory W and every dispatched line that starts with `cd `, with A
the trimmed rest of the line, the working directory afterwards is the home
directory /home/user when A is `~` (or empty); W when A is `.`; for `..` the
text of W before its last `/`, that is P when W is P/name with P not empty,
and `/` when W is the root or `/name`; A itself when A starts with `/`; and
otherwise W joined with A by a single `/` (`/A` when W is the root).  The file
table is not changed, and a following `pwd` writes CR LF, the working
directory, CR LF, so `cd /etc` then `pwd` receives /etc and `cd ..` from /etc
yields the root. -/
theorem C14_cd_resolution (port : Int) (remote : String) (st st2 : Session) (cmd A : String)
    (h : HasPrefix cmd "cd " = true) (hA : A = TrimSpace (TrimPrefix cmd "cd ")) :
    (A = "" ∨ A = "~" → (execLine port remote st cmd).1.cwd = "/home/" ++ st.user) ∧
    (A = "." → (execLine port remote st cmd).1.cwd = st.cwd) ∧
    (A = ".." → st.cwd = "/" → (execLine port remote st cmd).1.cwd = "/") ∧
    (A = ".." → ∀ parent name : String, st.cwd = parent ++ "/" ++ name → parent ≠ "" →
      '/' ∉ name.data → (execLine port remote st cmd).1.cwd = parent) ∧
    (A = ".." → ∀ name : String, st.cwd = "/" ++ name → '/' ∉ name.data →
      (execLine port remote st cmd).1.cwd = "/") ∧
    (HasPrefix A "/" = true → (execLine port remote st cmd).1.cwd = A) ∧
    (HasPrefix A "/" = false → A ≠ "" → A ≠ "~" → A ≠ "." → A ≠ ".." →
      (execLine port remote st cmd).1.cwd =
        if st.cwd = "/" then "/" ++ A else st.cwd ++ "/" ++ A) ∧
    (execLine port remote st cmd).1.files = st.files ∧
    (execLine port remote st2 "pwd").2.1 =
      [Out.event { AttackerIP := parseIP remote, TargetPort := port, EvType := "SSH_COMMAND",
                   Payload := [("command", "pwd")], Severity := "Low" },
       Out.write ("\r\n" ++ st2.cwd ++ "\r\n"), Out.write ("\r\n" ++ st2.cwd ++ "$ ")] ∧
    (execLine port remote st2 "pwd").1.cwd = st2.cwd ∧
    writesOf (execLine 22 "203.0.113.9:50000"
        (execLine 22 "203.0.113.9:50000" (newSession "bob") "cd /etc").1 "pwd").2.1 =
      ["\r\n/etc\r\n", "\r\n/etc$ "] ∧
    (execLine 22 "203.0.113.9:50000"
        (execLine 22 "203.0.113.9:50000" (newSession "bob") "cd /etc").1 "cd ..").1.cwd =
      "/" := by
  have hcmd := eq_append_TrimPrefix h
  have hcwd : (execLine port remote st cmd).1.cwd = cdTarget st.user st.cwd A := by
    rw [hcmd, execLine_cd, ← hA]
  have hfiles : (execLine port remote st cmd).1.files = st.files := by
    rw [hcmd, execLine_cd]
  rw [hcwd]
  refine ⟨?_, ?_, ?_, ?_, ?_, ?_, ?_, hfiles, rfl, rfl, by decide, by decide⟩
  · rintro (h1 | h1) <;> subst h1 <;> rfl
  · intro h1; rw [h1]; rfl
  · intro h1 h2; rw [h1, h2]; rfl
  · intro h1 parent name hw hp hn
    rw [h1, hw]; exact cdTarget_parent _ _ _ hp hn
  · intro h1 name hw hn
    rw [h1, hw]; exact cdTarget_top _ _ hn
  · intro h1
    have e1 : (A == "" || A == "~") = false := by
      rw [Bool.eq_false_iff]
      intro hc
      simp only [Bool.or_eq_true, beq_iff_eq] at hc
      rcases hc with hc | hc <;> rw [hc] at h1 <;> exact absurd h1 (by decide)
    have e2 : (A == ".") = false := by
      rw [Bool.eq_false_iff]; intro hc
      simp only [beq_iff_eq] at hc
      rw [hc] at h1; exact absurd h1 (by decide)
    have e3 : (A == "..") = false := by
      rw [Bool.eq_false_iff]; intro hc
      simp only [beq_iff_eq] at hc
      rw [hc] at h1; exact absurd h1 (by decide)
    simp only [cdTarget, e1, e2, e3, h1, Bool.false_eq_true, if_false, if_true]
  · intro h1 h2 h3 h4 h5
    have e1 : (A == "" || A == "~") = false := by simp [h2, h3]
    have e2 : (A == ".") = false := by simp [h4]
    have e3 : (A == "..") = false := by simp [h5]
    simp only [cdTarget, e1, e2, e3, h1, Bool.false_eq_true, if_false, beq_iff_eq]

/-- Witness of the amended C14: `cd  logs` in the directory /var of the user
bob. -/
theorem C14_cd_resolution_witness :
    (execLine 22 "203.0.113.9:50000" { newSession "bob" with cwd := "/var" } "cd  logs").1.cwd =
      "/var/logs" :=
  (C14_cd_resolution 22 "203.0.113.9:50000" { newSession "bob" with cwd := "/var" }
    (newSession "bob") "cd  logs" "logs" (by decide) (by decide)).2.2.2.2.2.2.1
    (by decide) (by decide) (by decide) (by decide) (by decide)

theorem respond_cat (st : Session) (t : String) :
    respond st ("cat " ++ t) =
      (st, [catText st.user st.files (TrimSpace t) (resolvePath st.cwd (TrimSpace t))]) := by
  unfold respond
  simp [HasPrefix, List.isPrefixOf, TrimPrefix, String.ext_iff]

theorem execLine_cat (port : Int) (remote : String) (st : Session) (t : String) :
    execLine port remote st ("cat " ++ t) =
      ({ st with history := st.history ++ ["cat " ++ t] },
       [Out.event { AttackerIP := parseIP remote, TargetPort := port, EvType := "SSH_COMMAND",
                    Payload := [("command", "cat " ++ t)], Severity := "Low" },
        Out.write (catText st.user st.files (TrimSpace t) (resolvePath st.cwd (TrimSpace t))),
        Out.write (promptText st.cwd)],
       false) := by
  rw [execLine_of_command port remote st (by simp [String.ext_iff]) (by simp [String.ext_iff])
    (by simp [String.ext_iff]) (by simp [String.ext_iff]), respond_cat]
  rfl

theorem resolvePath_eq (cwd p : String) :
    resolvePath cwd p =
      if HasPrefix p "/" = true then p else if cwd = "/" then "/" ++ p else cwd ++ "/" ++ p := by
  unfold resolvePath
  cases HasPrefix p "/" <;> simp

theorem catText_missing (user : String) (files : GoMap String) (arg p : String)
    (h1 : p ≠ "/etc/passwd") (h2 : p ≠ "/etc/hosts") (h3 : p ≠ "/etc/os-release")
    (h4 : p ≠ "/proc/cpuinfo") (h5 : files.get p = none) :
    catText user files arg p = "\r\ncat: " ++ arg ++ ": No such file or directory\r\n" := by
  simp only [catText, beq_iff_eq, h1, h2, h3, h4, h5, if_false]

theorem catText_written (user : String) (files : GoMap String) (arg p c : String)
    (h1 : p ≠ "/etc/passwd") (h2 : p ≠ "/etc/hosts") (h3 : p ≠ "/etc/os-release")
    (h4 : p ≠ "/proc/cpuinfo") (h5 : files.get p = some c) :
    catText user files arg p = "\r\n" ++ c ++ "\r\n" := by
  simp only [catText, beq_iff_eq, h1, h2, h3, h4, h5, if_false]

/-- C15: `cat` of a path that does not exist.  For every session state and
every dispatched line that starts with `cat `, with A the trimmed rest of the
line and p the path it names (A itself when it starts with `/`, otherwise the
working directory joined with A): when p is none of the four canned files and
was not written in the session, the line writes exactly CR LF, `cat: `, A as
typed, `: No such file or directory`, CR LF (after the command event and
before the prompt), the session goes on, and neither the working directory nor
the file table changes.  `cat /etc/os-release` writes the canned os-release
text in every session state. -/
theorem C15_cat_missing_file (port : Int) (remote : String) (st st2 : Session) (cmd A p : String)
    (h : HasPrefix cmd "cat " = true) (hA : A = TrimSpace (TrimPrefix cmd "cat "))
    (hp : p = if HasPrefix A "/" = true then A
              else if st.cwd = "/" then "/" ++ A else st.cwd ++ "/" ++ A) :
    (p ≠ "/etc/passwd" → p ≠ "/etc/hosts" → p ≠ "/etc/os-release" → p ≠ "/proc/cpuinfo" →
      st.files.get p = none →
        (execLine port remote st cmd).2.1 =
          [Out.event { AttackerIP := parseIP remote, TargetPort := port,
                       EvType := "SSH_COMMAND", Payload := [("command", cmd)],
                       Severity := "Low" },
           Out.write ("\r\ncat: " ++ A ++ ": No such file or directory\r\n"),
           Out.write ("\r\n" ++ st.cwd ++ "$ ")] ∧
        (execLine port remote st cmd).2.2 = false ∧
        (execLine port remote st cmd).1.cwd = st.cwd ∧
        (execLine port remote st cmd).1.files = st.files) ∧
    writesOf (execLine port remote st2 "cat /etc/os-release").2.1 =
      ["\r\nNAME=\"Ubuntu\"\r\nVERSION=\"22.04 LTS\"\r\n", "\r\n" ++ st2.cwd ++ "$ "] := by
  have hcmd := eq_append_TrimPrefix h
  constructor
  · intro h1 h2 h3 h4 h5
    have hres : resolvePath st.cwd A = p := by rw [resolvePath_eq, hp]
    have hex := execLine_cat port remote st (TrimPrefix cmd "cat ")
    rw [← hcmd, ← hA, hres, catText_missing st.user st.files A p h1 h2 h3 h4 h5] at hex
    rw [hex]
    exact ⟨rfl, rfl, rfl, rfl⟩
  · have e1 : ("cat /etc/os-release" : String) = "cat " ++ "/etc/os-release" := by decide
    have e2 : TrimSpace "/etc/os-release" = "/etc/os-release" := by decide
    rw [e1, execLine_cat, e2]
    rfl

/-- Witness of C15: `cat /nope` in a new session of the user bob. -/
theorem C15_cat_missing_file_witness :
    writesOf (execLine 22 "203.0.113.9:50000" (newSession "bob") "cat /nope").2.1 =
      ["\r\ncat: /nope: No such file or directory\r\n", "\r\n/home/bob$ "] :=
  congrArg writesOf
    ((C15_cat_missing_file 22 "203.0.113.9:50000" (newSession "bob") (newSession "bob")
      "cat /nope" "/nope" "/nope" (by decide) (by decide) (by decide)).1
      (by decide) (by decide) (by decide) (by decide) (by decide)).1

/-! ## Files written in the session: `echo`, `touch`, `cat` and `ls` -/

theorem respond_echo (st : Session) (t : String) (hc : Contains ("echo " ++ t) ">" = true) :
    respond st ("echo " ++ t) =
      ({ st with files := (st.files.set
          (resolvePath st.cwd (TrimSpace ((SplitN2 ("echo " ++ t) '>').2.getD "")))
          (Trim (TrimSpace (TrimPrefix (TrimSpace (SplitN2 ("echo " ++ t) '>').1) "echo"))
            "\x27\x22")) }, []) := by
  unfold respond
  simp [HasPrefix, List.isPrefixOf, String.ext_iff, hc]

theorem respond_touch (st : Session) (t : String) :
    respond st ("touch " ++ t) =
      (if TrimSpace t != "" then
        if (st.files.get (resolvePath st.cwd (TrimSpace t))).isNone then
          ({ st with files := st.files.set (resolvePath st.cwd (TrimSpace t)) "" }, [])
        else (st, [])
      else (st, [])) := by
  unfold respond
  simp [HasPrefix, List.isPrefixOf, TrimPrefix, String.ext_iff]

theorem execLine_state (port : Int) (remote : String) (st : Session) {cmd : String}
    (h1 : cmd ≠ "exit") (h2 : cmd ≠ "logout") (h3 : cmd ≠ "help") (h4 : cmd ≠ "") :
    (execLine port remote st cmd).1 = (respond { st with history := st.history ++ [cmd] } cmd).1 := by
  rw [execLine_of_command port remote st h1 h2 h3 h4]

theorem Trim_clean (s cutset : String)
    (h1 : ∀ c ∈ cutset.data, s.data.head? ≠ some c)
    (h2 : ∀ c ∈ cutset.data, s.data.getLast? ≠ some c) : Trim s cutset = s := by
  apply String.ext
  simp only [Trim]
  have e1 : s.data.dropWhile (fun c => cutset.data.contains c) = s.data := by
    cases hs : s.data with
    | nil => rfl
    | cons c rest =>
      rw [hs] at h1
      have : ¬ (cutset.data.contains c = true) := by
        intro hc
        exact h1 c (by simpa using hc) rfl
      rw [List.dropWhile_cons_of_neg this]
  rw [e1]
  have e2 : s.data.reverse.dropWhile (fun c => cutset.data.contains c) = s.data.reverse := by
    cases hs : s.data.reverse with
    | nil => rfl
    | cons c rest =>
      have hl : s.data.getLast? = some c := by
        rw [← List.head?_reverse, hs]; rfl
      have : ¬ (cutset.data.contains c = true) := by
        intro hc
        exact h2 c (by simpa using hc) hl
      rw [List.dropWhile_cons_of_neg this]
  rw [e2, List.reverse_reverse]

theorem printable_append {a b : List Char} (ha : Printable a) (hb : Printable b) :
    Printable (a ++ b) := by
  intro c hc
  rcases List.mem_append.mp hc with h | h
  · exact ha c h
  · exact hb c h

/-- The content that `echo C > P` stores, for a clean content `C`. -/
theorem echo_content (C : String) (hC : Printable C.data) (h1 : C.data.head? ≠ some ' ')
    (h2 : C.data.getLast? ≠ some ' ') :
    TrimSpace (TrimPrefix (TrimSpace ("echo " ++ C ++ " ")) "echo") = C := by
  have hpe : Printable ("echo " ++ C).data := by
    rw [String.data_append]
    exact printable_append (by decide) hC
  rw [TrimSpace_append_space _ hpe]
  by_cases hemp : C = ""
  · subst hemp; decide
  · have hne : C.data ≠ [] := fun h => hemp (String.ext h)
    have hclean : TrimSpace ("echo " ++ C) = "echo " ++ C := by
      apply TrimSpace_clean _ hpe
      · simp [String.data_append]
      · rw [String.data_append, List.getLast?_append_of_ne_nil _ hne]
        exact h2
    have hsplit : ("echo " ++ C : String) = "echo" ++ (" " ++ C) := by
      apply String.ext; simp [String.data_append]
    rw [hclean, hsplit, TrimPrefix_append, TrimSpace_space_append _ hC]
    exact TrimSpace_clean C hC h1 h2

/-- C16: write-then-read round trip in one session.  For every session state,
every printable content C without `>` that neither starts nor ends with a
space or a quote character, and every non-empty printable path P (with or
without `>`) that neither starts nor ends with a space and does not name a
canned file:
after the line `echo C > P`, the line `cat P` writes exactly CR LF, C, CR LF;
and after `touch P`, when the path was not written before, `cat P` writes the
empty content, CR LF CR LF, and no No-such-file message. -/
theorem C16_write_then_read (port : Int) (remote : String) (st : Session) (C P p : String)
    (hC : Printable C.data) (hC1 : '>' ∉ C.data)
    (hC2 : C.data.head? ≠ some ' ' ∧ C.data.head? ≠ some (Char.ofNat 39) ∧
      C.data.head? ≠ some (Char.ofNat 34))
    (hC3 : C.data.getLast? ≠ some ' ' ∧ C.data.getLast? ≠ some (Char.ofNat 39) ∧
      C.data.getLast? ≠ some (Char.ofNat 34))
    (hP : Printable P.data) (hP0 : P ≠ "")
    (hP2 : P.data.head? ≠ some ' ') (hP3 : P.data.getLast? ≠ some ' ')
    (hp : p = if HasPrefix P "/" = true then P
              else if st.cwd = "/" then "/" ++ P else st.cwd ++ "/" ++ P)
    (hcan : p ≠ "/etc/passwd" ∧ p ≠ "/etc/hosts" ∧ p ≠ "/etc/os-release" ∧
      p ≠ "/proc/cpuinfo") :
    writesOf (execLine port remote
        (execLine port remote st ("echo " ++ C ++ " > " ++ P)).1 ("cat " ++ P)).2.1 =
      ["\r\n" ++ C ++ "\r\n", "\r\n" ++ st.cwd ++ "$ "] ∧
    (st.files.get p = none →
      writesOf (execLine port remote
          (execLine port remote st ("touch " ++ P)).1 ("cat " ++ P)).2.1 =
        ["\r\n\r\n", "\r\n" ++ st.cwd ++ "$ "]) := by
  have hPt : TrimSpace P = P := TrimSpace_clean P hP hP2 hP3
  have hres : ∀ cwd, cwd = st.cwd → resolvePath cwd P = p := by
    intro cwd hc; rw [resolvePath_eq, hp, hc]
  constructor
  · -- the line `echo C > P`
    have hform : ("echo " ++ C ++ " > " ++ P : String) =
        ("echo " ++ C ++ " ") ++ String.singleton '>' ++ (" " ++ P) := by
      apply String.ext; simp [String.data_append, String.singleton]
    have hform2 : ("echo " ++ C ++ " > " ++ P : String) = "echo " ++ (C ++ " > " ++ P) := by
      apply String.ext; simp [String.data_append]
    have hnot : '>' ∉ ("echo " ++ C ++ " ").data := by
      simp only [String.data_append, List.mem_append, not_or]
      exact ⟨⟨by decide, hC1⟩, by decide⟩
    have hsplit : SplitN2 ("echo " ++ (C ++ " > " ++ P)) '>' =
        ("echo " ++ C ++ " ", some (" " ++ P)) := by
      rw [← hform2, hform]; exact SplitN2_append _ _ _ hnot
    have hcont : Contains ("echo " ++ (C ++ " > " ++ P)) ">" = true := by
      rw [← hform2, hform]
      exact (Contains_iff _ _).mpr ⟨_, _, rfl⟩
    have hstate : (execLine port remote st ("echo " ++ C ++ " > " ++ P)).1 =
        { st with history := st.history ++ ["echo " ++ C ++ " > " ++ P],
                  files := st.files.set p C } := by
      rw [hform2, execLine_state port remote st (by simp [String.ext_iff])
        (by simp [String.ext_iff]) (by simp [String.ext_iff]) (by simp [String.ext_iff]),
        respond_echo _ _ hcont, hsplit]
      simp only [Option.getD_some]
      rw [echo_content C hC hC2.1 hC3.1, TrimSpace_space_append P hP, hPt, hres _ rfl]
      rw [Trim_clean C]
      · intro c hc
        have : c = Char.ofNat 39 ∨ c = Char.ofNat 34 := by
          have hd : ("\x27\x22" : String).data = [Char.ofNat 39, Char.ofNat 34] := by decide
          rw [hd] at hc
          simpa using hc
        rcases this with rfl | rfl
        · exact hC2.2.1
        · exact hC2.2.2
      · intro c hc
        have : c = Char.ofNat 39 ∨ c = Char.ofNat 34 := by
          have hd : ("\x27\x22" : String).data = [Char.ofNat 39, Char.ofNat 34] := by decide
          rw [hd] at hc
          simpa using hc
        rcases this with rfl | rfl
        · exact hC3.2.1
        · exact hC3.2.2
    rw [hstate, execLine_cat, hPt, hres _ rfl,
      catText_written _ _ _ p C hcan.1 hcan.2.1 hcan.2.2.1 hcan.2.2.2 (GoMap.get_set_self _ _ _)]
    rfl
  · -- the line `touch P`
    intro hnone
    have hPne : (TrimSpace P != "") = true := by rw [hPt]; simpa using hP0
    have hPne2 : (P != "") = true := by simpa using hP0
    have hstate : (execLine port remote st ("touch " ++ P)).1 =
        { st with history := st.history ++ ["touch " ++ P], files := st.files.set p "" } := by
      rw [execLine_state port remote st (by simp [String.ext_iff]) (by simp [String.ext_iff])
        (by simp [String.ext_iff]) (by simp [String.ext_iff]), respond_touch]
      simp only [hPne, hPne2, if_true, hPt, hres _ rfl, hnone, Option.isNone_none]
    rw [hstate, execLine_cat, hPt, hres _ rfl,
      catText_written _ _ _ p "" hcan.1 hcan.2.1 hcan.2.2.1 hcan.2.2.2 (GoMap.get_set_self _ _ _)]
    rfl

/-- Witness of C16: `echo hi there > a.txt` and `cat a.txt` in a new session
of the user bob. -/
theorem C16_write_then_read_witness :
    writesOf (execLine 22 "203.0.113.9:50000"
        (execLine 22 "203.0.113.9:50000" (newSession "bob") ("echo " ++ "hi there" ++ " > " ++ "a.txt")).1
        ("cat " ++ "a.txt")).2.1 =
      ["\r\n" ++ "hi there" ++ "\r\n", "\r\n" ++ (newSession "bob").cwd ++ "$ "] :=
  (C16_write_then_read 22 "203.0.113.9:50000" (newSession "bob") "hi there" "a.txt"
    "/home/bob/a.txt" (by decide) (by decide) (by decide) (by decide) (by decide) (by decide)
    (by decide) (by decide) (by decide) (by decide)).1

theorem ite_files (k : String) (st : Session) (c : Prop) [Decidable c]
    (a b : Session × List String)
    (ha : (st.files.get k).isSome → (a.1.files.get k).isSome)
    (hb : (st.files.get k).isSome → (b.1.files.get k).isSome) :
    (st.files.get k).isSome → ((if c then a else b).1.files.get k).isSome := by
  split <;> assumption

theorem get_set_isSome {m : GoMap String} {k : String} (k2 v : String)
    (h : (m.get k).isSome) : ((m.set k2 v).get k).isSome := by
  by_cases hk : k = k2
  · subst hk; rw [GoMap.get_set_self]; rfl
  · rw [GoMap.get_set_of_ne _ _ hk]; exact h

/-- No command removes a file from the file table. -/
theorem respond_files (st : Session) (cmd k : String) :
    (st.files.get k).isSome → ((respond st cmd).1.files.get k).isSome := by
  unfold respond
  repeat (first | exact id | exact get_set_isSome _ _ | apply ite_files)

theorem execLine_files (port : Int) (remote : String) (st : Session) (cmd k : String) :
    (st.files.get k).isSome → ((execLine port remote st cmd).1.files.get k).isSome := by
  unfold execLine
  split_ifs
  · exact id
  · exact id
  · exact respond_files { st with history := st.history ++ [cmd] } cmd k
  · exact id

theorem lsExtra_fold_append (cwd : String) (files : GoMap String) :
    ∀ acc : String, ∃ x : String,
      files.foldl (fun extra e =>
        if HasPrefix e.1 (cwd ++ "/") then
          if !Contains (TrimPrefix e.1 (cwd ++ "/")) "/" then
            extra ++ "  " ++ TrimPrefix e.1 (cwd ++ "/")
          else extra
        else extra) acc = acc ++ x := by
  induction files with
  | nil => intro acc; exact ⟨"", by simp⟩
  | cons e rest ih =>
    intro acc
    simp only [List.foldl_cons]
    split_ifs
    · obtain ⟨x, hx⟩ := ih (acc ++ "  " ++ TrimPrefix e.1 (cwd ++ "/"))
      exact ⟨"  " ++ TrimPrefix e.1 (cwd ++ "/") ++ x, by rw [hx]; simp [String.append_assoc]⟩
    · exact ih acc
    · exact ih acc

theorem lsExtra_fold_contains (cwd name : String) (hname : Contains name "/" = false)
    (files : GoMap String) :
    ∀ acc : String, (∃ e ∈ files, e.1 = cwd ++ "/" ++ name) → ∃ a b : String,
      files.foldl (fun extra e =>
        if HasPrefix e.1 (cwd ++ "/") then
          if !Contains (TrimPrefix e.1 (cwd ++ "/")) "/" then
            extra ++ "  " ++ TrimPrefix e.1 (cwd ++ "/")
          else extra
        else extra) acc = a ++ ("  " ++ name) ++ b := by
  induction files with
  | nil => intro acc h; obtain ⟨e, he, _⟩ := h; cases he
  | cons e rest ih =>
    intro acc h
    simp only [List.foldl_cons]
    by_cases hk : e.1 = cwd ++ "/" ++ name
    · have h1 : HasPrefix e.1 (cwd ++ "/") = true := by
        rw [hk]; exact HasPrefix_append _ _
      have h2 : TrimPrefix e.1 (cwd ++ "/") = name := by
        rw [hk]; exact TrimPrefix_append _ _
      simp only [h1, h2, hname, Bool.not_false, if_true]
      obtain ⟨x, hx⟩ := lsExtra_fold_append cwd rest (acc ++ "  " ++ name)
      refine ⟨acc, x, ?_⟩
      rw [hx]; simp [String.append_assoc]
    · obtain ⟨e2, he2, hk2⟩ := h
      have hmem : e2 ∈ rest := by
        rcases List.mem_cons.mp he2 with h3 | h3
        · rw [h3] at hk2; exact absurd hk2 hk
        · exact h3
      exact ih _ ⟨e2, hmem, hk2⟩

theorem execLine_ls (port : Int) (remote : String) (st : Session) :
    execLine port remote st "ls" =
      ({ st with history := st.history ++ ["ls"] },
       [Out.event { AttackerIP := parseIP remote, TargetPort := port, EvType := "SSH_COMMAND",
                    Payload := [("command", "ls")], Severity := "Low" },
        Out.write (lsText st.cwd st.files), Out.write (promptText st.cwd)],
       false) := rfl

theorem not_HasPrefix_of_not_Contains {name : String} (h : Contains name "/" = false) :
    HasPrefix name "/" = false := by
  rw [Bool.eq_false_iff]
  intro hp
  have := eq_append_TrimPrefix hp
  have hc : Contains name "/" = true :=
    (Contains_iff _ _).mpr ⟨"", TrimPrefix name "/", by simpa using this⟩
  rw [h] at hc; cases hc

/-- C17, refuted as stated: in a session of the user bob, after `cd /etc` and
`touch zzz` the file /etc/zzz is in the file table, but `ls` in /etc writes the
canned listing of /etc only, without the name zzz. -/
theorem C17_ls_in_etc_omits_created_file :
    (sshHandler 22 "203.0.113.9:50000" "bob" "cd /etc\ntouch zzz\n".data).1.cwd = "/etc" ∧
    (sshHandler 22 "203.0.113.9:50000" "bob" "cd /etc\ntouch zzz\n".data).1.files =
      [("/etc/zzz", "")] ∧
    writesOf (execLine 22 "203.0.113.9:50000"
        (sshHandler 22 "203.0.113.9:50000" "bob" "cd /etc\ntouch zzz\n".data).1 "ls").2.1 =
      ["\r\nhosts  passwd  shadow  os-release  ssh/\r\n", "\r\n/etc$ "] ∧
    Contains "\r\nhosts  passwd  shadow  os-release  ssh/\r\n" "zzz" = false := by
  decide

theorem resolvePath_relative {cwd name : String} (h1 : cwd ≠ "/")
    (h2 : Contains name "/" = false) : resolvePath cwd name = cwd ++ "/" ++ name := by
  rw [resolvePath_eq, not_HasPrefix_of_not_Contains h2]
  simp [h1]

theorem touch_creates (port : Int) (remote : String) (st : Session) (t : String)
    (ht : TrimSpace t ≠ "") :
    ((execLine port remote st ("touch " ++ t)).1.files.get
        (resolvePath st.cwd (TrimSpace t))).isSome ∧
      (execLine port remote st ("touch " ++ t)).1.cwd = st.cwd := by
  have hb : (TrimSpace t != "") = true := by simpa using ht
  rw [execLine_state port remote st (by simp [String.ext_iff]) (by simp [String.ext_iff])
    (by simp [String.ext_iff]) (by simp [String.ext_iff]), respond_touch]
  simp only [hb, if_true]
  cases hg : st.files.get (resolvePath st.cwd (TrimSpace t)) with
  | none =>
    simp only [Option.isNone_none, if_true]
    exact ⟨by rw [GoMap.get_set_self]; rfl, trivial⟩
  | some v =>
    simp only [Option.isNone_some, Bool.false_eq_true, if_false]
    exact ⟨by rw [hg]; rfl, trivial⟩

theorem echo_creates (port : Int) (remote : String) (st : Session) (t : String)
    (hc : Contains ("echo " ++ t) ">" = true) :
    ((execLine port remote st ("echo " ++ t)).1.files.get
        (resolvePath st.cwd (TrimSpace ((SplitN2 ("echo " ++ t) '>').2.getD "")))).isSome ∧
      (execLine port remote st ("echo " ++ t)).1.cwd = st.cwd := by
  rw [execLine_state port remote st (by simp [String.ext_iff]) (by simp [String.ext_iff])
    (by simp [String.ext_iff]) (by simp [String.ext_iff]), respond_echo _ _ hc]
  exact ⟨by simp only [GoMap.get_set_self]; rfl, rfl⟩

theorem lsText_root (files : GoMap String) :
    lsText "/" files =
      "\r\nbin  boot  dev  etc  home  lib  media  mnt  opt  proc  root  run  sbin  srv  sys  tmp  usr  var\r\n" :=
  rfl

theorem lsText_etc {cwd : String} (files : GoMap String) (h : HasPrefix cwd "/etc" = true) :
    lsText cwd files = "\r\nhosts  passwd  shadow  os-release  ssh/\r\n" := by
  have hne : (cwd == "/") = false := by
    rw [beq_eq_false_iff_ne]
    intro e
    rw [e] at h
    exact absurd h (by decide)
  simp only [lsText, hne, h, Bool.false_eq_true, if_false, if_true]

theorem lsText_html {cwd : String} (files : GoMap String)
    (h : HasPrefix cwd "/var/www/html" = true) :
    lsText cwd files = "\r\nindex.php  config.php  admin/\r\n" := by
  have hform := eq_append_TrimPrefix h
  have hne : (cwd == "/") = false := by
    rw [beq_eq_false_iff_ne]
    intro e
    rw [e] at h
    exact absurd h (by decide)
  have hetc : HasPrefix cwd "/etc" = false := by
    rw [hform]
    rfl
  simp only [lsText, hne, hetc, h, Bool.false_eq_true, if_false, if_true]

/-- C17, amended: the listing shows the files created in the session, in the
directories that have no canned listing.  For every working directory W other
than the root and not starting with /etc or /var/www/html: a line `touch name`
or `echo ... > name`, with a name without `/`, puts the path W/name into the
file table and leaves the working directory; no later line removes a path
from the file table; and in every state with working directory W whose file
table holds W/name, `ls` writes one text that contains the name and the canned
entries of the home listing, followed by the prompt.  In every state st3,
whatever its file table holds, `ls` writes the canned listing only, followed
by the prompt: the listing of the root when the working directory is the
root, the listing of /etc when it starts with /etc, and the listing of
/var/www/html when it starts with /var/www/html. -/
theorem C17_ls_lists_created_files (port : Int) (remote : String) (st st2 st3 : Session)
    (cmd cmd2 name k : String)
    (hW1 : st.cwd ≠ "/") (hW2 : HasPrefix st.cwd "/etc" = false)
    (hW3 : HasPrefix st.cwd "/var/www/html" = false) (hname : Contains name "/" = false)
    (hcmd : (HasPrefix cmd "touch " = true ∧ name = TrimSpace (TrimPrefix cmd "touch ") ∧
        name ≠ "") ∨
      (HasPrefix cmd "echo " = true ∧ Contains cmd ">" = true ∧
        name = TrimSpace ((SplitN2 cmd '>').2.getD ""))) :
    ((execLine port remote st cmd).1.files.get (st.cwd ++ "/" ++ name)).isSome ∧
    (execLine port remote st cmd).1.cwd = st.cwd ∧
    ((st2.files.get k).isSome → ((execLine port remote st2 cmd2).1.files.get k).isSome) ∧
    (st2.cwd = st.cwd → (st2.files.get (st.cwd ++ "/" ++ name)).isSome →
      ∃ text : String,
        writesOf (execLine port remote st2 "ls").2.1 = [text, "\r\n" ++ st.cwd ++ "$ "] ∧
        Contains text name = true ∧
        Contains text ".  ..  Documents  Downloads  .bashrc  .profile  .ssh  Desktop" = true) ∧
    (st3.cwd = "/" →
      writesOf (execLine port remote st3 "ls").2.1 =
        ["\r\nbin  boot  dev  etc  home  lib  media  mnt  opt  proc  root  run  sbin  srv  sys  tmp  usr  var\r\n",
          "\r\n" ++ st3.cwd ++ "$ "]) ∧
    (HasPrefix st3.cwd "/etc" = true →
      writesOf (execLine port remote st3 "ls").2.1 =
        ["\r\nhosts  passwd  shadow  os-release  ssh/\r\n", "\r\n" ++ st3.cwd ++ "$ "]) ∧
    (HasPrefix st3.cwd "/var/www/html" = true →
      writesOf (execLine port remote st3 "ls").2.1 =
        ["\r\nindex.php  config.php  admin/\r\n", "\r\n" ++ st3.cwd ++ "$ "]) := by
  have hcreate : ((execLine port remote st cmd).1.files.get (st.cwd ++ "/" ++ name)).isSome ∧
      (execLine port remote st cmd).1.cwd = st.cwd := by
    rcases hcmd with ⟨h1, h2, h3⟩ | ⟨h1, h2, h3⟩
    · have hform := eq_append_TrimPrefix h1
      have := touch_creates port remote st (TrimPrefix cmd "touch ") (by rw [← h2]; exact h3)
      rw [← hform, ← h2, resolvePath_relative hW1 hname] at this
      exact this
    · have hform := eq_append_TrimPrefix h1
      have hc : Contains ("echo " ++ TrimPrefix cmd "echo ") ">" = true := by
        rw [← hform]; exact h2
      have := echo_creates port remote st (TrimPrefix cmd "echo ") hc
      rw [← hform, ← h3, resolvePath_relative hW1 hname] at this
      exact this
  have hls : writesOf (execLine port remote st3 "ls").2.1 =
      [lsText st3.cwd st3.files, "\r\n" ++ st3.cwd ++ "$ "] := by
    rw [execLine_ls]; rfl
  refine ⟨hcreate.1, hcreate.2, execLine_files port remote st2 cmd2 k, ?_, ?_, ?_, ?_⟩
  · intro hcwd hfile
    obtain ⟨v, hv⟩ := Option.isSome_iff_exists.mp hfile
    have hmem := GoMap.mem_of_get_eq_some hv
    obtain ⟨a, b, hab⟩ := lsExtra_fold_contains st.cwd name hname st2.files ""
      ⟨(st.cwd ++ "/" ++ name, v), hmem, rfl⟩
    have hb1 : (st.cwd == "/") = false := by simpa using hW1
    have htext : lsText st2.cwd st2.files =
        "\r\n" ++ ".  ..  Documents  Downloads  .bashrc  .profile  .ssh  Desktop" ++
          lsExtra st.cwd st2.files ++ "\r\n" := by
      rw [hcwd]
      simp only [lsText, hb1, hW2, hW3, Bool.false_eq_true, if_false]
    refine ⟨lsText st2.cwd st2.files, ?_, ?_, ?_⟩
    · rw [execLine_ls, hcwd]; rfl
    · rw [htext, Contains_iff]
      refine ⟨"\r\n" ++ ".  ..  Documents  Downloads  .bashrc  .profile  .ssh  Desktop" ++ a ++ "  ",
        b ++ "\r\n", ?_⟩
      unfold lsExtra
      rw [hab]
      simp only [String.append_assoc]
    · rw [htext, Contains_iff]
      exact ⟨"\r\n", lsExtra st.cwd st2.files ++ "\r\n", by simp only [String.append_assoc]⟩
  · intro h
    rw [hls]
    nth_rewrite 1 [h]
    rw [lsText_root]
  · intro h
    rw [hls, lsText_etc _ h]
  · intro h
    rw [hls, lsText_html _ h]

/-- Witness of the amended C17: `touch zzz` in the home directory of the user
bob, and `ls` in the root, in /etc/ssh and in /var/www/html/admin with a file
table that holds a file of that directory. -/
theorem C17_ls_lists_created_files_witness :
    ((execLine 22 "203.0.113.9:50000" (newSession "bob") "touch zzz").1.files.get
      ((newSession "bob").cwd ++ "/" ++ "zzz")).isSome ∧
    writesOf (execLine 22 "203.0.113.9:50000"
        { newSession "bob" with cwd := "/", files := [("/zzz", "")] } "ls").2.1 =
      ["\r\nbin  boot  dev  etc  home  lib  media  mnt  opt  proc  root  run  sbin  srv  sys  tmp  usr  var\r\n",
        "\r\n" ++ "/" ++ "$ "] ∧
    writesOf (execLine 22 "203.0.113.9:50000"
        { newSession "bob" with cwd := "/etc/ssh", files := [("/etc/ssh/zzz", "")] } "ls").2.1 =
      ["\r\nhosts  passwd  shadow  os-release  ssh/\r\n", "\r\n" ++ "/etc/ssh" ++ "$ "] ∧
    writesOf (execLine 22 "203.0.113.9:50000"
        { newSession "bob" with cwd := "/var/www/html/admin",
                                files := [("/var/www/html/admin/zzz", "")] } "ls").2.1 =
      ["\r\nindex.php  config.php  admin/\r\n", "\r\n" ++ "/var/www/html/admin" ++ "$ "] :=
  ⟨(C17_ls_lists_created_files 22 "203.0.113.9:50000" (newSession "bob") (newSession "bob")
      (newSession "bob")
      "touch zzz" "ls" "zzz" "" (by decide) (by decide) (by decide) (by decide)
      (Or.inl ⟨by decide, by decide, by decide⟩)).1,
   (C17_ls_lists_created_files 22 "203.0.113.9:50000" (newSession "bob") (newSession "bob")
      { newSession "bob" with cwd := "/", files := [("/zzz", "")] }
      "touch zzz" "ls" "zzz" "" (by decide) (by decide) (by decide) (by decide)
      (Or.inl ⟨by decide, by decide, by decide⟩)).2.2.2.2.1 (by decide),
   (C17_ls_lists_created_files 22 "203.0.113.9:50000" (newSession "bob") (newSession "bob")
      { newSession "bob" with cwd := "/etc/ssh", files := [("/etc/ssh/zzz", "")] }
      "touch zzz" "ls" "zzz" "" (by decide) (by decide) (by decide) (by decide)
      (Or.inl ⟨by decide, by decide, by decide⟩)).2.2.2.2.2.1 (by decide),
   (C17_ls_lists_created_files 22 "203.0.113.9:50000" (newSession "bob") (newSession "bob")
      { newSession "bob" with cwd := "/var/www/html/admin",
                              files := [("/var/www/html/admin/zzz", "")] }
      "touch zzz" "ls" "zzz" "" (by decide) (by decide) (by decide) (by decide)
      (Or.inl ⟨by decide, by decide, by decide⟩)).2.2.2.2.2.2 (by decide)⟩

/-! ## Steady state of the reconciliation -/

theorem stopLoop_fold_noop (desired : GoMap Service) (l : GoMap Service) :
    ∀ (acc : GoMap Service) (hp : Honeypot) (tr : List Effect),
      (∀ e ∈ l, mustStop desired e.1 e.2 = false) →
        l.foldl (stopStep desired) (acc, hp, tr) = (acc, hp, tr) := by
  induction l with
  | nil => intro acc hp tr _; rfl
  | cons e rest ih =>
    intro acc hp tr h
    have he := h e (List.mem_cons_self _ _)
    rw [List.foldl_cons]
    have hstep : stopStep desired (acc, hp, tr) e = (acc, hp, tr) := by
      obtain ⟨key, cur⟩ := e
      simp only [stopStep]
      simp only at he
      rw [he]; rfl
    rw [hstep]
    exact ih acc hp tr (fun x hx => h x (List.mem_cons_of_mem _ hx))

theorem stopLoop_noop {desired running : GoMap Service} (hp : Honeypot)
    (h : ∀ e ∈ running, mustStop desired e.1 e.2 = false) :
    stopLoop desired running hp = (running, hp, []) :=
  stopLoop_fold_noop desired running running hp [] h

theorem runTask_flags (t : Task) (res : Option String) (fresh : Nat) (w : World) :
    (runTask t res fresh w).1.loop.lastSSH = w.loop.lastSSH ∧
    (runTask t res fresh w).1.loop.lastSPort = w.loop.lastSPort ∧
    (runTask t res fresh w).1.loop.lastHTTP = w.loop.lastHTTP ∧
    (runTask t res fresh w).1.loop.lastHPort = w.loop.lastHPort := by
  cases t with
  | startSSH p => cases res <;> exact ⟨rfl, rfl, rfl, rfl⟩
  | startHTTP p => cases res <;> exact ⟨rfl, rfl, rfl, rfl⟩
  | startGeneric svc bnr key =>
    cases res with
    | none => simp only [runTask, StartGenericService_ok, and_self]
    | some err => simp only [runTask, StartGenericService_fail, and_self]

theorem runTasks_flags (outcome : Task → Option String) (l : List Task) :
    ∀ (fresh : Nat) (w : World),
      (runTasks l outcome fresh w).1.loop.lastSSH = w.loop.lastSSH ∧
      (runTasks l outcome fresh w).1.loop.lastSPort = w.loop.lastSPort ∧
      (runTasks l outcome fresh w).1.loop.lastHTTP = w.loop.lastHTTP ∧
      (runTasks l outcome fresh w).1.loop.lastHPort = w.loop.lastHPort := by
  induction l with
  | nil => intro fresh w; exact ⟨rfl, rfl, rfl, rfl⟩
  | cons t rest ih =>
    intro fresh w
    rw [runTasks_cons]
    simp only
    obtain ⟨h1, h2, h3, h4⟩ := ih (fresh + 1) (runTask t (outcome t) fresh w).1
    obtain ⟨g1, g2, g3, g4⟩ := runTask_flags t (outcome t) fresh w
    exact ⟨h1.trans g1, h2.trans g2, h3.trans g3, h4.trans g4⟩

theorem tickSync_flags (sshPort httpPort : Int) (set : Settings) (ok : Bool)
    (outcome : Task → Option String) (fresh : Nat) (w : World) :
    (tickSync sshPort httpPort (.ok (set, ok)) outcome fresh w).1.loop.lastSSH =
      (effective sshPort httpPort set ok).curSSH ∧
    (tickSync sshPort httpPort (.ok (set, ok)) outcome fresh w).1.loop.lastSPort =
      (effective sshPort httpPort set ok).curSPort ∧
    (tickSync sshPort httpPort (.ok (set, ok)) outcome fresh w).1.loop.lastHTTP =
      (effective sshPort httpPort set ok).curHTTP ∧
    (tickSync sshPort httpPort (.ok (set, ok)) outcome fresh w).1.loop.lastHPort =
      (effective sshPort httpPort set ok).curHPort := by
  rw [tickSync_eq]
  exact runTasks_flags outcome _ fresh _

theorem reconcileSSH_same (hp : Honeypot) (cur : Bool) (port : Int) :
    reconcileSSH hp cur port cur port = [] := by
  cases cur <;> simp [reconcileSSH]

theorem reconcileHTTP_same (hp : Honeypot) (cur : Bool) (port : Int) :
    reconcileHTTP hp cur port cur port = [] := by
  cases cur <;> simp [reconcileHTTP]

/-- After a tick whose starts all succeeded, a tick with the same fetched
settings does nothing but the system-info push and changes nothing. -/
theorem tick_after_sync (sshPort httpPort : Int) (set : Settings) (ok : Bool) (fresh : Nat)
    (w : World) (hkeys : (set.Services.map svcKey).Nodup) (hwf : RunningWF w.loop.running) :
    tick sshPort httpPort (.ok (set, ok))
        (tickSync sshPort httpPort (.ok (set, ok)) (fun _ => none) fresh w).1 =
      ((tickSync sshPort httpPort (.ok (set, ok)) (fun _ => none) fresh w).1,
        [Effect.updateSystemInfo]) := by
  have hiff := tickSync_ok_get_eq_some_iff sshPort httpPort set ok fresh w hkeys hwf
  have hnd := tickSync_running_nodup sshPort httpPort set ok (fun _ => none) fresh w hwf.1
  obtain ⟨f1, f2, f3, f4⟩ := tickSync_flags sshPort httpPort set ok (fun _ => none) fresh w
  generalize hw1 : (tickSync sshPort httpPort (.ok (set, ok)) (fun _ => none) fresh w).1 = w1
    at hiff hnd f1 f2 f3 f4
  have hkeep : ∀ e ∈ w1.loop.running, mustStop (desiredMap set.Services) e.1 e.2 = false := by
    intro e he
    have h1 := GoMap.get_eq_some_of_mem hnd (show (e.1, e.2) ∈ w1.loop.running from he)
    obtain ⟨hs, hE, hk⟩ := (hiff e.1 e.2).mp h1
    rw [mustStop_eq_false_iff]
    exact ⟨e.2, by rw [← hk]; exact desiredMap_get hkeys hs, hE, rfl, rfl⟩
  have hstart : startLoop (desiredMap set.Services) w1.loop.running = [] := by
    rw [startLoop_eq, List.map_eq_nil_iff, List.filter_eq_nil_iff]
    intro e he
    simp only [Bool.and_eq_true, Option.isNone_iff_eq_none, not_and]
    intro hE hnone
    have hd : (desiredMap set.Services).keys.Nodup := by rw [desiredMap_keys hkeys]; exact hkeys
    have h1 := GoMap.get_eq_some_of_mem hd (show (e.1, e.2) ∈ desiredMap set.Services from he)
    obtain ⟨hs, hk⟩ := mem_of_desiredMap_get hkeys h1
    rw [(hiff e.1 e.2).mpr ⟨hs, hE, hk⟩] at hnone
    cases hnone
  rw [tick_ok, stopLoop_noop w1.hp hkeep, hstart, f1, f2, f3, f4, reconcileSSH_same,
    reconcileHTTP_same]
  simp only [List.nil_append, List.append_nil]
  rw [← f1, ← f2, ← f3, ← f4]

/-- C26: the reconciliation reaches a steady state.  For every world whose
running map satisfies its representation invariant and every fetched settings
value with pairwise distinct service keys: after one tick whose starts all
succeeded, a further tick with the same fetched settings makes the
system-info push and nothing else, so it issues no stop and no start for SSH,
HTTP or a generic service and spawns no goroutine, and it leaves the running
map, the last-known flags and ports and the orchestrator unchanged.  A service
with an empty configured banner, started with the default banner of its kind,
is therefore not started again. -/
theorem C26_steady_state (sshPort httpPort : Int) (set : Settings) (ok : Bool) (fresh : Nat)
    (w : World) (hkeys : (set.Services.map svcKey).Nodup) (hwf : RunningWF w.loop.running) :
    (tick sshPort httpPort (.ok (set, ok))
        (tickSync sshPort httpPort (.ok (set, ok)) (fun _ => none) fresh w).1).2 =
      [Effect.updateSystemInfo] ∧
    (tick sshPort httpPort (.ok (set, ok))
        (tickSync sshPort httpPort (.ok (set, ok)) (fun _ => none) fresh w).1).1 =
      (tickSync sshPort httpPort (.ok (set, ok)) (fun _ => none) fresh w).1 ∧
    sshCalls (tick sshPort httpPort (.ok (set, ok))
        (tickSync sshPort httpPort (.ok (set, ok)) (fun _ => none) fresh w).1).2 = [] ∧
    httpCalls (tick sshPort httpPort (.ok (set, ok))
        (tickSync sshPort httpPort (.ok (set, ok)) (fun _ => none) fresh w).1).2 = [] ∧
    genericCalls (tick sshPort httpPort (.ok (set, ok))
        (tickSync sshPort httpPort (.ok (set, ok)) (fun _ => none) fresh w).1).2 = [] ∧
    spawned (tick sshPort httpPort (.ok (set, ok))
        (tickSync sshPort httpPort (.ok (set, ok)) (fun _ => none) fresh w).1).2 = [] := by
  rw [tick_after_sync sshPort httpPort set ok fresh w hkeys hwf]
  exact ⟨rfl, rfl, rfl, rfl, rfl, rfl⟩

/-- Witness of C26: the sample world and the sample settings, whose ftp
service has no configured banner and is started with the vsFTPd greeting. -/
theorem C26_steady_state_witness :
    Task.startGeneric sampleFtp "220 (vsFTPd 3.0.3)\r\n" "ftp:2121" ∈
        spawned (tick 22 80 (.ok (sampleSettings, true)) sampleWorld).2 ∧
    spawned (tick 22 80 (.ok (sampleSettings, true))
        (tickSync 22 80 (.ok (sampleSettings, true)) (fun _ => none) 10 sampleWorld).1).2 = [] :=
  ⟨by decide,
   (C26_steady_state 22 80 sampleSettings true 10 sampleWorld (by decide) (by decide)).2.2.2.2.2⟩

/-! ## The identity key -/

theorem svcKeyOf_ne {k1 k2 : String} {p1 p2 : Int} (h : (k1, p1) ≠ (k2, p2)) :
    svcKeyOf k2 p2 ≠ svcKeyOf k1 p1 := by
  intro heq
  obtain ⟨hk, hp⟩ := svcKeyOf_injective heq
  exact h (by rw [hk, hp])

/-- C25: the identity key `kind:port` is injective.  For all kinds, whatever
characters they hold, and all integer ports, `k1 + ":" + Itoa(p1)` equals
`k2 + ":" + Itoa(p2)` exactly when the kinds and the ports are equal; so a stop
or a start of the listener (k1, p1) leaves the cancel-map entry of every other
identity (k2, p2) as it is, and the completion of a start of one service leaves
the running-map entry of every other identity as it is. -/
theorem C25_key_injective (k1 k2 : String) (p1 p2 : Int) (h : Honeypot) (name banner : String)
    (bindErr : Option String) (newCancel fresh : Nat) (svc : Service) (bnr : String)
    (w : World) :
    (k1 ++ ":" ++ Itoa p1 = k2 ++ ":" ++ Itoa p2 ↔ k1 = k2 ∧ p1 = p2) ∧
    svcKeyOf k1 p1 = k1 ++ ":" ++ Itoa p1 ∧
    Itoa 2121 = "2121" ∧ Itoa 0 = "0" ∧ Itoa (-5) = "-5" ∧
    ((k1, p1) ≠ (k2, p2) →
      (h.StopGenericService k1 p1).1.svcCancels.get (svcKeyOf k2 p2) =
        h.svcCancels.get (svcKeyOf k2 p2) ∧
      (h.StartGenericService k1 name p1 banner bindErr newCancel).1.svcCancels.get
          (svcKeyOf k2 p2) = h.svcCancels.get (svcKeyOf k2 p2)) ∧
    ((svc.Kind, svc.Port) ≠ (k2, p2) →
      (runTask (Task.startGeneric svc bnr (svcKey svc)) bindErr fresh w).1.loop.running.get
          (svcKeyOf k2 p2) = w.loop.running.get (svcKeyOf k2 p2)) := by
  have hstop : ∀ (k1 : String) (p1 : Int), (k1, p1) ≠ (k2, p2) →
      (h.StopGenericService k1 p1).1.svcCancels.get (svcKeyOf k2 p2) =
        h.svcCancels.get (svcKeyOf k2 p2) := by
    intro k1 p1 hne
    cases hg : h.svcCancels.get (svcKeyOf k1 p1) with
    | none => rw [StopGenericService_of_none hg]
    | some c =>
      rw [StopGenericService_of_some hg]
      exact GoMap.get_delete_of_ne _ (svcKeyOf_ne hne)
  refine ⟨?_, rfl, by decide, by decide, by decide, ?_, ?_⟩
  · constructor
    · intro heq
      exact svcKeyOf_injective (show svcKeyOf k1 p1 = svcKeyOf k2 p2 from heq)
    · rintro ⟨rfl, rfl⟩; rfl
  · intro hne
    refine ⟨hstop k1 p1 hne, ?_⟩
    cases bindErr with
    | some err => rw [StartGenericService_fail]; exact hstop k1 p1 hne
    | none =>
      rw [StartGenericService_ok]
      simp only
      rw [GoMap.get_set_of_ne _ _ (svcKeyOf_ne hne)]
      exact hstop k1 p1 hne
  · intro hne
    rw [runTask_running]
    cases bindErr with
    | some err => rfl
    | none => exact GoMap.get_set_of_ne _ _ (svcKeyOf_ne hne)

/-- Witness of C25: the kinds `a:1` and `a` with the ports 2 and 12. -/
theorem C25_key_injective_witness :
    (Honeypot.StopGenericService
        { sshSrv := none, httpSrv := none, svcCancels := [("a:1:2", 7), ("a:12", 8)] }
        "a:1" 2).1.svcCancels.get (svcKeyOf "a" 12) = some 8 :=
  ((C25_key_injective "a:1" "a" 2 12
      { sshSrv := none, httpSrv := none, svcCancels := [("a:1:2", 7), ("a:12", 8)] }
      "" "" none 0 0 sampleFtp "" sampleWorld).2.2.2.2.2.1 (by decide)).1

/-! ## Replies and events of a generic connection -/

theorem connStep_lf (kind name : String) (port : Int) (remote : String) (buf : List Char) :
    connStep kind name port remote buf '\n' = ([], connLine kind name port remote buf) := rfl

theorem connStep_out_of_ne (kind name : String) (port : Int) (remote : String)
    (buf : List Char) {b : Char} (h : b ≠ '\n') :
    (connStep kind name port remote buf b).2 = [] := by
  unfold connStep
  split_ifs <;> rfl

theorem connStep_plain (kind name : String) (port : Int) (remote : String) (buf : List Char)
    {b : Char} (h : PlainByte b) (hlen : buf.length < 1024) :
    connStep kind name port remote buf b = (buf ++ [b], []) := by
  obtain ⟨h1, h2, h3, h4⟩ := h
  have h5 : ¬(b.toNat = 0x7f ∨ b.toNat = 0x08) := by omega
  unfold connStep
  rw [if_neg h1, if_neg h2, if_neg h5, if_pos hlen]

theorem connLoop_cons (kind name : String) (port : Int) (remote : String) (buf : List Char)
    (b : Char) (rest : List Char) :
    connLoop kind name port remote buf (b :: rest) =
      ((connLoop kind name port remote (connStep kind name port remote buf b).1 rest).1,
        (connStep kind name port remote buf b).2 ++
          (connLoop kind name port remote (connStep kind name port remote buf b).1 rest).2) :=
  rfl

theorem connLoop_append (kind name : String) (port : Int) (remote : String) (a b : List Char) :
    ∀ buf : List Char,
      connLoop kind name port remote buf (a ++ b) =
        ((connLoop kind name port remote (connLoop kind name port remote buf a).1 b).1,
          (connLoop kind name port remote buf a).2 ++
            (connLoop kind name port remote (connLoop kind name port remote buf a).1 b).2) := by
  induction a with
  | nil => intro buf; simp [connLoop]
  | cons c rest ih =>
    intro buf
    rw [List.cons_append, connLoop_cons, ih, connLoop_cons]
    simp [List.append_assoc]

/-- Plain bytes that fit into the line buffer are buffered as they come and
nothing is done. -/
theorem connLoop_plain (kind name : String) (port : Int) (remote : String)
    (bytes : List Char) :
    ∀ buf : List Char, (∀ b ∈ bytes, PlainByte b) → buf.length + bytes.length ≤ 1024 →
      connLoop kind name port remote buf bytes = (buf ++ bytes, []) := by
  induction bytes with
  | nil => intro buf _ _; simp [connLoop]
  | cons c rest ih =>
    intro buf hp hlen
    simp only [List.length_cons] at hlen
    rw [connLoop_cons, connStep_plain kind name port remote buf (hp c (List.mem_cons_self _ _))
      (by omega)]
    simp only
    rw [ih (buf ++ [c]) (fun b hb => hp b (List.mem_cons_of_mem _ hb))
      (by simp only [List.length_append, List.length_singleton]; omega)]
    simp

theorem connLoop_out (kind name : String) (port : Int) (remote : String) (input : List Char) :
    ∀ buf : List Char,
      (connLoop kind name port remote buf input).2 =
        (connLines kind name port remote buf input).flatMap (connLine kind name port remote) := by
  induction input with
  | nil => intro buf; rfl
  | cons b rest ih =>
    intro buf
    rw [connLoop_cons]
    simp only [connLines]
    by_cases hb : b = '\n'
    · subst hb
      rw [if_pos rfl, connStep_lf]
      simp only [List.flatMap_cons]
      rw [ih]
    · rw [if_neg hb, connStep_out_of_ne kind name port remote buf hb, ih]
      rfl

theorem writesOf_append (a b : List Out) : writesOf (a ++ b) = writesOf a ++ writesOf b := by
  simp [writesOf]

theorem eventsOf_append (a b : List Out) : eventsOf (a ++ b) = eventsOf a ++ eventsOf b := by
  simp [eventsOf]

theorem connLine_of_nonempty (kind name : String) (port : Int) (remote : String)
    (buf : List Char) (h : TrimSpace (String.mk buf) ≠ "") :
    connLine kind name port remote buf =
      [Out.event { AttackerIP := parseIP remote, TargetPort := port,
                   EvType := "SERVICE_COMMAND",
                   Payload := [("service", kind), ("name", name),
                               ("command", TrimSpace (String.mk buf))],
                   Severity := "Low" },
       Out.write (replyFor kind (TrimSpace (String.mk buf)))] := by
  have hb : (TrimSpace (String.mk buf) != "") = true := by simpa using h
  simp only [connLine, hb, if_true]

theorem connLine_of_empty (kind name : String) (port : Int) (remote : String)
    (buf : List Char) (h : TrimSpace (String.mk buf) = "") :
    connLine kind name port remote buf = [Out.write "\r\n"] := by
  simp [connLine, h]

/-- C21: the canned reply of a generic service.  The reply to a line L is L
followed by CR LF for telnet, the fixed texts of ftp, redis and smtp, and OK
CR LF for every other kind.  At a line feed, the handler replies to the
trimmed line buffer when that is not empty, whatever the buffer holds; for
bytes that are neither CR, LF, BS nor DEL and fit into the buffer, followed by
CR LF, the line is these bytes, trimmed; and a telnet service that receives
`foo` and a line feed writes exactly `foo`, CR, LF. -/
theorem C21_canned_reply (kind name : String) (port : Int) (remote L : String)
    (buf bytes : List Char) :
    replyFor "telnet" L = L ++ "\r\n" ∧
    replyFor "ftp" L = "500 Unknown command\r\n" ∧
    replyFor "redis" L = "-ERR unknown command\r\n" ∧
    replyFor "smtp" L = "500 5.5.2 Error: bad syntax\r\n" ∧
    (kind ∉ ["ftp", "telnet", "redis", "smtp"] → replyFor kind L = "OK\r\n") ∧
    (TrimSpace (String.mk buf) ≠ "" →
      writesOf (connStep kind name port remote buf '\n').2 =
        [replyFor kind (TrimSpace (String.mk buf))]) ∧
    ((∀ b ∈ bytes, PlainByte b) → bytes.length ≤ 1024 → TrimSpace (String.mk bytes) ≠ "" →
      writesOf (connLoop kind name port remote [] (bytes ++ ['\r', '\n'])).2 =
        [replyFor kind (TrimSpace (String.mk bytes))]) ∧
    writesOf (handleConn "telnet" "t" 23 "" "203.0.113.9:50000" "foo\n".data) = ["foo\r\n"] ∧
    writesOf (handleConn "telnet" "t" 23 "" "203.0.113.9:50000" " fox\x08o \r\n".data) =
      ["foo\r\n"] := by
  refine ⟨rfl, rfl, rfl, rfl, ?_, ?_, ?_, by decide, by decide⟩
  · intro hk
    simp only [List.mem_cons, List.mem_singleton, List.not_mem_nil, or_false, not_or] at hk
    obtain ⟨h1, h2, h3, h4⟩ := hk
    simp [replyFor, h1, h2, h3, h4]
  · intro h
    rw [connStep_lf, connLine_of_nonempty kind name port remote buf h]
    rfl
  · intro hp hlen h
    rw [connLoop_append, connLoop_plain kind name port remote bytes [] hp (by simpa using hlen)]
    simp only [List.nil_append]
    have : connLoop kind name port remote bytes ['\r', '\n'] =
        ([], connLine kind name port remote bytes) := by
      simp [connLoop, connStep]
    rw [this, connLine_of_nonempty kind name port remote bytes h]
    rfl

/-- Witness of C21: a service of kind mqtt and the line buffer `ping`. -/
theorem C21_canned_reply_witness :
    replyFor "mqtt" "ping" = "OK\r\n" ∧
    writesOf (connStep "mqtt" "m" 1883 "203.0.113.9:50000" "ping".data '\n').2 =
      [replyFor "mqtt" (TrimSpace (String.mk "ping".data))] :=
  ⟨(C21_canned_reply "mqtt" "m" 1883 "203.0.113.9:50000" "ping" "ping".data []).2.2.2.2.1
      (by decide),
   (C21_canned_reply "mqtt" "m" 1883 "203.0.113.9:50000" "ping" "ping".data []).2.2.2.2.2.1
      (by decide)⟩

/-! ## The event stream of a generic connection -/

theorem eventsOf_connLine (kind name : String) (port : Int) (remote : String)
    (buf : List Char) :
    eventsOf (connLine kind name port remote buf) =
      if TrimSpace (String.mk buf) != "" then
        [{ AttackerIP := parseIP remote, TargetPort := port, EvType := "SERVICE_COMMAND",
           Payload := [("service", kind), ("name", name),
                       ("command", TrimSpace (String.mk buf))],
           Severity := "Low" }]
      else [] := by
  unfold connLine
  split_ifs <;> rfl

theorem eventsOf_flatMap_connLine (kind name : String) (port : Int) (remote : String)
    (lines : List (List Char)) :
    eventsOf (lines.flatMap (connLine kind name port remote)) =
      (lines.filter (fun b => TrimSpace (String.mk b) != "")).map
        (fun b => ({ AttackerIP := parseIP remote, TargetPort := port,
                     EvType := "SERVICE_COMMAND",
                     Payload := [("service", kind), ("name", name),
                                 ("command", TrimSpace (String.mk b))],
                     Severity := "Low" } : Event)) := by
  induction lines with
  | nil => rfl
  | cons b rest ih =>
    rw [List.flatMap_cons, eventsOf_append, ih, eventsOf_connLine, List.filter_cons]
    split_ifs <;> simp

theorem handleConn_eq (kind name : String) (port : Int) (banner remote : String)
    (input : List Char) :
    handleConn kind name port banner remote input =
      Out.event { AttackerIP := parseIP remote, TargetPort := port,
                  EvType := "SERVICE_CONNECT",
                  Payload := [("service", kind), ("name", name)], Severity := "Low" } ::
        ((if banner != "" then [Out.write banner] else []) ++
          (connLines kind name port remote [] input).flatMap
            (connLine kind name port remote)) := by
  simp [handleConn, connAccept, connLoop_out]

theorem eventsOf_handleConn (kind name : String) (port : Int) (banner remote : String)
    (input : List Char) :
    eventsOf (handleConn kind name port banner remote input) =
      { AttackerIP := parseIP remote, TargetPort := port, EvType := "SERVICE_CONNECT",
        Payload := [("service", kind), ("name", name)], Severity := "Low" } ::
        ((connLines kind name port remote [] input).filter
            (fun b => TrimSpace (String.mk b) != "")).map
          (fun b => ({ AttackerIP := parseIP remote, TargetPort := port,
                       EvType := "SERVICE_COMMAND",
                       Payload := [("service", kind), ("name", name),
                                   ("command", TrimSpace (String.mk b))],
                       Severity := "Low" } : Event)) := by
  rw [handleConn_eq, ← eventsOf_flatMap_connLine]
  have h : ∀ (ev : Event) (o : List Out), eventsOf (Out.event ev :: o) = ev :: eventsOf o :=
    fun _ _ => rfl
  rw [h, eventsOf_append]
  split_ifs <;> simp [eventsOf]

/-- The lines of plain bytes that fit into the buffer and end at a line feed:
the first line is the bytes before the line feed. -/
theorem connLines_plain (kind name : String) (port : Int) (remote : String)
    (bytes rest : List Char) :
    ∀ buf : List Char, (∀ b ∈ bytes, PlainByte b) → buf.length + bytes.length ≤ 1024 →
      connLines kind name port remote buf (bytes ++ '\n' :: rest) =
        (buf ++ bytes) :: connLines kind name port remote [] rest := by
  induction bytes with
  | nil => intro buf _ _; simp [connLines]
  | cons c cs ih =>
    intro buf hp hlen
    simp only [List.length_cons] at hlen
    have hc : PlainByte c := hp c (List.mem_cons_self _ _)
    rw [List.cons_append]
    simp only [connLines]
    rw [if_neg hc.2.1, connStep_plain kind name port remote buf hc (by omega)]
    simp only
    rw [ih (buf ++ [c]) (fun b hb => hp b (List.mem_cons_of_mem _ hb))
      (by simp only [List.length_append, List.length_singleton]; omega)]
    simp

/-- C22: the event stream of a generic connection.  For every input, the
handler first sends the SERVICE_CONNECT event (severity Low, payload kind and
name), then writes the banner if there is one, then does, for each line
buffer met at a line feed and in that order, the steps of that line; its
events are the connect event followed by one SERVICE_COMMAND event (severity
Low, payload kind, name and the trimmed line) for each line that is not empty
after trimming, in order; exactly one of its events is a SERVICE_CONNECT; and
a line that is empty after trimming gets the reply CR LF and no event. -/
theorem C22_event_stream (kind name : String) (port : Int) (banner remote : String)
    (input buf : List Char) :
    handleConn kind name port banner remote input =
      Out.event { AttackerIP := parseIP remote, TargetPort := port,
                  EvType := "SERVICE_CONNECT",
                  Payload := [("service", kind), ("name", name)], Severity := "Low" } ::
        ((if banner != "" then [Out.write banner] else []) ++
          (connLines kind name port remote [] input).flatMap
            (connLine kind name port remote)) ∧
    eventsOf (handleConn kind name port banner remote input) =
      { AttackerIP := parseIP remote, TargetPort := port, EvType := "SERVICE_CONNECT",
        Payload := [("service", kind), ("name", name)], Severity := "Low" } ::
        ((connLines kind name port remote [] input).filter
            (fun b => TrimSpace (String.mk b) != "")).map
          (fun b => ({ AttackerIP := parseIP remote, TargetPort := port,
                       EvType := "SERVICE_COMMAND",
                       Payload := [("service", kind), ("name", name),
                                   ("command", TrimSpace (String.mk b))],
                       Severity := "Low" } : Event)) ∧
    ((eventsOf (handleConn kind name port banner remote input)).filter
        (fun ev => ev.EvType == "SERVICE_CONNECT")).length = 1 ∧
    (TrimSpace (String.mk buf) = "" →
      connLine kind name port remote buf = [Out.write "\r\n"] ∧
      eventsOf (connLine kind name port remote buf) = []) ∧
    (TrimSpace (String.mk buf) ≠ "" →
      connLine kind name port remote buf =
        [Out.event { AttackerIP := parseIP remote, TargetPort := port,
                     EvType := "SERVICE_COMMAND",
                     Payload := [("service", kind), ("name", name),
                                 ("command", TrimSpace (String.mk buf))],
                     Severity := "Low" },
         Out.write (replyFor kind (TrimSpace (String.mk buf)))]) ∧
    connLines "ftp" "f" 21 "203.0.113.9:50000" [] "USER a\r\n  \r\nQUIT\r\nrest".data =
      ["USER a".data, "  ".data, "QUIT".data] ∧
    handleConn "ftp" "f" 21 "220 ready\r\n" "203.0.113.9:50000" "USER a\r\n  \r\nQUIT\r\n".data =
      [Out.event { AttackerIP := "203.0.113.9", TargetPort := 21, EvType := "SERVICE_CONNECT",
                   Payload := [("service", "ftp"), ("name", "f")], Severity := "Low" },
       Out.write "220 ready\r\n",
       Out.event { AttackerIP := "203.0.113.9", TargetPort := 21, EvType := "SERVICE_COMMAND",
                   Payload := [("service", "ftp"), ("name", "f"), ("command", "USER a")],
                   Severity := "Low" },
       Out.write "500 Unknown command\r\n",
       Out.write "\r\n",
       Out.event { AttackerIP := "203.0.113.9", TargetPort := 21, EvType := "SERVICE_COMMAND",
                   Payload := [("service", "ftp"), ("name", "f"), ("command", "QUIT")],
                   Severity := "Low" },
       Out.write "500 Unknown command\r\n"] := by
  refine ⟨handleConn_eq _ _ _ _ _ _, eventsOf_handleConn _ _ _ _ _ _, ?_, ?_,
    connLine_of_nonempty kind name port remote buf, by decide, by decide⟩
  · rw [eventsOf_handleConn, List.filter_cons]
    simp [List.filter_map, Function.comp_def]
  · intro h
    rw [connLine_of_empty kind name port remote buf h]
    exact ⟨rfl, rfl⟩

/-- Witness of C22: the line buffer of two blanks, and the line buffer `PING`. -/
theorem C22_event_stream_witness :
    (connLine "redis" "r" 6379 "203.0.113.9:50000" "  ".data = [Out.write "\r\n"] ∧
      eventsOf (connLine "redis" "r" 6379 "203.0.113.9:50000" "  ".data) = []) ∧
    connLine "redis" "r" 6379 "203.0.113.9:50000" "PING".data =
      [Out.event { AttackerIP := parseIP "203.0.113.9:50000", TargetPort := 6379,
                   EvType := "SERVICE_COMMAND",
                   Payload := [("service", "redis"), ("name", "r"),
                               ("command", TrimSpace (String.mk "PING".data))],
                   Severity := "Low" },
       Out.write (replyFor "redis" (TrimSpace (String.mk "PING".data)))] :=
  ⟨(C22_event_stream "redis" "r" 6379 "" "203.0.113.9:50000" [] "  ".data).2.2.2.1
      (by decide),
   (C22_event_stream "redis" "r" 6379 "" "203.0.113.9:50000" [] "PING".data).2.2.2.2.1
      (by decide)⟩

/-! ## The attacker address -/

theorem parseIP_append (a b : String) (h : ':' ∉ b.data) :
    parseIP (a ++ ":" ++ b) = a := by
  have hL : LastIndex (a ++ ":" ++ b) ':' = a.data.length := LastIndex_append a b ':' h
  unfold parseIP
  rw [hL]
  have hne : ((a.data.length : Int) != -1) = true := by
    simp only [bne_iff_ne, ne_eq]; omega
  rw [if_pos hne]
  apply String.ext
  simp [String.data_append]

/-- C23: what `parseIP` makes of a remote address.  For every text a and every
port p, `parseIP` cuts the text `a:p` at its last colon and returns a: the
address of an IPv4 peer.  For an IPv6 peer, rendered `[a]:p`, it returns
`[a]`, the address inside its brackets, and not a: the remote address
`[2001:db8::1]:50000` gives `[2001:db8::1]`.  A text without a colon is
returned as it is. -/
theorem C23_parseIP (a : String) (p : Int) :
    parseIP (a ++ ":" ++ Itoa p) = a ∧
    parseIP ("[" ++ a ++ "]" ++ ":" ++ Itoa p) = "[" ++ a ++ "]" ∧
    parseIP ("[" ++ a ++ "]" ++ ":" ++ Itoa p) ≠ a ∧
    parseIP "203.0.113.9:50000" = "203.0.113.9" ∧
    parseIP "[2001:db8::1]:50000" = "[2001:db8::1]" ∧
    parseIP "[2001:db8::1]:50000" ≠ "2001:db8::1" ∧
    parseIP "[::1]:22" = "[::1]" ∧
    parseIP "localhost" = "localhost" := by
  refine ⟨parseIP_append _ _ (colon_not_mem_Itoa p), parseIP_append _ _ (colon_not_mem_Itoa p),
    ?_, by decide, by decide, by decide, by decide, by decide⟩
  rw [parseIP_append _ _ (colon_not_mem_Itoa p)]
  intro h
  have := congrArg (fun s : String => s.data.length) h
  simp [String.data_append] at this
  omega

/-! ## Canned files and `touch` -/

theorem catText_canned (user : String) (files : GoMap String) (arg p : String)
    (hp : p ∈ ["/etc/passwd", "/etc/hosts", "/etc/os-release", "/proc/cpuinfo"]) :
    catText user files arg p = catText user [] arg p := by
  simp only [List.mem_cons, List.mem_singleton, List.not_mem_nil, or_false] at hp
  rcases hp with h | h | h | h <;> subst h <;> rfl

theorem respond_touch_get (st : Session) (t : String) {k v : String}
    (h : st.files.get k = some v) :
    (respond st ("touch " ++ t)).1.files.get k = some v := by
  rw [respond_touch]
  split_ifs with h1 h2
  · have hk : k ≠ resolvePath st.cwd (TrimSpace t) := by
      intro e
      rw [← e, h] at h2
      exact absurd h2 (by simp)
    show (st.files.set (resolvePath st.cwd (TrimSpace t)) "").get k = some v
    rw [GoMap.get_set_of_ne _ _ hk]
    exact h
  · exact h
  · exact h

theorem execLine_touch_get (port : Int) (remote : String) (st : Session) (t : String)
    {k v : String} (h : st.files.get k = some v) :
    (execLine port remote st ("touch " ++ t)).1.files.get k = some v := by
  rw [execLine_state port remote st (by simp [String.ext_iff]) (by simp [String.ext_iff])
    (by simp [String.ext_iff]) (by simp [String.ext_iff])]
  exact respond_touch_get { st with history := st.history ++ ["touch " ++ t] } t h

theorem execLine_user (port : Int) (remote : String) (st : Session) (cmd : String) :
    (execLine port remote st cmd).1.user = st.user := by
  unfold execLine
  split_ifs
  · rfl
  · rfl
  · exact (respond_keeps _ _).2.2
  · rfl

theorem sshStep_user (port : Int) (remote : String) (st : Session) (ch : Char) :
    (sshStep port remote st ch).1.user = st.user := by
  unfold sshStep
  split_ifs
  · rfl
  · exact execLine_user port remote _ _
  · rfl
  · rfl
  · rfl
  · rfl

theorem sshLoop_user (port : Int) (remote : String) (input : List Char) :
    ∀ st : Session, (sshLoop port remote st input).1.user = st.user := by
  induction input with
  | nil => intro st; rfl
  | cons ch rest ih =>
    intro st
    simp only [sshLoop]
    split_ifs
    · exact sshStep_user port remote st ch
    · exact (ih _).trans (sshStep_user port remote st ch)

theorem writesOf_execLine_cat (port : Int) (remote : String) (st : Session) (t : String) :
    writesOf (execLine port remote st ("cat " ++ t)).2.1 =
      [catText st.user st.files (TrimSpace t) (resolvePath st.cwd (TrimSpace t)),
        promptText st.cwd] := by
  rw [execLine_cat]
  rfl

theorem resolvePath_absolute (cwd : String) {p : String} (h : HasPrefix p "/" = true) :
    resolvePath cwd p = p := by
  rw [resolvePath_eq, if_pos h]

/-- C27: canned files shadow what the session wrote, and `touch` keeps the
content of a file.  In every session state, hence after any lines of `echo`
and `touch`, `cat` of /etc/passwd, /etc/hosts, /etc/os-release and
/proc/cpuinfo writes the canned text and then the prompt; the passwd text
names the user of the session, which no input changes.  For a `cat` whose
argument names one of the four paths, the text does not depend on the file
table.  A `touch` line leaves the content of every file that is in the file
table, so the content stored by an `echo ... > P` line is still there after a
`touch` line, whatever it names. -/
theorem C27_canned_shadow (port : Int) (remote : String) (st : Session) (user : String)
    (input : List Char) (files : GoMap String) (t e arg p k v : String) :
    writesOf (execLine port remote st "cat /etc/passwd").2.1 =
      ["\r\nroot:x:0:0:root:/root:/bin/bash\r\nwww-data:x:33:33:www-data:/var/www:/usr/sbin/nologin\r\n"
          ++ st.user ++ ":x:1000:1000::/home/" ++ st.user ++ ":/bin/bash\r\n",
        promptText st.cwd] ∧
    writesOf (execLine port remote st "cat /etc/hosts").2.1 =
      ["\r\n127.0.0.1\tlocalhost\r\n192.168.1.100\tubuntu\r\n", promptText st.cwd] ∧
    writesOf (execLine port remote st "cat /etc/os-release").2.1 =
      ["\r\nNAME=\"Ubuntu\"\r\nVERSION=\"22.04 LTS\"\r\n", promptText st.cwd] ∧
    writesOf (execLine port remote st "cat /proc/cpuinfo").2.1 =
      ["\r\nprocessor\t: 0\r\nmodel name\t: Intel(R) Xeon(R) CPU\r\n", promptText st.cwd] ∧
    (sshLoop port remote (newSession user) input).1.user = user ∧
    (p ∈ ["/etc/passwd", "/etc/hosts", "/etc/os-release", "/proc/cpuinfo"] →
      catText user files arg p = catText user [] arg p) ∧
    (st.files.get k = some v →
      (execLine port remote st ("touch " ++ t)).1.files.get k = some v) ∧
    (Contains ("echo " ++ e) ">" = true →
      (execLine port remote (execLine port remote st ("echo " ++ e)).1 ("touch " ++ t)).1.files.get
          (resolvePath st.cwd (TrimSpace ((SplitN2 ("echo " ++ e) '>').2.getD ""))) =
        some (Trim (TrimSpace (TrimPrefix (TrimSpace (SplitN2 ("echo " ++ e) '>').1) "echo"))
          "\x27\x22")) ∧
    (sshHandler 22 "203.0.113.9:50000" "bob" "echo hi > f\ntouch f\n".data).1.files =
      [("/home/bob/f", "hi")] ∧
    (sshHandler 22 "203.0.113.9:50000" "bob"
        "echo x > /etc/hosts\ntouch /etc/hosts\n".data).1.files = [("/etc/hosts", "x")] ∧
    writesOf (execLine 22 "203.0.113.9:50000"
        (sshHandler 22 "203.0.113.9:50000" "bob"
          "echo x > /etc/hosts\ntouch /etc/hosts\n".data).1 "cat /etc/hosts").2.1 =
      ["\r\n127.0.0.1\tlocalhost\r\n192.168.1.100\tubuntu\r\n", "\r\n/home/bob$ "] := by
  refine ⟨?_, ?_, ?_, ?_, sshLoop_user port remote input (newSession user),
    catText_canned user files arg p, execLine_touch_get port remote st t, ?_,
    by decide, by decide, by decide⟩
  · show writesOf (execLine port remote st ("cat " ++ "/etc/passwd")).2.1 = _
    rw [writesOf_execLine_cat, show TrimSpace "/etc/passwd" = "/etc/passwd" by decide,
      resolvePath_absolute _ (by decide)]
    rfl
  · show writesOf (execLine port remote st ("cat " ++ "/etc/hosts")).2.1 = _
    rw [writesOf_execLine_cat, show TrimSpace "/etc/hosts" = "/etc/hosts" by decide,
      resolvePath_absolute _ (by decide)]
    rfl
  · show writesOf (execLine port remote st ("cat " ++ "/etc/os-release")).2.1 = _
    rw [writesOf_execLine_cat, show TrimSpace "/etc/os-release" = "/etc/os-release" by decide,
      resolvePath_absolute _ (by decide)]
    rfl
  · show writesOf (execLine port remote st ("cat " ++ "/proc/cpuinfo")).2.1 = _
    rw [writesOf_execLine_cat, show TrimSpace "/proc/cpuinfo" = "/proc/cpuinfo" by decide,
      resolvePath_absolute _ (by decide)]
    rfl
  · intro hc
    apply execLine_touch_get
    rw [execLine_state port remote st (by simp [String.ext_iff]) (by simp [String.ext_iff])
      (by simp [String.ext_iff]) (by simp [String.ext_iff]), respond_echo _ _ hc]
    exact GoMap.get_set_self _ _ _

/-- Witness of C27: the path /etc/hosts with a file table that holds it, a
session that wrote `hi` to /home/bob/f, and the line `echo hi > f`. -/
theorem C27_canned_shadow_witness :
    catText "bob" [("/etc/hosts", "x")] "/etc/hosts" "/etc/hosts" =
      catText "bob" [] "/etc/hosts" "/etc/hosts" ∧
    (execLine 22 "203.0.113.9:50000"
        { newSession "bob" with files := [("/home/bob/f", "hi")] } ("touch " ++ "f")).1.files.get
      "/home/bob/f" = some "hi" ∧
    (execLine 22 "203.0.113.9:50000"
        (execLine 22 "203.0.113.9:50000" (newSession "bob") ("echo " ++ "hi > f")).1
        ("touch " ++ "f")).1.files.get
          (resolvePath (newSession "bob").cwd
            (TrimSpace ((SplitN2 ("echo " ++ "hi > f") '>').2.getD ""))) =
        some (Trim (TrimSpace (TrimPrefix (TrimSpace (SplitN2 ("echo " ++ "hi > f") '>').1)
          "echo")) "\x27\x22") :=
  ⟨(C27_canned_shadow 22 "203.0.113.9:50000" (newSession "bob") "bob" []
      [("/etc/hosts", "x")] "f" "hi > f" "/etc/hosts" "/etc/hosts" "/home/bob/f" "hi").2.2.2.2.2.1
      (by decide),
   (C27_canned_shadow 22 "203.0.113.9:50000"
      { newSession "bob" with files := [("/home/bob/f", "hi")] } "bob" []
      [] "f" "hi > f" "/etc/hosts" "/etc/hosts" "/home/bob/f" "hi").2.2.2.2.2.2.1
      (by decide),
   (C27_canned_shadow 22 "203.0.113.9:50000" (newSession "bob") "bob" []
      [] "f" "hi > f" "/etc/hosts" "/etc/hosts" "/home/bob/f" "hi").2.2.2.2.2.2.2.1
      (by decide)⟩

end ZecX
